import Mathlib

/-! # Windows time-zone transition rules (qtimezoneprivate_win.cpp)

A shallow embedding of the rule lookup, the date resolution and the
transition-pair calculation of `QWinTimeZonePrivate`, and the properties of
them that the specification states.

Conventions of the embedding:

* `int` and `qint64` values are `Int`; where the source can leave the range of
  its type the result is wrapped (`wrap32`, `wrap64`);
* the `WORD` fields of `SYSTEMTIME` are `Nat`;
* a loop is a structurally recursive function on a fuel argument, and `none`
  stands for a loop that has not finished within the fuel.
-/

namespace QWinTimeZone

/-! ## Data model -/

/-- Least year of the year loops (the anonymous enum at the top of the file). -/
def MIN_YEAR : Int := -292275056

/-- Greatest year of the year loops. -/
def MAX_YEAR : Int := 292278994

/-- Milliseconds of a day. -/
def MSECS_PER_DAY : Int := 86400000

/-- Result of julianDayFromDate(1970, 1, 1). -/
def JULIAN_DAY_FOR_EPOCH : Int := 2440588

/-- SYSTEMTIME of the Windows API (eight WORD fields), as the code reads it. -/
structure SYSTEMTIME where
  wYear : Nat
  wMonth : Nat
  wDayOfWeek : Nat
  wDay : Nat
  wHour : Nat
  wMinute : Nat
  wSecond : Nat
  wMilliseconds : Nat
deriving DecidableEq, Repr

/-- Modelled from the spec: QWinTransitionRule is declared in
qtimezoneprivate_p.h, which is not among the sources. The fields are the ones
the spec lists for a TransitionRule, under the names the code uses. -/
structure QWinTransitionRule where
  startYear : Int
  standardTimeBias : Int
  daylightTimeBias : Int
  standardTimeRule : SYSTEMTIME
  daylightTimeRule : SYSTEMTIME
deriving DecidableEq, Repr

/-! ## Machine integers -/

/-- The value an `int` computation leaves when it passes the ends of 32 bits. -/
def wrap32 (x : Int) : Int := (x + 2147483648) % 4294967296 - 2147483648

/-- The value a `qint64` computation leaves when it passes the ends of 64 bits. -/
def wrap64 (x : Int) : Int :=
  (x + 9223372036854775808) % 18446744073709551616 - 9223372036854775808

/-- Modelled from the spec: QTimeZonePrivate::invalidMSecs() is declared in
qtimezoneprivate_p.h, which is not among the sources; it is the sentinel
"invalid instant", the minimum 64-bit integer. -/
def invalidMSecs : Int := -9223372036854775808

/-! ## QDate and QTime -/

/-- Modelled from the spec: QDate::floordiv (qdatetime.cpp, not among the
sources): integer division rounding to negative infinity, written with the
truncating division of C++. -/
def floordiv (a b : Int) : Int := Int.tdiv (a - (if a < 0 then b - 1 else 0)) b

/-- Modelled from the spec: QDate (qdatetime.cpp, not among the sources) is a
date of the proleptic calendar the spec names, held as a Julian day number.
An invalid ("no date") QDate holds `nullJd`. -/
structure QDate where
  jd : Int
deriving DecidableEq, Repr

/-- The year, month and day of a date. -/
structure ParsedDate where
  year : Int
  month : Int
  day : Int
deriving DecidableEq, Repr

namespace QDate

/-- Modelled from the spec: QDate::nullJd(), the least qint64, held by "no date". -/
def nullJd : Int := -9223372036854775808

/-- Modelled from the spec: QDate::minJd(), the Julian day of 1 January of the
least `int` year. -/
def minJd : Int := -784350574879

/-- Modelled from the spec: QDate::maxJd(), the Julian day of 31 December of
the greatest `int` year. -/
def maxJd : Int := 784354017364

/-- Modelled from the spec: the default-constructed QDate, the "no date" value. -/
def null : QDate := ⟨nullJd⟩

/-- Modelled from the spec: QDate::isValid(), the Julian day is within the
range of dates QDate supports. -/
def isValid (d : QDate) : Bool := decide (minJd ≤ d.jd) && decide (d.jd ≤ maxJd)

/-- Modelled from the spec: QDate::isLeapYear; there is no year 0, so the
years -1, -5, -9 are leap years. -/
def isLeapYear (y : Int) : Bool :=
  let y := if y < 1 then y + 1 else y
  (Int.tmod y 4 == 0 && Int.tmod y 100 != 0) || Int.tmod y 400 == 0

/-- Modelled from the spec: the table monthDays of qdatetime.cpp. -/
def monthDays (month : Int) : Int :=
  if month = 2 then 28
  else if month = 4 ∨ month = 6 ∨ month = 9 ∨ month = 11 then 30
  else if 1 ≤ month ∧ month ≤ 12 then 31
  else 0

/-- Modelled from the spec: QDate::isValid(year, month, day); there is no
year 0 in the calendar. -/
def isValidYMD (year month day : Int) : Bool :=
  if year = 0 then false
  else (decide (day > 0) && decide (month > 0) && decide (month ≤ 12)) &&
    (decide (day ≤ monthDays month) ||
      (decide (day = 29) && decide (month = 2) && isLeapYear year))

/-- Modelled from the spec: julianDayFromDate of qdatetime.cpp. -/
def julianDayFromDate (year month day : Int) : Int :=
  let year := if year < 0 then year + 1 else year
  let a := floordiv (14 - month) 12
  let y := year + 4800 - a
  let m := month + 12 * a - 3
  day + floordiv (153 * m + 2) 5 + 365 * y + floordiv y 4 - floordiv y 100
    + floordiv y 400 - 32045

/-- Modelled from the spec: getDateFromJulianDay of qdatetime.cpp. -/
def getDateFromJulianDay (julianDay : Int) : ParsedDate :=
  let a := julianDay + 32044
  let b := floordiv (4 * a + 3) 146097
  let c := a - floordiv (146097 * b) 4
  let d := floordiv (4 * c + 3) 1461
  let e := c - floordiv (1461 * d) 4
  let m := floordiv (5 * e + 2) 153
  let day := e - floordiv (153 * m + 2) 5 + 1
  let month := m + 3 - 12 * floordiv m 10
  let year := 100 * b + d - 4800 + floordiv m 10
  let year := if year ≤ 0 then year - 1 else year
  ⟨year, month, day⟩

/-- Modelled from the spec: the constructor QDate(y, m, d); the "no date"
value when (y, m, d) is not a date of the calendar. -/
def ofYMD (year month day : Int) : QDate :=
  if isValidYMD year month day then ⟨julianDayFromDate year month day⟩ else null

/-- Modelled from the spec: QDate::fromJulianDay. -/
def fromJulianDay (jd : Int) : QDate :=
  if minJd ≤ jd ∧ jd ≤ maxJd then ⟨jd⟩ else null

/-- Modelled from the spec: QDate::addDays; days added to "no date" give "no
date", and so does a sum outside the supported range. The day counts the code
passes are below 2^19, so the 64-bit sum is exact. -/
def addDays (d : QDate) (ndays : Int) : QDate :=
  if d.isValid then fromJulianDay (d.jd + ndays) else null

/-- Modelled from the spec: QDate::dayOfWeek, 1 = Monday to 7 = Sunday, and 0
for "no date". -/
def dayOfWeek (d : QDate) : Int :=
  if d.isValid then
    if d.jd ≥ 0 then Int.tmod d.jd 7 + 1 else Int.tmod (d.jd + 1) 7 + 7
  else 0

/-- Modelled from the spec: QDate::year, 0 for "no date". -/
def year (d : QDate) : Int := if d.isValid then (getDateFromJulianDay d.jd).year else 0

/-- Modelled from the spec: QDate::month, 0 for "no date". -/
def month (d : QDate) : Int := if d.isValid then (getDateFromJulianDay d.jd).month else 0

/-- Modelled from the spec: QDate::day, 0 for "no date". -/
def day (d : QDate) : Int := if d.isValid then (getDateFromJulianDay d.jd).day else 0

/-- Modelled from the spec: QDate::toJulianDay. -/
def toJulianDay (d : QDate) : Int := d.jd

end QDate

/-- Modelled from the spec: QTime (qdatetime.cpp, not among the sources) holds
the milliseconds since the start of the day, -1 for an invalid time. -/
structure QTime where
  mds : Int
deriving DecidableEq, Repr

namespace QTime

/-- Modelled from the spec: the constructor QTime(h, m, s, ms). -/
def ofHMS (h m s ms : Int) : QTime :=
  if 0 ≤ h ∧ h < 24 ∧ 0 ≤ m ∧ m < 60 ∧ 0 ≤ s ∧ s < 60 ∧ 0 ≤ ms ∧ ms < 1000 then
    ⟨(h * 3600 + m * 60 + s) * 1000 + ms⟩
  else ⟨-1⟩

/-- Modelled from the spec: QTime::isValid(). -/
def isValid (t : QTime) : Bool := decide (-1 < t.mds) && decide (t.mds < 86400000)

/-- Modelled from the spec: QTime::msecsSinceStartOfDay, 0 for an invalid time. -/
def msecsSinceStartOfDay (t : QTime) : Int := if t.isValid then t.mds else 0

end QTime

/-! ## Date of a transition -/

/-- The loop `while (date.month() != time.wMonth) date = date.addDays(-7);`
of calculateTransitionLocalDate. -/
def backIntoMonth (wMonth : Nat) : Nat → QDate → Option QDate
  | 0, _ => none
  | fuel + 1, date =>
    if date.month ≠ (wMonth : Int) then backIntoMonth wMonth fuel (date.addDays (-7))
    else some date

/-- The relative branch of calculateTransitionLocalDate up to its loop: the
date `wDay` weeks after the last `wDayOfWeek` before the 1st of the month. -/
def relativeStartDate (rule : SYSTEMTIME) (year : Int) : QDate :=
  let wDayOfWeek : Int := if rule.wDayOfWeek = 0 then 7 else (rule.wDayOfWeek : Int)
  let date := QDate.ofYMD year rule.wMonth 1
  let startDow := date.dayOfWeek
  let date :=
    if startDow ≤ wDayOfWeek then date.addDays (wDayOfWeek - startDow - 7)
    else date.addDays (wDayOfWeek - startDow)
  date.addDays ((rule.wDay : Int) * 7)

/-- The local date of the transition a SYSTEMTIME describes in a `year`;
`none` when the loop has not ended within `fuel` tests of its condition. -/
def calculateTransitionLocalDate (fuel : Nat) (rule : SYSTEMTIME) (year : Int) :
    Option QDate :=
  -- If month is 0 then there is no date
  if rule.wMonth = 0 then some QDate.null
  -- If the year isn't set, then the rule date is relative
  else if rule.wYear = 0 then backIntoMonth rule.wMonth fuel (relativeStartDate rule year)
  -- If the year is set then is an absolute date
  else some (QDate.ofYMD rule.wYear rule.wMonth rule.wDay)

/-- Converts a date/time value into msecs. -/
def timeToMSecs (date : QDate) (time : QTime) : Int :=
  wrap64 (wrap64 (wrap64 (date.toJulianDay - JULIAN_DAY_FOR_EPOCH) * MSECS_PER_DAY)
    + time.msecsSinceStartOfDay)

/-- The instant of the transition of a SYSTEMTIME in a `year`, `bias` minutes
from the local time; `bias * 60000` is an `int` product. -/
def calculateTransitionForYear (fuel : Nat) (rule : SYSTEMTIME) (year bias : Int) :
    Option Int :=
  match calculateTransitionLocalDate fuel rule year with
  | none => none
  | some date =>
    let time := QTime.ofHMS rule.wHour rule.wMinute rule.wSecond 0
    if date.isValid && time.isValid then
      some (wrap64 (timeToMSecs date time + wrap32 (bias * 60000)))
    else some invalidMSecs

/-- Transition times after the epoch, in ms. -/
structure TransitionTimePair where
  std : Int
  dst : Int
deriving DecidableEq, Repr

/-- The constructor TransitionTimePair(rule, year): `std` is initialised
first, then `dst`. -/
def TransitionTimePair.ofRule (fuel : Nat) (rule : QWinTransitionRule) (year : Int) :
    Option TransitionTimePair :=
  -- The local time in Daylight Time of the switch to Standard Time
  match calculateTransitionForYear fuel rule.standardTimeRule year
      (wrap32 (rule.standardTimeBias + rule.daylightTimeBias)) with
  | none => none
  | some std =>
    -- The local time in Standard Time of the switch to Daylight Time
    match calculateTransitionForYear fuel rule.daylightTimeRule year
        rule.standardTimeBias with
    | none => none
    | some dst => some ⟨std, dst⟩

/-! ## ruleIndexForYear -/

/-- The while loop of `ruleIndexForYear` on its variables `lo` and `hi`.
`rules.at(mid)` outside the list is `none`. -/
def ruleIndexLoop (rules : List QWinTransitionRule) (year : Int) : Nat → Nat → Nat → Option Nat
  | 0, _, _ => none
  | fuel + 1, lo, hi =>
    if lo + 1 < hi then
      let mid := (lo + hi) / 2
      match rules[mid]? with
      | none => none
      | some r =>
        let midYear := r.startYear
        if midYear > year then ruleIndexLoop rules year fuel lo mid
        else if midYear < year then ruleIndexLoop rules year fuel mid hi
        else some mid
    else some lo

/-- Index of last rule in rules with .startYear <= year. `rules.last()` and
`rules.first()` of an empty list are `none`. A QList holds fewer than 2^29
entries, so `lo + hi` stays inside `int`. -/
def ruleIndexForYear (rules : List QWinTransitionRule) (year : Int) : Option Nat :=
  match rules.getLast?, rules.head? with
  | some last, some first =>
    if last.startYear ≤ year then some (rules.length - 1)
    else if first.startYear > year then some 0
    else ruleIndexLoop rules year (rules.length + 1) 0 rules.length
  | _, _ => none

/-- The start years of the table increase strictly. -/
def StrictlyIncreasing (rules : List QWinTransitionRule) : Prop :=
  List.Pairwise (fun a b => a.startYear < b.startYear) rules

instance (rules : List QWinTransitionRule) : Decidable (StrictlyIncreasing rules) := by
  unfold StrictlyIncreasing; infer_instance

/-- The index `i` is the greatest one whose rule starts at or before `year`. -/
def IsGreatestIndex (rules : List QWinTransitionRule) (year : Int) (i : Nat) : Prop :=
  (∃ r, rules[i]? = some r ∧ r.startYear ≤ year) ∧
  ∀ j r, rules[j]? = some r → r.startYear ≤ year → j ≤ i

/-! ## The zone, data, and the transition walks -/

/-- Modelled from the spec: QTimeZone::TimeType (qtimezone.h, not among the
sources), the kind of time a name or an offset is asked for. -/
inductive TimeType where
  | StandardTime
  | DaylightTime
  | GenericTime
deriving DecidableEq, Repr

/-- Modelled from the spec: QTimeZonePrivate::Data (qtimezoneprivate_p.h, not
among the sources), the ResolvedOffset of the spec: offsets in seconds. -/
structure Data where
  abbreviation : String
  atMSecsSinceEpoch : Int
  offsetFromUtc : Int
  standardTimeOffset : Int
  daylightTimeOffset : Int
deriving DecidableEq, Repr

/-- Modelled from the spec: QTimeZonePrivate::maxMSecs(), the greatest 64-bit
integer. -/
def maxMSecs : Int := 9223372036854775807

/-- Modelled from the spec: QTimeZonePrivate::minMSecs(), one above the invalid
instant. -/
def minMSecs : Int := -9223372036854775807

/-- Modelled from the spec: QTimeZonePrivate::invalidSeconds(), the least
`int`. -/
def invalidSeconds : Int := -2147483648

/-- Modelled from the spec: QTimeZonePrivate::invalidData(), the invalid
result: no abbreviation, the invalid instant and invalid offsets. -/
def invalidData : Data := ⟨"", invalidMSecs, invalidSeconds, invalidSeconds, invalidSeconds⟩

/-- The members of QWinTimeZonePrivate that the resolution reads. -/
structure QWinTimeZonePrivate where
  m_displayName : String
  m_standardName : String
  m_daylightName : String
  m_tranRules : List QWinTransitionRule
deriving Repr

/-- Modelled from the spec: qAbs of qglobal.h on a qint64, `t >= 0 ? t : -t`. -/
def qAbs (t : Int) : Int := if t ≥ 0 then t else wrap64 (-t)

/-- Fast and reliable conversion from msecs to date for all values. -/
def msecsToDate (msecs : Int) : QDate :=
  let jd := JULIAN_DAY_FOR_EPOCH
  let big := decide (qAbs msecs ≥ MSECS_PER_DAY)
  let jd := if big then wrap64 (jd + Int.tdiv msecs MSECS_PER_DAY) else jd
  let msecs := if big then Int.tmod msecs MSECS_PER_DAY else msecs
  let jd :=
    if msecs < 0 then
      let ds := wrap64 (wrap64 (MSECS_PER_DAY - msecs) - 1)
      wrap64 (jd - Int.tdiv ds MSECS_PER_DAY)
    else jd
  QDate.fromJulianDay jd

/-- The rule `m_tranRules.at(ruleIndexForYear(m_tranRules, year))`. -/
def ruleForYear (rules : List QWinTransitionRule) (year : Int) : Option QWinTransitionRule :=
  match ruleIndexForYear rules year with
  | none => none
  | some i => rules[i]?

/-- The variable `first` of the walks: the lesser of the two instants. -/
def TransitionTimePair.first (pair : TransitionTimePair) : Int :=
  if pair.std < pair.dst then pair.std else pair.dst

/-- The variable `second` of the walks: the other instant. -/
def TransitionTimePair.second (pair : TransitionTimePair) : Int :=
  if pair.std < pair.dst then pair.dst else pair.std

/-- The offsets and the abbreviation of a rule at an instant. The products and
the sum are `int` operations. -/
def ruleToData (z : QWinTimeZonePrivate) (rule : QWinTransitionRule)
    (atMSecsSinceEpoch : Int) (type : TimeType) : Data :=
  let standardTimeOffset := wrap32 (rule.standardTimeBias * -60)
  let daylightTimeOffset :=
    if type = TimeType.DaylightTime then wrap32 (rule.daylightTimeBias * -60) else 0
  let abbreviation :=
    if type = TimeType.DaylightTime then z.m_daylightName else z.m_standardName
  { abbreviation := abbreviation
    atMSecsSinceEpoch := atMSecsSinceEpoch
    offsetFromUtc := wrap32 (standardTimeOffset + daylightTimeOffset)
    standardTimeOffset := standardTimeOffset
    daylightTimeOffset := daylightTimeOffset }

/-- The variables of a walk when its loop is left: `year` has already been
stepped past the year of the last round. -/
structure WalkState where
  rule : QWinTransitionRule
  next : Int
  pair : TransitionTimePair
  year : Int
deriving DecidableEq, Repr

/-- The time type the walks hand to ruleToData: `(next == pair.dst) ?
QTimeZone::DaylightTime : QTimeZone::StandardTime`. -/
def WalkState.type (s : WalkState) : TimeType :=
  if s.next = s.pair.dst then TimeType.DaylightTime else TimeType.StandardTime

/-- The two tests of a round of `data` on the year's pair: the value they leave
in `next`, which was maxMSecs before. -/
def resolveInYear (forMSecsSinceEpoch : Int) (pair : TransitionTimePair) : Int :=
  if forMSecsSinceEpoch ≥ pair.second ∧ pair.second ≠ invalidMSecs then pair.second
  else if forMSecsSinceEpoch ≥ pair.first ∧ pair.first ≠ invalidMSecs then pair.first
  else maxMSecs

/-- The two tests of a round of `nextTransition` on the year's pair: the value
they leave in `next`, which was minMSecs before. -/
def nextInYear (afterMSecsSinceEpoch : Int) (pair : TransitionTimePair) : Int :=
  if afterMSecsSinceEpoch < pair.first then pair.first
  else if afterMSecsSinceEpoch < pair.second then pair.second
  else minMSecs

/-- The two tests of a round of `previousTransition` on the year's pair: the
value they leave in `next`, which was maxMSecs before. -/
def previousInYear (beforeMSecsSinceEpoch : Int) (pair : TransitionTimePair) : Int :=
  if beforeMSecsSinceEpoch > pair.second ∧ pair.second ≠ invalidMSecs then pair.second
  else if beforeMSecsSinceEpoch > pair.first ∧ pair.first ≠ invalidMSecs then pair.first
  else maxMSecs

/-- The do-while loop of `data`: `fuel` bounds its rounds, `dfuel` the loop of
each date resolution. `next` is maxMSecs whenever a round begins. The years
stay far from the ends of `int`. -/
def dataLoop (rules : List QWinTransitionRule) (dfuel : Nat) (forMSecsSinceEpoch : Int) :
    Nat → Int → TransitionTimePair → Option WalkState
  | 0, _, _ => none
  | fuel + 1, year, pair =>
    -- Convert the transition rules into msecs for the year we want to try
    match ruleForYear rules year with
    | none => none
    | some rule =>
      -- If no transition rules to calculate then no DST, so just use rule for std
      if rule.standardTimeRule.wMonth = 0 ∧ rule.daylightTimeRule.wMonth = 0 then
        some ⟨rule, maxMSecs, pair, year⟩
      else
        match TransitionTimePair.ofRule dfuel rule year with
        | none => none
        | some pair =>
          let next := resolveInYear forMSecsSinceEpoch pair
          -- If didn't fall in this year, try the previous
          if next = maxMSecs ∧ year - 1 ≥ MIN_YEAR then
            dataLoop rules dfuel forMSecsSinceEpoch fuel (year - 1) pair
          else some ⟨rule, next, pair, year - 1⟩

/-- The code of `data` from its loop on, entered at a `year` with a `pair`. -/
def dataFrom (z : QWinTimeZonePrivate) (fuel dfuel : Nat) (forMSecsSinceEpoch year : Int)
    (pair : TransitionTimePair) : Option Data :=
  match dataLoop z.m_tranRules dfuel forMSecsSinceEpoch fuel year pair with
  | none => none
  | some s => some (ruleToData z s.rule forMSecsSinceEpoch s.type)

/-- The offsets in effect at an instant. -/
def data (z : QWinTimeZonePrivate) (fuel dfuel : Nat) (forMSecsSinceEpoch : Int) :
    Option Data :=
  -- Convert MSecs to year to get transitions for, assumes no transitions around 31 Dec/1 Jan
  dataFrom z fuel dfuel forMSecsSinceEpoch (msecsToDate forMSecsSinceEpoch).year
    ⟨invalidMSecs, invalidMSecs⟩

/-- The test of both walks on a rule outside the table's years: "If the rules
have either a fixed year, or no month, then no future trans". -/
def noMoreTransitions (rule : QWinTransitionRule) : Bool :=
  decide (rule.standardTimeRule.wYear ≠ 0) || decide (rule.daylightTimeRule.wYear ≠ 0)
    || decide (rule.standardTimeRule.wMonth = 0) || decide (rule.daylightTimeRule.wMonth = 0)

/-- The do-while loop of `nextTransition`; `some none` is its
`return invalidData()`. `next` is minMSecs whenever a round begins. -/
def nextTransitionLoop (rules : List QWinTransitionRule) (dfuel : Nat)
    (afterMSecsSinceEpoch : Int) : Nat → Int → Option (Option WalkState)
  | 0, _ => none
  | fuel + 1, year =>
    match ruleForYear rules year with
    | none => none
    | some rule =>
      -- If no transition rules to calculate then no next transition
      if rule.standardTimeRule.wMonth = 0 ∧ rule.daylightTimeRule.wMonth = 0 then some none
      else
        match TransitionTimePair.ofRule dfuel rule year with
        | none => none
        | some pair =>
          let next := nextInYear afterMSecsSinceEpoch pair
          -- If didn't fall in this year, try the next
          if next = minMSecs ∧ year + 1 ≤ MAX_YEAR then
            nextTransitionLoop rules dfuel afterMSecsSinceEpoch fuel (year + 1)
          else some (some ⟨rule, next, pair, year + 1⟩)

/-- The walk of `nextTransition` up to its last statement: `some none` where
it returns invalidData(), else the variables it hands to ruleToData. -/
def nextTransitionWalk (z : QWinTimeZonePrivate) (fuel dfuel : Nat)
    (afterMSecsSinceEpoch : Int) : Option (Option WalkState) :=
  let year := (msecsToDate afterMSecsSinceEpoch).year
  match z.m_tranRules.getLast? with
  | none => none
  | some last =>
    -- If the required year falls after the last rule start year and the last rule has no
    -- valid future transition calculations then there is no next transition
    let stop : Option Bool :=
      if year > last.startYear then (ruleForYear z.m_tranRules year).map noMoreTransitions
      else some false
    match stop with
    | none => none
    | some true => some none
    | some false =>
      match nextTransitionLoop z.m_tranRules dfuel afterMSecsSinceEpoch fuel year with
      | none => none
      | some none => some none
      | some (some s) =>
        if s.next = minMSecs ∨ s.next = invalidMSecs then some none else some (some s)

/-- The first transition after an instant, or invalidData(). -/
def nextTransition (z : QWinTimeZonePrivate) (fuel dfuel : Nat)
    (afterMSecsSinceEpoch : Int) : Option Data :=
  match nextTransitionWalk z fuel dfuel afterMSecsSinceEpoch with
  | none => none
  | some none => some invalidData
  | some (some s) => some (ruleToData z s.rule s.next s.type)

/-- The do-while loop of `previousTransition`; `some none` is its
`return invalidData()`. `next` is maxMSecs whenever a round begins. -/
def previousTransitionLoop (rules : List QWinTransitionRule) (dfuel : Nat)
    (beforeMSecsSinceEpoch : Int) : Nat → Int → Option (Option WalkState)
  | 0, _ => none
  | fuel + 1, year =>
    match ruleForYear rules year with
    | none => none
    | some rule =>
      -- If no transition rules to calculate then no previous transition
      if rule.standardTimeRule.wMonth = 0 ∧ rule.daylightTimeRule.wMonth = 0 then some none
      else
        match TransitionTimePair.ofRule dfuel rule year with
        | none => none
        | some pair =>
          let next := previousInYear beforeMSecsSinceEpoch pair
          -- If didn't fall in this year, try the previous
          if next = maxMSecs ∧ year - 1 ≥ MIN_YEAR then
            previousTransitionLoop rules dfuel beforeMSecsSinceEpoch fuel (year - 1)
          else some (some ⟨rule, next, pair, year - 1⟩)

/-- The walk of `previousTransition` up to its last statement: `some none`
where it returns invalidData(), else the variables it hands to ruleToData. -/
def previousTransitionWalk (z : QWinTimeZonePrivate) (fuel dfuel : Nat)
    (beforeMSecsSinceEpoch : Int) : Option (Option WalkState) :=
  let year := (msecsToDate beforeMSecsSinceEpoch).year
  match z.m_tranRules.head? with
  | none => none
  | some first =>
    -- If the required year falls before the first rule start year and the first rule has no
    -- valid transition calculations then there is no previous transition
    let stop : Option Bool :=
      if year < first.startYear then (ruleForYear z.m_tranRules year).map noMoreTransitions
      else some false
    match stop with
    | none => none
    | some true => some none
    | some false =>
      match previousTransitionLoop z.m_tranRules dfuel beforeMSecsSinceEpoch fuel year with
      | none => none
      | some none => some none
      | some (some s) => if s.next = maxMSecs then some none else some (some s)

/-- The last transition before an instant, or invalidData(). -/
def previousTransition (z : QWinTimeZonePrivate) (fuel dfuel : Nat)
    (beforeMSecsSinceEpoch : Int) : Option Data :=
  match previousTransitionWalk z fuel dfuel beforeMSecsSinceEpoch with
  | none => none
  | some none => some invalidData
  | some (some s) => some (ruleToData z s.rule s.next s.type)

/-- Whether some rule of the table has a transition in both directions: the
loop of `hasTransitions` over m_tranRules. A WORD is `> 0` when it is not 0. -/
def hasTransitionsLoop : List QWinTransitionRule → Bool
  | [] => false
  | rule :: rest =>
    if rule.standardTimeRule.wMonth > 0 ∧ rule.daylightTimeRule.wMonth > 0 then true
    else hasTransitionsLoop rest

/-- Whether the zone has transitions. -/
def hasTransitions (z : QWinTimeZonePrivate) : Bool := hasTransitionsLoop z.m_tranRules

/-- Whether the zone has daylight time. -/
def hasDaylightTime (z : QWinTimeZonePrivate) : Bool := hasTransitions z

/-- Whether daylight time is in effect at an instant:
`data(atMSecsSinceEpoch).daylightTimeOffset != 0`. -/
def isDaylightTime (z : QWinTimeZonePrivate) (fuel dfuel : Nat) (atMSecsSinceEpoch : Int) :
    Option Bool :=
  match data z fuel dfuel atMSecsSinceEpoch with
  | none => none
  | some d => some (decide (d.daylightTimeOffset ≠ 0))

/-! ## init -/

/-- The loop of `init` over the years of the "Dynamic DST" key, from `year` to
`endYear`; `read year` stands for readRegistryRule on the value of that year,
`none` when the read fails (`ruleOk` false). `++year` is an `int` increment;
`fuel` bounds the rounds. -/
def initLoop (read : Int → Option QWinTransitionRule) (endYear : Int) :
    Nat → Int → List QWinTransitionRule → Option (List QWinTransitionRule)
  | 0, _, _ => none
  | fuel + 1, year, m_tranRules =>
    if year ≤ endYear then
      match read year with
      | some rule =>
        initLoop read endYear fuel (wrap32 (year + 1))
          (m_tranRules ++
            [{ rule with startYear := if m_tranRules.isEmpty then MIN_YEAR else year }])
      | none => initLoop read endYear fuel (wrap32 (year + 1)) m_tranRules
    else some m_tranRules

/-! ## Auxiliary definitions -/

/-- The round of the walks in the year `Y` ends them: the rule in effect has
month 0 in both SYSTEMTIMEs. -/
def NoMonthsIn (rules : List QWinTransitionRule) (Y : Int) : Prop :=
  ∃ r, ruleForYear rules Y = some r ∧
    r.standardTimeRule.wMonth = 0 ∧ r.daylightTimeRule.wMonth = 0

/-- The round of `nextTransition` in the year `Y` finds no transition after the
instant: the rule has a month, its pair is computed, and the two tests leave
`next` at minMSecs. -/
def NothingAfterIn (rules : List QWinTransitionRule) (dfuel : Nat) (t Y : Int) : Prop :=
  ∃ r p, ruleForYear rules Y = some r ∧
    ¬ (r.standardTimeRule.wMonth = 0 ∧ r.daylightTimeRule.wMonth = 0) ∧
    TransitionTimePair.ofRule dfuel r Y = some p ∧ nextInYear t p = minMSecs

/-- The round of `previousTransition` in the year `Y` finds no transition
before the instant: the rule has a month, its pair is computed, and the two
tests leave `next` at maxMSecs. -/
def NothingBeforeIn (rules : List QWinTransitionRule) (dfuel : Nat) (t Y : Int) : Prop :=
  ∃ r p, ruleForYear rules Y = some r ∧
    ¬ (r.standardTimeRule.wMonth = 0 ∧ r.daylightTimeRule.wMonth = 0) ∧
    TransitionTimePair.ofRule dfuel r Y = some p ∧ previousInYear t p = maxMSecs

/-- The invariant of the binary chop of ruleIndexForYear on its variables:
`rules[lo].startYear <= year < rules[hi].startYear`, subject to treating
`rules[rules.count()]` as "off the end of time". -/
def ChopInvariant (rules : List QWinTransitionRule) (year : Int) (lo hi : Nat) : Prop :=
  lo < hi ∧ hi ≤ rules.length ∧ (∃ r, rules[lo]? = some r ∧ r.startYear ≤ year) ∧
    (hi = rules.length ∨ ∃ r, rules[hi]? = some r ∧ year < r.startYear)


/-- For the proofs about the calendar: days of the March-based years before the year `Y`, up to a constant. -/
def daysBeforeYear (Y : Int) : Int := 365 * Y + Y / 4 - Y / 100 + Y / 400

/-- For the proofs about the ordinal 0: the year before a year of the calendar
of QDate, which has no year 0. -/
def previousYear (y : Int) : Int := if y = 1 then -1 else y - 1

/-- For the proofs about the calendar: the months counted in a row, January of
the year 1 being the month 12 and December of the year -1 the month 11. -/
def monthIndex (y m : Int) : Int := 12 * (if 0 < y then y else y + 1) + (m - 1)

/-- For the proofs about the calendar: the year of a month counted in a row. -/
def yearOfMonthIndex (n : Int) : Int := if 1 ≤ n / 12 then n / 12 else n / 12 - 1

/-- For the proofs about the calendar: the Julian day of the first day of a
month counted in a row. -/
def monthStart (n : Int) : Int :=
  QDate.julianDayFromDate (yearOfMonthIndex n) (n % 12 + 1) 1

/-- The ranges of a DaySpec of the data model, on a SYSTEMTIME: month 0..12,
day of the week 0..7 and, for a relative date (wYear 0), ordinal 0..5. -/
def InRange (s : SYSTEMTIME) : Prop :=
  s.wMonth ≤ 12 ∧ s.wDayOfWeek ≤ 7 ∧ (s.wYear = 0 → s.wDay ≤ 5)

instance (s : SYSTEMTIME) : Decidable (InRange s) := by
  unfold InRange; infer_instance

/-! ## Sample tables -/

/-- A SYSTEMTIME with every field zero: no transition. -/
def noTransition : SYSTEMTIME := ⟨0, 0, 0, 0, 0, 0, 0, 0⟩

/-- A relative day rule: the `wDay`-th `wDayOfWeek` of `wMonth`, at `wHour`:00. -/
def relativeRule (wMonth wDayOfWeek wDay wHour : Nat) : SYSTEMTIME :=
  ⟨0, wMonth, wDayOfWeek, wDay, wHour, 0, 0, 0⟩

/-- US Eastern time with its three historical rule sets. -/
def easternTable : List QWinTransitionRule :=
  [ ⟨MIN_YEAR, 300, -60, relativeRule 10 0 5 2, relativeRule 4 0 5 2⟩,
    ⟨1987, 300, -60, relativeRule 10 0 5 2, relativeRule 4 0 1 2⟩,
    ⟨2007, 300, -60, relativeRule 11 0 1 2, relativeRule 3 0 2 2⟩ ]

/-- The rule of the concrete scenario of the spec: a US-like rule, daylight
time from the 2nd Sunday of March to the 1st Sunday of November, both switches
at 02:00 local time. -/
def scenarioRule : QWinTransitionRule :=
  ⟨MIN_YEAR, 300, -60, relativeRule 11 7 1 2, relativeRule 3 0 2 2⟩

/-- A zone with the rule of the concrete scenario as its only rule. -/
def scenarioZone : QWinTimeZonePrivate :=
  ⟨"Eastern Standard Time", "EST", "EDT", [scenarioRule]⟩

/-- A zone with one rule: no switch to standard time and a one-time switch to
daylight time on 2010-03-28 at 02:00 local time. -/
def oneTimeZone : QWinTimeZonePrivate :=
  ⟨"One Time", "OTS", "OTD", [⟨MIN_YEAR, -60, -60, noTransition, ⟨2010, 3, 0, 28, 2, 0, 0, 0⟩⟩]⟩

/-- A zone whose two rules are out of order: a rule of one-time switches in
2010 from the year 5, then a recurring rule from the year 3. -/
def unsortedZone : QWinTimeZonePrivate :=
  ⟨"Unsorted", "UST", "UDT",
    [⟨5, 300, -60, ⟨2010, 10, 0, 31, 2, 0, 0, 0⟩, ⟨2010, 3, 0, 28, 2, 0, 0, 0⟩⟩,
     ⟨3, 300, -60, relativeRule 11 0 1 2, relativeRule 3 0 2 2⟩]⟩

/-- A zone with both switches in spring: to daylight time on the 2nd Sunday of
March, back to standard time on the 1st Sunday of May. -/
def springZone : QWinTimeZonePrivate :=
  ⟨"Spring", "SPS", "SPD", [⟨MIN_YEAR, 300, -60, relativeRule 5 0 1 2, relativeRule 3 0 2 2⟩]⟩

/-- A zone whose only rule starts in 2000 and has no transitions: one hour
east of UTC all year. -/
def lateZone : QWinTimeZonePrivate :=
  ⟨"Late", "LTS", "LTD", [⟨2000, -60, 0, noTransition, noTransition⟩]⟩

/-- A zone whose table starts a year before MIN_YEAR: no transitions and no
offset at first, then from MIN_YEAR one hour east of UTC with a one-time
switch to daylight time on 2010-03-28. -/
def earlyZone : QWinTimeZonePrivate :=
  ⟨"Early", "ERS", "ERD",
    [⟨MIN_YEAR - 1, 0, 0, noTransition, noTransition⟩,
     ⟨MIN_YEAR, -60, -60, noTransition, ⟨2010, 3, 0, 28, 2, 0, 0, 0⟩⟩]⟩

/-- A zone without daylight time whose two rules still name a day of return to
standard time: the last Sunday of October, and from 2007 the 1st Sunday of
November. -/
def standardOnlyZone : QWinTimeZonePrivate :=
  ⟨"Standard Only", "SOS", "SOD",
    [⟨MIN_YEAR, 300, -60, relativeRule 10 0 5 2, noTransition⟩,
     ⟨2007, 300, -60, relativeRule 11 0 1 2, noTransition⟩]⟩

/-- The scenario zone with a daylight bias of 0: its daylight time has the
offset of its standard time. -/
def zeroBiasZone : QWinTimeZonePrivate :=
  ⟨"Zero Bias", "ZBS", "ZBD", [⟨MIN_YEAR, 300, 0, relativeRule 11 0 1 2, relativeRule 3 0 2 2⟩]⟩

/-- A zone that goes to daylight time on the 2nd Sunday of March at 02:00 and
returns at 03:00 of the daylight time it has just entered: the same instant. -/
def sameInstantZone : QWinTimeZonePrivate :=
  ⟨"Same Instant", "SIS", "SID",
    [⟨MIN_YEAR, 300, -60, relativeRule 3 0 2 3, relativeRule 3 0 2 2⟩]⟩

/-- A zone one hour east of UTC that goes to daylight time on the 1st Sunday of
January at 00:00 local time and returns on the 1st Sunday of July. -/
def januaryZone : QWinTimeZonePrivate :=
  ⟨"January", "JAS", "JAD", [⟨MIN_YEAR, -60, -60, relativeRule 7 0 1 2, relativeRule 1 0 1 0⟩]⟩

/-- A zone that returns to standard time on the 1st Sunday of March and goes
to daylight time on the 1st Monday of March: which comes first depends on the
year. -/
def weekdayZone : QWinTimeZonePrivate :=
  ⟨"Weekday", "WDS", "WDD", [⟨MIN_YEAR, 300, -60, relativeRule 3 0 1 2, relativeRule 3 1 1 2⟩]⟩

/-- The scenario zone with the ordinal 54 in its daylight SYSTEMTIME, outside
the range 0..5 of a DaySpec: in a year the date is the first Sunday of November
of the year after. -/
def ordinal54Zone : QWinTimeZonePrivate :=
  ⟨"Ordinal 54", "OFS", "OFD", [⟨MIN_YEAR, 300, -60, relativeRule 3 0 2 2, relativeRule 11 0 54 2⟩]⟩

/-- A two-rule list whose start years decrease. -/
def decreasingTable : List QWinTransitionRule :=
  [ ⟨5, 0, 0, noTransition, noTransition⟩, ⟨3, 0, 0, noTransition, noTransition⟩ ]

/-! ## Theorems -/

/-! ### The calendar of QDate -/

theorem floordiv_eq_ediv (a b : Int) (hb : 0 < b) : floordiv a b = a / b := by
  unfold floordiv
  by_cases ha : a < 0
  · simp only [ha, if_true]
    have h1 : a - (b - 1) = -(b - 1 - a) := by ring
    rw [h1, Int.neg_tdiv, Int.tdiv_eq_ediv (by omega) (le_of_lt hb)]
    have h2 : b - 1 - a = (b - 1 - a % b) + b * (-(a / b)) := by
      have := Int.emod_add_ediv a b
      linarith
    rw [h2, Int.add_mul_ediv_left _ _ (ne_of_gt hb)]
    have h3 : (b - 1 - a % b) / b = 0 := by
      apply Int.ediv_eq_zero_of_lt
      · have := Int.emod_lt_of_pos a hb; omega
      · have := Int.emod_nonneg a (ne_of_gt hb); omega
    rw [h3]; ring
  · simp only [ha, if_false, sub_zero]
    exact Int.tdiv_eq_ediv (by omega) (le_of_lt hb)

theorem split_century (Q C q r doy : Int) (hC0 : 0 ≤ C) (hC3 : C ≤ 3) (hq0 : 0 ≤ q)
    (hq : 4 * q + r ≤ 99) (hr0 : 0 ≤ r) (hr3 : r ≤ 3) (h0 : 0 ≤ doy) (h1 : doy ≤ 365)
    (hl : doy = 365 → r = 3 ∧ (4 * q + r = 99 → C = 3)) :
    (4 * (146097 * Q + 36524 * C + 1461 * q + 365 * r + doy) + 3) / 146097 = 4 * Q + C := by
  omega

theorem split_year (q r doy : Int) (hr0 : 0 ≤ r) (hr3 : r ≤ 3) (h0 : 0 ≤ doy) (h1 : doy ≤ 365)
    (hl : doy = 365 → r = 3) :
    (4 * (1461 * q + 365 * r + doy) + 3) / 1461 = 4 * q + r := by
  omega

/-- The days-to-civil steps of getDateFromJulianDay undo the day count of a
March-based year `Y` and a day `doy` of it. -/
theorem split_days (Y doy : Int) (h0 : 0 ≤ doy) (h1 : doy ≤ 365)
    (hl : doy = 365 → (Y + 1) % 4 = 0 ∧ ((Y + 1) % 100 ≠ 0 ∨ (Y + 1) % 400 = 0)) :
    ∃ b d : Int, 100 * b + d = Y ∧
      (4 * (doy + 365 * Y + Y / 4 - Y / 100 + Y / 400) + 3) / 146097 = b ∧
      (4 * (doy + 365 * Y + Y / 4 - Y / 100 + Y / 400 - 146097 * b / 4) + 3) / 1461 = d ∧
      doy + 365 * Y + Y / 4 - Y / 100 + Y / 400 - 146097 * b / 4 - 1461 * d / 4 = doy := by
  obtain ⟨Q, C, q, r, hY, hC0, hC3, hq0, hq, hr0, hr3⟩ :
      ∃ Q C q r : Int, Y = 400 * Q + 100 * C + (4 * q + r) ∧ 0 ≤ C ∧ C ≤ 3 ∧ 0 ≤ q ∧
        4 * q + r ≤ 99 ∧ 0 ≤ r ∧ r ≤ 3 :=
    ⟨Y / 400, Y % 400 / 100, Y % 100 / 4, Y % 4, by omega, by omega, by omega, by omega,
      by omega, by omega, by omega⟩
  have hl2 : doy = 365 → r = 3 ∧ (4 * q + r = 99 → C = 3) := by
    intro h
    have := hl h
    omega
  clear hl
  have e4 : Y / 4 = 100 * Q + 25 * C + q := by omega
  have e100 : Y / 100 = 4 * Q + C := by omega
  have e400 : Y / 400 = Q := by omega
  have eA : doy + 365 * Y + Y / 4 - Y / 100 + Y / 400
      = 146097 * Q + 36524 * C + 1461 * q + 365 * r + doy := by
    rw [e4, e100, e400, hY]; ring
  have e5 : 146097 * (4 * Q + C) / 4 = 146097 * Q + 36524 * C := by omega
  have e6 : 1461 * (4 * q + r) / 4 = 1461 * q + 365 * r := by omega
  have eB : 146097 * Q + 36524 * C + 1461 * q + 365 * r + doy - (146097 * Q + 36524 * C)
      = 1461 * q + 365 * r + doy := by ring
  refine ⟨4 * Q + C, 4 * q + r, by rw [hY]; ring, ?_, ?_, ?_⟩
  · rw [eA]
    exact split_century Q C q r doy hC0 hC3 hq0 hq hr0 hr3 h0 h1 hl2
  · rw [eA, e5, eB]
    exact split_year q r doy hr0 hr3 h0 h1 (fun h => (hl2 h).1)
  · rw [eA, e5, eB, e6]; ring
theorem tdiv_eq (a b : Int) (hb : 0 < b) :
    Int.tdiv a b = if 0 ≤ a then a / b else -((-a) / b) := by
  by_cases ha : 0 ≤ a
  · simp only [ha, if_true]
    exact Int.tdiv_eq_ediv ha (le_of_lt hb)
  · simp only [ha, if_false]
    have h1 : a = -(-a) := by ring
    rw [h1, Int.neg_tdiv, Int.tdiv_eq_ediv (by omega) (le_of_lt hb), neg_neg]

theorem tmod_eq (a b : Int) (hb : 0 < b) :
    Int.tmod a b = if 0 ≤ a then a % b else -((-a) % b) := by
  rw [Int.tmod_def, tdiv_eq a b hb]
  by_cases ha : 0 ≤ a
  · simp only [ha, if_true]
    have := Int.emod_add_ediv a b
    linarith
  · simp only [ha, if_false]
    have := Int.emod_add_ediv (-a) b
    linarith

theorem tmod_eq_zero_iff (a b : Int) : Int.tmod a b = 0 ↔ a % b = 0 := by
  rw [← Int.dvd_iff_tmod_eq_zero, Int.dvd_iff_emod_eq_zero]

theorem isLeapYear_iff (y : Int) :
    QDate.isLeapYear y = true ↔
      ((if y < 1 then y + 1 else y) % 4 = 0 ∧
        ((if y < 1 then y + 1 else y) % 100 ≠ 0 ∨ (if y < 1 then y + 1 else y) % 400 = 0)) := by
  unfold QDate.isLeapYear
  simp only [Bool.or_eq_true, Bool.and_eq_true, beq_iff_eq, bne_iff_ne, ne_eq,
    tmod_eq_zero_iff _ 4, tmod_eq_zero_iff _ 100, tmod_eq_zero_iff _ 400]
  omega

theorem month_of_doy (M dd : Int) (hM0 : 0 ≤ M) (hM : M ≤ 11) (hd1 : 1 ≤ dd) (hd31 : dd ≤ 31)
    (h30 : M = 1 ∨ M = 3 ∨ M = 6 ∨ M = 8 → dd ≤ 30) (h29 : M = 11 → dd ≤ 29) :
    (5 * (dd - 1 + (153 * M + 2) / 5) + 2) / 153 = M := by
  interval_cases M <;> omega

/-- What QDate::isValid(y, m, d) says of a date. -/
theorem isValidYMD_iff (y m d : Int) :
    QDate.isValidYMD y m d = true ↔
      (y ≠ 0 ∧ 1 ≤ d ∧ 1 ≤ m ∧ m ≤ 12 ∧
        (d ≤ QDate.monthDays m ∨ (d = 29 ∧ m = 2 ∧ QDate.isLeapYear y = true))) := by
  unfold QDate.isValidYMD
  by_cases hy : y = 0
  · simp [hy]
  · simp only [hy, if_false, Bool.and_eq_true, Bool.or_eq_true, decide_eq_true_eq]
    constructor
    · rintro ⟨⟨⟨h1, h2⟩, h3⟩, h4⟩
      refine ⟨by simpa using hy, by omega, by omega, h3, ?_⟩
      rcases h4 with h | ⟨⟨h5, h6⟩, h7⟩
      · exact Or.inl h
      · exact Or.inr ⟨h5, h6, h7⟩
    · rintro ⟨_, h1, h2, h3, h4⟩
      refine ⟨⟨⟨by omega, by omega⟩, h3⟩, ?_⟩
      rcases h4 with h | ⟨h5, h6, h7⟩
      · exact Or.inl h
      · exact Or.inr ⟨⟨h5, h6⟩, h7⟩
theorem floordiv_lit (a : Int) :
    floordiv a 4 = a / 4 ∧ floordiv a 5 = a / 5 ∧ floordiv a 10 = a / 10 ∧
    floordiv a 12 = a / 12 ∧ floordiv a 100 = a / 100 ∧ floordiv a 153 = a / 153 ∧
    floordiv a 400 = a / 400 ∧ floordiv a 1461 = a / 1461 ∧
    floordiv a 146097 = a / 146097 :=
  ⟨floordiv_eq_ediv a 4 (by decide), floordiv_eq_ediv a 5 (by decide),
    floordiv_eq_ediv a 10 (by decide), floordiv_eq_ediv a 12 (by decide),
    floordiv_eq_ediv a 100 (by decide), floordiv_eq_ediv a 153 (by decide),
    floordiv_eq_ediv a 400 (by decide), floordiv_eq_ediv a 1461 (by decide),
    floordiv_eq_ediv a 146097 (by decide)⟩

/-- The date getDateFromJulianDay reads off the day count of day `dd` of the
month `M` (0 = March) of the March-based year `Y`. -/
theorem getDate_of_march (Y M dd : Int) (hM0 : 0 ≤ M) (hM : M ≤ 11) (hd1 : 1 ≤ dd)
    (hd31 : dd ≤ 31) (h30 : M = 1 ∨ M = 3 ∨ M = 6 ∨ M = 8 → dd ≤ 30) (h29 : M = 11 → dd ≤ 29)
    (hl : M = 11 → dd = 29 → (Y + 1) % 4 = 0 ∧ ((Y + 1) % 100 ≠ 0 ∨ (Y + 1) % 400 = 0)) :
    QDate.getDateFromJulianDay
        (dd + (153 * M + 2) / 5 + 365 * Y + Y / 4 - Y / 100 + Y / 400 - 32045)
      = ⟨if Y - 4800 + M / 10 ≤ 0 then Y - 4800 + M / 10 - 1 else Y - 4800 + M / 10,
          M + 3 - 12 * (M / 10), dd⟩ := by
  have hdoy0 : 0 ≤ dd - 1 + (153 * M + 2) / 5 := by omega
  have hdoy1 : dd - 1 + (153 * M + 2) / 5 ≤ 365 := by omega
  have hdoyl : dd - 1 + (153 * M + 2) / 5 = 365 →
      (Y + 1) % 4 = 0 ∧ ((Y + 1) % 100 ≠ 0 ∨ (Y + 1) % 400 = 0) := by
    intro h
    exact hl (by omega) (by omega)
  obtain ⟨b, d, hbd, hb, hd, he⟩ := split_days Y _ hdoy0 hdoy1 hdoyl
  have hm := month_of_doy M dd hM0 hM hd1 hd31 h30 h29
  have hA : dd + (153 * M + 2) / 5 + 365 * Y + Y / 4 - Y / 100 + Y / 400 - 32045 + 32044
      = dd - 1 + (153 * M + 2) / 5 + 365 * Y + Y / 4 - Y / 100 + Y / 400 := by ring
  simp only [QDate.getDateFromJulianDay, (floordiv_lit _).1, (floordiv_lit _).2.1,
    (floordiv_lit _).2.2.1, (floordiv_lit _).2.2.2.2.2.1, (floordiv_lit _).2.2.2.2.2.2.2.1,
    (floordiv_lit _).2.2.2.2.2.2.2.2, hA, hb, hd, he, hm]
  have e1 : dd - 1 + (153 * M + 2) / 5 - (153 * M + 2) / 5 + 1 = dd := by ring
  have e2 : 100 * b + d - 4800 + M / 10 = Y - 4800 + M / 10 := by rw [hbd]
  rw [e1, e2]
/-- The day count of julianDayFromDate, on the March-based year and month. -/
theorem julianDayFromDate_eq (y m d : Int) :
    QDate.julianDayFromDate y m d =
      d + (153 * (m + 12 * ((14 - m) / 12) - 3) + 2) / 5
        + 365 * ((if y < 0 then y + 1 else y) + 4800 - (14 - m) / 12)
        + ((if y < 0 then y + 1 else y) + 4800 - (14 - m) / 12) / 4
        - ((if y < 0 then y + 1 else y) + 4800 - (14 - m) / 12) / 100
        + ((if y < 0 then y + 1 else y) + 4800 - (14 - m) / 12) / 400 - 32045 := by
  simp only [QDate.julianDayFromDate, (floordiv_lit _).1, (floordiv_lit _).2.1,
    (floordiv_lit _).2.2.2.1, (floordiv_lit _).2.2.2.2.1, (floordiv_lit _).2.2.2.2.2.2.1]

theorem monthDays_le {m d : Int} (h : d ≤ QDate.monthDays m) :
    d ≤ 31 ∧ (m = 4 ∨ m = 6 ∨ m = 9 ∨ m = 11 → d ≤ 30) ∧ (m = 2 → d ≤ 28) := by
  unfold QDate.monthDays at h
  split_ifs at h <;> omega

/-- Round trip: the date read off the Julian day of a date of the calendar is
that date. -/
theorem getDate_julianDay (y m d : Int) (hv : QDate.isValidYMD y m d = true) :
    QDate.getDateFromJulianDay (QDate.julianDayFromDate y m d) = ⟨y, m, d⟩ := by
  obtain ⟨hy, hd1, hm1, hm12, hd⟩ := (isValidYMD_iff y m d).mp hv
  have hd31 : d ≤ 31 := by
    rcases hd with h | h
    · exact (monthDays_le h).1
    · omega
  have hd30 : m = 4 ∨ m = 6 ∨ m = 9 ∨ m = 11 → d ≤ 30 := by
    intro hm
    rcases hd with h | h
    · exact (monthDays_le h).2.1 hm
    · omega
  have hd29 : m = 2 → d ≤ 29 := by
    intro hm
    rcases hd with h | h
    · have := (monthDays_le h).2.2 hm
      omega
    · omega
  have hleap : m = 2 → d = 29 → ((if y < 1 then y + 1 else y) % 4 = 0 ∧
      ((if y < 1 then y + 1 else y) % 100 ≠ 0 ∨ (if y < 1 then y + 1 else y) % 400 = 0)) := by
    intro hm h29
    rcases hd with h | h
    · have := (monthDays_le h).2.2 hm
      omega
    · exact (isLeapYear_iff y).mp h.2.2
  rw [julianDayFromDate_eq]
  by_cases hm2 : m ≤ 2
  · have ha : (14 - m) / 12 = 1 := by omega
    rw [ha, getDate_of_march _ _ d (by omega) (by omega) hd1 hd31 (by omega) (by omega)
      (by
        intro h1 h2
        have := hleap (by omega) h2
        split_ifs at this ⊢ <;> omega)]
    have hM : (m + 12 * 1 - 3) / 10 = 1 := by omega
    rw [hM]
    congr 1
    · split_ifs <;> omega
    · omega
  · have ha : (14 - m) / 12 = 0 := by omega
    rw [ha, getDate_of_march _ _ d (by omega) (by omega) hd1 hd31 (by omega) (by omega)
      (by intro h1 h2; omega)]
    have hM : (m + 12 * 0 - 3) / 10 = 0 := by omega
    rw [hM]
    congr 1
    · split_ifs <;> omega
    · omega

/-- The Julian day of a date of an `int` year is within the range of QDate. -/
theorem julianDay_range (y m d : Int) (hv : QDate.isValidYMD y m d = true)
    (hlo : -2147483648 ≤ y) (hhi : y ≤ 2147483647) :
    QDate.minJd ≤ QDate.julianDayFromDate y m d ∧
      QDate.julianDayFromDate y m d ≤ QDate.maxJd := by
  obtain ⟨hy, hd1, hm1, hm12, hd⟩ := (isValidYMD_iff y m d).mp hv
  have hd31 : d ≤ 31 := by
    rcases hd with h | h
    · exact (monthDays_le h).1
    · omega
  rw [julianDayFromDate_eq]
  unfold QDate.minJd QDate.maxJd
  by_cases hm2 : m ≤ 2
  · have ha : (14 - m) / 12 = 1 := by omega
    rw [ha]
    split_ifs <;> omega
  · have ha : (14 - m) / 12 = 0 := by omega
    rw [ha]
    split_ifs <;> omega

/-! ### Dates of QDate -/

theorem isValid_iff (d : QDate) :
    d.isValid = true ↔ QDate.minJd ≤ d.jd ∧ d.jd ≤ QDate.maxJd := by
  unfold QDate.isValid
  simp only [Bool.and_eq_true, decide_eq_true_eq]

theorem null_not_valid : QDate.null.isValid = false := by decide

theorem addDays_of_valid {d : QDate} {n : Int} (hv : d.isValid = true)
    (hlo : QDate.minJd ≤ d.jd + n) (hhi : d.jd + n ≤ QDate.maxJd) :
    d.addDays n = ⟨d.jd + n⟩ := by
  unfold QDate.addDays QDate.fromJulianDay
  simp only [hv, if_true, hlo, hhi, and_self]

theorem addDays_of_invalid {d : QDate} (n : Int) (hv : d.isValid = false) :
    d.addDays n = QDate.null := by
  unfold QDate.addDays
  simp [hv]

/-- The day of the week follows the Julian day modulo 7 on both sides of 0. -/
theorem dayOfWeek_of_valid {d : QDate} (hv : d.isValid = true) :
    d.dayOfWeek = d.jd % 7 + 1 := by
  unfold QDate.dayOfWeek
  simp only [hv, if_true, tmod_eq _ 7 (by decide)]
  split_ifs <;> omega

/-- The first of a month of an `int` year other than 0 is a date of QDate. -/
theorem ofYMD_first {y m : Int} (hy : y ≠ 0) (hlo : -2147483648 ≤ y) (hhi : y ≤ 2147483647)
    (hm1 : 1 ≤ m) (hm12 : m ≤ 12) :
    QDate.ofYMD y m 1 = ⟨QDate.julianDayFromDate y m 1⟩ ∧
      QDate.isValidYMD y m 1 = true ∧ (QDate.ofYMD y m 1).isValid = true := by
  have hv : QDate.isValidYMD y m 1 = true := by
    rw [isValidYMD_iff]
    refine ⟨hy, le_refl _, hm1, hm12, Or.inl ?_⟩
    unfold QDate.monthDays
    split_ifs <;> omega
  have he : QDate.ofYMD y m 1 = ⟨QDate.julianDayFromDate y m 1⟩ := by
    unfold QDate.ofYMD
    simp only [hv, if_true]
  refine ⟨he, hv, ?_⟩
  rw [he, isValid_iff]
  exact julianDay_range y m 1 hv hlo hhi

/-- The Julian day is linear in the day of the month. -/
theorem julianDayFromDate_add (y m d k : Int) :
    QDate.julianDayFromDate y m (d + k) = QDate.julianDayFromDate y m d + k := by
  simp only [julianDayFromDate_eq]
  ring

/-- The first of a month is at least a week inside the range of QDate, except
in January of the least `int` year, and at least a month inside at the top. -/
theorem julianDay_first_bounds {y m : Int} (hlo : -2147483648 ≤ y)
    (hjan : -2147483648 < y ∨ 2 ≤ m) (hhi : y ≤ 2147483647)
    (hm1 : 1 ≤ m) (hm12 : m ≤ 12) :
    QDate.minJd + 7 ≤ QDate.julianDayFromDate y m 1 ∧
      QDate.julianDayFromDate y m 1 + 30 ≤ QDate.maxJd := by
  rw [julianDayFromDate_eq]
  unfold QDate.minJd QDate.maxJd
  by_cases hm2 : m ≤ 2
  · have ha : (14 - m) / 12 = 1 := by omega
    rw [ha]
    split_ifs <;> omega
  · have ha : (14 - m) / 12 = 0 := by omega
    rw [ha]
    split_ifs <;> omega

/-- The `k`-th day after the first of a month, for `k` below 28, is the day
`1 + k` of that month. -/
theorem getDate_first_add {y m k : Int} (hy : y ≠ 0) (hm1 : 1 ≤ m) (hm12 : m ≤ 12)
    (hk0 : 0 ≤ k) (hk : k ≤ 27) :
    QDate.getDateFromJulianDay (QDate.julianDayFromDate y m 1 + k) = ⟨y, m, 1 + k⟩ := by
  rw [← julianDayFromDate_add]
  apply getDate_julianDay
  rw [isValidYMD_iff]
  refine ⟨hy, by omega, hm1, hm12, Or.inl ?_⟩
  unfold QDate.monthDays
  split_ifs <;> omega
/-- The date the relative branch reaches before its loop: `wDay` weeks after
the last requested weekday before the 1st of the month. -/
theorem relativeStartDate_eq {rule : SYSTEMTIME} {year : Int} (hy : year ≠ 0)
    (hlo : -2147483648 ≤ year) (hjan : -2147483648 < year ∨ 2 ≤ rule.wMonth)
    (hhi : year ≤ 2147483647)
    (hm1 : 1 ≤ rule.wMonth) (hm12 : rule.wMonth ≤ 12) (hdow : rule.wDayOfWeek ≤ 7)
    (hday : QDate.julianDayFromDate year rule.wMonth 1 + 7 * (rule.wDay : Int)
      ≤ QDate.maxJd) :
    ∃ off : Int, -7 ≤ off ∧ off ≤ -1 ∧
      (QDate.julianDayFromDate year rule.wMonth 1 + off) % 7 + 1
        = (if rule.wDayOfWeek = 0 then 7 else (rule.wDayOfWeek : Int)) ∧
      relativeStartDate rule year
        = ⟨QDate.julianDayFromDate year rule.wMonth 1 + off + 7 * (rule.wDay : Int)⟩ := by
  have hm1' : (1 : Int) ≤ (rule.wMonth : Int) := by exact_mod_cast hm1
  have hm12' : (rule.wMonth : Int) ≤ 12 := by exact_mod_cast hm12
  have hjan' : -2147483648 < year ∨ (2 : Int) ≤ (rule.wMonth : Int) := by omega
  obtain ⟨he, _, hv⟩ := ofYMD_first hy hlo hhi hm1' hm12'
  obtain ⟨hb1, hb2⟩ := julianDay_first_bounds hlo hjan' hhi hm1' hm12'
  have hdw := dayOfWeek_of_valid hv
  rw [he] at hdw
  simp only at hdw
  have hw : (1 : Int) ≤ (if rule.wDayOfWeek = 0 then 7 else (rule.wDayOfWeek : Int)) ∧
      (if rule.wDayOfWeek = 0 then 7 else (rule.wDayOfWeek : Int)) ≤ 7 := by
    split_ifs <;> omega
  unfold relativeStartDate
  simp only [he] at hv ⊢
  rw [hdw]
  generalize (if rule.wDayOfWeek = 0 then 7 else (rule.wDayOfWeek : Int)) = w at hw ⊢
  generalize QDate.julianDayFromDate year rule.wMonth 1 = jd0 at hv hb1 hb2 hday ⊢
  have hwd : (0 : Int) ≤ (rule.wDay : Int) := Int.natCast_nonneg _
  have hmin : QDate.minJd ≤ QDate.maxJd := by decide
  by_cases hc : jd0 % 7 + 1 ≤ w
  · simp only [hc, if_true]
    refine ⟨w - (jd0 % 7 + 1) - 7, by omega, by omega, by omega, ?_⟩
    rw [addDays_of_valid hv (by simp only; omega) (by simp only; omega)]
    rw [addDays_of_valid (by rw [isValid_iff]; simp only; omega) (by simp only; omega)
      (by simp only; omega)]
    simp only [QDate.mk.injEq]
    ring
  · simp only [hc, if_false]
    refine ⟨w - (jd0 % 7 + 1), by omega, by omega, by omega, ?_⟩
    rw [addDays_of_valid hv (by simp only; omega) (by simp only; omega)]
    rw [addDays_of_valid (by rw [isValid_iff]; simp only; omega) (by simp only; omega)
      (by simp only; omega)]
    simp only [QDate.mk.injEq]
    ring
/-! ### calculateTransitionLocalDate -/

/-- The loop never leaves "no date": its condition stays true. -/
theorem backIntoMonth_null {wMonth : Nat} (hm : wMonth ≠ 0) :
    ∀ fuel : Nat, backIntoMonth wMonth fuel QDate.null = none := by
  intro fuel
  induction fuel with
  | zero => rfl
  | succ n ih =>
    unfold backIntoMonth
    have h1 : QDate.null.month = 0 := by decide
    have h2 : QDate.null.addDays (-7) = QDate.null := by decide
    have h3 : (0 : Int) ≠ (wMonth : Int) := by
      intro h
      exact hm (by exact_mod_cast h.symm)
    simp only [h1, h2, ne_eq, h3, not_false_eq_true, if_true]
    exact ih

/-- The loop stops at once on a date of the requested month. -/
theorem backIntoMonth_stop {wMonth fuel : Nat} {date : QDate} (hf : 1 ≤ fuel)
    (hm : date.month = (wMonth : Int)) : backIntoMonth wMonth fuel date = some date := by
  obtain ⟨n, rfl⟩ : ∃ n, fuel = n + 1 := ⟨fuel - 1, by omega⟩
  unfold backIntoMonth
  simp only [hm, ne_eq, not_true_eq_false, if_false]

/-- C4: a SYSTEMTIME with month 0 has no date: whatever its other fields, the
year and the fuel, calculateTransitionLocalDate returns the invalid QDate. -/
theorem calculateTransitionLocalDate_noMonth (fuel : Nat) (rule : SYSTEMTIME) (year : Int)
    (hm : rule.wMonth = 0) :
    calculateTransitionLocalDate fuel rule year = some QDate.null ∧
      QDate.null.isValid = false := by
  unfold calculateTransitionLocalDate
  simp only [hm, if_true]
  exact ⟨trivial, null_not_valid⟩

/-- Witness of C4: a relative rule without a month, in 2023. -/
theorem calculateTransitionLocalDate_noMonth_witness :
    calculateTransitionLocalDate 0 (relativeRule 0 3 2 2) 2023 = some QDate.null ∧
      QDate.null.isValid = false :=
  calculateTransitionLocalDate_noMonth 0 (relativeRule 0 3 2 2) 2023 rfl

/-- C5: a SYSTEMTIME with a month and an explicit year resolves to the date
QDate(wYear, wMonth, wDay), whatever the year asked for (and the fuel); when
the three fields name a date of the calendar, that date is valid and its year,
month and day are the three fields. -/
theorem calculateTransitionLocalDate_absolute (fuel : Nat) (rule : SYSTEMTIME) (year : Int)
    (hm : rule.wMonth ≠ 0) (hyr : rule.wYear ≠ 0) :
    calculateTransitionLocalDate fuel rule year
        = some (QDate.ofYMD rule.wYear rule.wMonth rule.wDay) ∧
      (∀ (fuel2 : Nat) (year2 : Int), calculateTransitionLocalDate fuel2 rule year2
        = calculateTransitionLocalDate fuel rule year) ∧
      (rule.wYear ≤ 65535 → QDate.isValidYMD rule.wYear rule.wMonth rule.wDay = true →
        (QDate.ofYMD rule.wYear rule.wMonth rule.wDay).isValid = true ∧
        (QDate.ofYMD rule.wYear rule.wMonth rule.wDay).year = rule.wYear ∧
        (QDate.ofYMD rule.wYear rule.wMonth rule.wDay).month = rule.wMonth ∧
        (QDate.ofYMD rule.wYear rule.wMonth rule.wDay).day = rule.wDay) := by
  have h : ∀ (f : Nat) (y : Int), calculateTransitionLocalDate f rule y
      = some (QDate.ofYMD rule.wYear rule.wMonth rule.wDay) := by
    intro f y
    unfold calculateTransitionLocalDate
    simp only [hm, hyr, if_false]
  refine ⟨h fuel year, fun f y => by rw [h f y, h fuel year], ?_⟩
  intro hw hv
  have hr := julianDay_range _ _ _ hv (by omega) (by omega)
  have he : QDate.ofYMD rule.wYear rule.wMonth rule.wDay
      = ⟨QDate.julianDayFromDate rule.wYear rule.wMonth rule.wDay⟩ := by
    unfold QDate.ofYMD
    simp only [hv, if_true]
  have hval : (QDate.ofYMD rule.wYear rule.wMonth rule.wDay).isValid = true := by
    rw [he, isValid_iff]
    exact hr
  refine ⟨hval, ?_, ?_, ?_⟩
  · unfold QDate.year
    simp only [hval, if_true]
    rw [he]
    simp only [getDate_julianDay _ _ _ hv]
  · unfold QDate.month
    simp only [hval, if_true]
    rw [he]
    simp only [getDate_julianDay _ _ _ hv]
  · unfold QDate.day
    simp only [hval, if_true]
    rw [he]
    simp only [getDate_julianDay _ _ _ hv]

/-- Witness of C5: a one-time transition on 2010-03-28 at 02:00. -/
theorem calculateTransitionLocalDate_absolute_witness :
    calculateTransitionLocalDate 0 ⟨2010, 3, 0, 28, 2, 0, 0, 0⟩ 1999
        = some (QDate.ofYMD (2010 : Nat) (3 : Nat) (28 : Nat)) ∧
      (∀ (fuel2 : Nat) (year2 : Int),
        calculateTransitionLocalDate fuel2 ⟨2010, 3, 0, 28, 2, 0, 0, 0⟩ year2
        = calculateTransitionLocalDate 0 ⟨2010, 3, 0, 28, 2, 0, 0, 0⟩ 1999) ∧
      ((2010 : Nat) ≤ 65535 → QDate.isValidYMD (2010 : Nat) (3 : Nat) (28 : Nat) = true →
        (QDate.ofYMD (2010 : Nat) (3 : Nat) (28 : Nat)).isValid = true ∧
        (QDate.ofYMD (2010 : Nat) (3 : Nat) (28 : Nat)).year = (2010 : Nat) ∧
        (QDate.ofYMD (2010 : Nat) (3 : Nat) (28 : Nat)).month = (3 : Nat) ∧
        (QDate.ofYMD (2010 : Nat) (3 : Nat) (28 : Nat)).day = (28 : Nat)) :=
  calculateTransitionLocalDate_absolute 0 ⟨2010, 3, 0, 28, 2, 0, 0, 0⟩ 1999
    (by decide) (by decide)
/-- Year, month, day and weekday of the `k`-th day after the first of a month,
for `k` below 28. -/
theorem fields_first_add {y m k : Int} (hy : y ≠ 0) (hlo : -2147483648 ≤ y)
    (hhi : y ≤ 2147483647) (hm1 : 1 ≤ m) (hm12 : m ≤ 12) (hk0 : 0 ≤ k) (hk : k ≤ 27) :
    (QDate.mk (QDate.julianDayFromDate y m 1 + k)).isValid = true ∧
    (QDate.mk (QDate.julianDayFromDate y m 1 + k)).year = y ∧
    (QDate.mk (QDate.julianDayFromDate y m 1 + k)).month = m ∧
    (QDate.mk (QDate.julianDayFromDate y m 1 + k)).day = 1 + k := by
  have hv : (QDate.mk (QDate.julianDayFromDate y m 1 + k)).isValid = true := by
    rw [isValid_iff, ← julianDayFromDate_add]
    apply julianDay_range _ _ _ _ hlo hhi
    rw [isValidYMD_iff]
    refine ⟨hy, by omega, hm1, hm12, Or.inl ?_⟩
    unfold QDate.monthDays
    split_ifs <;> omega
  have hg := getDate_first_add hy hm1 hm12 hk0 hk
  refine ⟨hv, ?_, ?_, ?_⟩
  · unfold QDate.year
    simp only [hv, if_true, hg]
  · unfold QDate.month
    simp only [hv, if_true, hg]
  · unfold QDate.day
    simp only [hv, if_true, hg]

/-- C6 fails as stated: QDate has no year 0, so for the year 0 the date of the
1st of the month is "no date" and the loop of calculateTransitionLocalDate
never ends, whatever the fuel; the same happens for January of the least
`int` year, where the week before the 1st is out of the range of QDate. -/
theorem calculateTransitionLocalDate_nth_counterexample :
    (¬ ∃ (fuel : Nat) (date : QDate),
      calculateTransitionLocalDate fuel (relativeRule 3 0 2 2) 0 = some date) ∧
    (¬ ∃ (fuel : Nat) (date : QDate),
      calculateTransitionLocalDate fuel (relativeRule 1 0 2 2) (-2147483648) = some date) := by
  constructor
  · rintro ⟨fuel, date, h⟩
    have h0 : relativeStartDate (relativeRule 3 0 2 2) 0 = QDate.null := by decide
    unfold calculateTransitionLocalDate at h
    simp only [relativeRule, OfNat.ofNat_ne_zero, if_false, if_true] at h
    simp only [relativeRule] at h0
    rw [h0, backIntoMonth_null (by decide)] at h
    cases h
  · rintro ⟨fuel, date, h⟩
    have h0 : relativeStartDate (relativeRule 1 0 2 2) (-2147483648) = QDate.null := by decide
    unfold calculateTransitionLocalDate at h
    simp only [relativeRule, OfNat.ofNat_ne_zero, if_false, if_true] at h
    simp only [relativeRule] at h0
    rw [h0, backIntoMonth_null (by decide)] at h
    cases h

/-- C6 (amended): for a relative SYSTEMTIME (wYear 0) with month in 1..12,
wDayOfWeek in 0..7 and wDay = n in 1..4, and every `int` year other than 0,
January of the least `int` year apart, calculateTransitionLocalDate returns
(with fuel for one test of the loop condition) the n-th such weekday of that
month of that year: its
weekday is wDayOfWeek with 0 read as 7, its day of the month is within
7(n-1)+1 .. 7n, and it is the first such weekday on or after the 1st plus
n-1 weeks. -/
theorem calculateTransitionLocalDate_nth (fuel : Nat) (rule : SYSTEMTIME) (year : Int)
    (hfuel : 1 ≤ fuel) (hrel : rule.wYear = 0) (hm1 : 1 ≤ rule.wMonth)
    (hm12 : rule.wMonth ≤ 12) (hdow : rule.wDayOfWeek ≤ 7) (hn1 : 1 ≤ rule.wDay)
    (hn4 : rule.wDay ≤ 4) (hy : year ≠ 0) (hlo : -2147483648 ≤ year)
    (hjan : -2147483648 < year ∨ 2 ≤ rule.wMonth) (hhi : year ≤ 2147483647) :
    ∃ date, calculateTransitionLocalDate fuel rule year = some date ∧
      date.isValid = true ∧ date.year = year ∧ date.month = rule.wMonth ∧
      date.dayOfWeek = (if rule.wDayOfWeek = 0 then 7 else (rule.wDayOfWeek : Int)) ∧
      7 * ((rule.wDay : Int) - 1) + 1 ≤ date.day ∧ date.day ≤ 7 * (rule.wDay : Int) ∧
      date.toJulianDay = (QDate.ofYMD year rule.wMonth 1).toJulianDay
        + ((if rule.wDayOfWeek = 0 then 7 else (rule.wDayOfWeek : Int))
            - (QDate.ofYMD year rule.wMonth 1).dayOfWeek) % 7
        + 7 * ((rule.wDay : Int) - 1) := by
  have hm1' : (1 : Int) ≤ (rule.wMonth : Int) := by exact_mod_cast hm1
  have hm12' : (rule.wMonth : Int) ≤ 12 := by exact_mod_cast hm12
  have hn1' : (1 : Int) ≤ (rule.wDay : Int) := by exact_mod_cast hn1
  have hn4' : (rule.wDay : Int) ≤ 4 := by exact_mod_cast hn4
  have hjan' : -2147483648 < year ∨ (2 : Int) ≤ (rule.wMonth : Int) := by omega
  obtain ⟨hb1, hb2⟩ := julianDay_first_bounds hlo hjan' hhi hm1' hm12'
  obtain ⟨he, _, hv⟩ := ofYMD_first hy hlo hhi hm1' hm12'
  obtain ⟨off, ho1, ho2, how, hstart⟩ :=
    relativeStartDate_eq hy hlo hjan hhi hm1 hm12 hdow (by omega)
  have hk : QDate.julianDayFromDate year rule.wMonth 1 + off + 7 * (rule.wDay : Int)
      = QDate.julianDayFromDate year rule.wMonth 1 + (off + 7 * (rule.wDay : Int)) := by ring
  rw [hk] at hstart
  obtain ⟨hval, hyear, hmonth, hdayf⟩ :=
    fields_first_add (k := off + 7 * (rule.wDay : Int)) hy hlo hhi hm1' hm12'
      (by omega) (by omega)
  have hm0 : rule.wMonth ≠ 0 := by omega
  refine ⟨_, ?_, hval, hyear, hmonth, ?_, by rw [hdayf]; omega, by rw [hdayf]; omega, ?_⟩
  · unfold calculateTransitionLocalDate
    simp only [hm0, hrel, if_true, if_false, hstart]
    exact backIntoMonth_stop hfuel hmonth
  · rw [dayOfWeek_of_valid hval, ← how]
    simp only
    omega
  · rw [dayOfWeek_of_valid hv, he]
    simp only [QDate.toJulianDay]
    omega

/-- Witness of C6: the second Sunday of March 2023. -/
theorem calculateTransitionLocalDate_nth_witness :
    ∃ date, calculateTransitionLocalDate 1 (relativeRule 3 0 2 2) 2023 = some date ∧
      date.isValid = true ∧ date.year = 2023 ∧ date.month = (3 : Nat) ∧
      date.dayOfWeek = (if 0 = 0 then 7 else ((0 : Nat) : Int)) ∧
      7 * (((2 : Nat) : Int) - 1) + 1 ≤ date.day ∧ date.day ≤ 7 * ((2 : Nat) : Int) ∧
      date.toJulianDay = (QDate.ofYMD 2023 (3 : Nat) 1).toJulianDay
        + ((if 0 = 0 then 7 else ((0 : Nat) : Int))
            - (QDate.ofYMD 2023 (3 : Nat) 1).dayOfWeek) % 7
        + 7 * (((2 : Nat) : Int) - 1) :=
  calculateTransitionLocalDate_nth 1 (relativeRule 3 0 2 2) 2023 (by decide) rfl
    (by decide) (by decide) (by decide) (by decide) (by decide) (by decide) (by decide)
    (by decide) (by decide)

/-- Validity and fields of the QDate on the Julian day of a date of the
calendar in an `int` year. -/
theorem fields_of_date {y m d : Int} (hv : QDate.isValidYMD y m d = true)
    (hlo : -2147483648 ≤ y) (hhi : y ≤ 2147483647) :
    (QDate.mk (QDate.julianDayFromDate y m d)).isValid = true ∧
    (QDate.mk (QDate.julianDayFromDate y m d)).year = y ∧
    (QDate.mk (QDate.julianDayFromDate y m d)).month = m ∧
    (QDate.mk (QDate.julianDayFromDate y m d)).day = d := by
  have hval : (QDate.mk (QDate.julianDayFromDate y m d)).isValid = true := by
    rw [isValid_iff]
    exact julianDay_range y m d hv hlo hhi
  have hg := getDate_julianDay y m d hv
  refine ⟨hval, ?_, ?_, ?_⟩
  · unfold QDate.year
    simp only [hval, if_true, hg]
  · unfold QDate.month
    simp only [hval, if_true, hg]
  · unfold QDate.day
    simp only [hval, if_true, hg]

/-- Every month has a length of 28 to 31 days, and the day after its last day
is the first of another month. -/
theorem next_month {y m : Int} (hy : y ≠ 0) (hm1 : 1 ≤ m) (hm12 : m ≤ 12) :
    ∃ len y2 m2 : Int, 28 ≤ len ∧ len ≤ 31 ∧
      (∀ d : Int, 1 ≤ d → d ≤ len → QDate.isValidYMD y m d = true) ∧
      y2 ≠ 0 ∧ y ≤ y2 ∧ (y2 ≤ y + 1 ∨ y2 = 1) ∧ (m ≤ 11 → y2 = y) ∧ 1 ≤ m2 ∧ m2 ≤ 12 ∧ m2 ≠ m ∧
      QDate.julianDayFromDate y m 1 + len = QDate.julianDayFromDate y2 m2 1 := by
  by_cases h2 : m = 2
  · subst h2
    by_cases hl : QDate.isLeapYear y = true
    · refine ⟨29, y, 3, by omega, by omega, ?_, hy, by omega, by omega, fun _ => rfl,
        by omega, by omega, by omega, ?_⟩
      · intro d hd1 hd
        rw [isValidYMD_iff]
        refine ⟨hy, hd1, by omega, by omega, ?_⟩
        by_cases h29 : d = 29
        · exact Or.inr ⟨h29, rfl, hl⟩
        · left
          unfold QDate.monthDays
          simp only [if_true]
          omega
      · have := (isLeapYear_iff y).mp hl
        simp only [julianDayFromDate_eq]
        norm_num
        split_ifs at this ⊢ <;> omega
    · refine ⟨28, y, 3, by omega, by omega, ?_, hy, by omega, by omega, fun _ => rfl,
        by omega, by omega, by omega, ?_⟩
      · intro d hd1 hd
        rw [isValidYMD_iff]
        refine ⟨hy, hd1, by omega, by omega, Or.inl ?_⟩
        unfold QDate.monthDays
        simp only [if_true]
        exact hd
      · have := (isLeapYear_iff y).not.mp hl
        simp only [julianDayFromDate_eq]
        norm_num
        split_ifs at this ⊢ <;> omega
  · by_cases h12 : m = 12
    · subst h12
      refine ⟨31, if y = -1 then 1 else y + 1, 1, by omega, by omega, ?_, ?_, ?_, ?_,
        by omega, by omega, by omega, by omega, ?_⟩
      · intro d hd1 hd
        rw [isValidYMD_iff]
        refine ⟨hy, hd1, by omega, by omega, Or.inl ?_⟩
        unfold QDate.monthDays
        norm_num
        exact hd
      · split_ifs <;> omega
      · split_ifs <;> omega
      · split_ifs <;> omega
      · simp only [julianDayFromDate_eq]
        norm_num
        split_ifs <;> omega
    · refine ⟨QDate.monthDays m, y, m + 1, ?_, ?_, ?_, hy, by omega, by omega,
        fun _ => rfl, by omega, by omega, by omega, ?_⟩
      · unfold QDate.monthDays
        split_ifs <;> omega
      · unfold QDate.monthDays
        split_ifs <;> omega
      · intro d hd1 hd
        rw [isValidYMD_iff]
        exact ⟨hy, hd1, by omega, by omega, Or.inl hd⟩
      · simp only [julianDayFromDate_eq]
        unfold QDate.monthDays
        have hm : m = 1 ∨ m = 3 ∨ m = 4 ∨ m = 5 ∨ m = 6 ∨ m = 7 ∨ m = 8 ∨ m = 9 ∨ m = 10
            ∨ m = 11 := by omega
        rcases hm with h | h | h | h | h | h | h | h | h | h <;> subst h <;> norm_num <;>
          split_ifs <;> omega

/-- Before December of the greatest `int` year the first of a month is at
least six weeks inside the range of QDate. -/
theorem julianDay_first_upper {y m : Int} (hhi : y ≤ 2147483647)
    (hdec : y < 2147483647 ∨ m ≤ 11) (hm1 : 1 ≤ m) (hm12 : m ≤ 12) :
    QDate.julianDayFromDate y m 1 + 42 ≤ QDate.maxJd := by
  rw [julianDayFromDate_eq]
  unfold QDate.maxJd
  by_cases hm2 : m ≤ 2
  · have ha : (14 - m) / 12 = 1 := by omega
    rw [ha]
    split_ifs <;> omega
  · have ha : (14 - m) / 12 = 0 := by omega
    rw [ha]
    split_ifs <;> omega

/-- One round of the loop on a date outside the requested month. -/
theorem backIntoMonth_step {wMonth : Nat} (fuel : Nat) {date : QDate}
    (hm : date.month ≠ (wMonth : Int)) :
    backIntoMonth wMonth (fuel + 1) date = backIntoMonth wMonth fuel (date.addDays (-7)) := by
  rw [backIntoMonth]
  simp only [hm, ne_eq, not_false_eq_true, if_true]

/-- C7 (amended): for a relative SYSTEMTIME with month in 1..12, wDayOfWeek in
0..7 and wDay = 5 ("last"), and every `int` year other than 0, January of the
least and December of the greatest `int` year apart,
calculateTransitionLocalDate returns (with fuel for two tests of the loop
condition) the last such weekday of that month of that year: the date is in
that month, has the requested weekday, and the date seven days later is in
another month. -/
theorem calculateTransitionLocalDate_last (fuel : Nat) (rule : SYSTEMTIME) (year : Int)
    (hfuel : 2 ≤ fuel) (hrel : rule.wYear = 0) (hm1 : 1 ≤ rule.wMonth)
    (hm12 : rule.wMonth ≤ 12) (hdow : rule.wDayOfWeek ≤ 7) (h5 : rule.wDay = 5)
    (hy : year ≠ 0) (hlo : -2147483648 ≤ year)
    (hjan : -2147483648 < year ∨ 2 ≤ rule.wMonth) (hhi : year ≤ 2147483647)
    (hdec : year < 2147483647 ∨ rule.wMonth ≤ 11) :
    ∃ date, calculateTransitionLocalDate fuel rule year = some date ∧
      date.isValid = true ∧ date.year = year ∧ date.month = rule.wMonth ∧
      date.dayOfWeek = (if rule.wDayOfWeek = 0 then 7 else (rule.wDayOfWeek : Int)) ∧
      (date.addDays 7).isValid = true ∧ (date.addDays 7).month ≠ rule.wMonth := by
  have hm1' : (1 : Int) ≤ (rule.wMonth : Int) := by exact_mod_cast hm1
  have hm12' : (rule.wMonth : Int) ≤ 12 := by exact_mod_cast hm12
  have h5' : (rule.wDay : Int) = 5 := by exact_mod_cast h5
  have hjan' : -2147483648 < year ∨ (2 : Int) ≤ (rule.wMonth : Int) := by omega
  have hdec' : year < 2147483647 ∨ (rule.wMonth : Int) ≤ 11 := by omega
  obtain ⟨hb1, _⟩ := julianDay_first_bounds hlo hjan' hhi hm1' hm12'
  have hb2 := julianDay_first_upper hhi hdec' hm1' hm12'
  have hmin : QDate.minJd ≤ QDate.maxJd := by decide
  obtain ⟨off, ho1, ho2, how, hstart⟩ :=
    relativeStartDate_eq hy hlo hjan hhi hm1 hm12 hdow (by omega)
  obtain ⟨len, y2, m2, hl1, hl2, hin, hy2, hy2lo, hy2hi, hy2eq, hm21, hm212, hne, hnext⟩ :=
    next_month hy hm1' hm12'
  have hm0 : rule.wMonth ≠ 0 := by omega
  have hcalc : calculateTransitionLocalDate fuel rule year
      = backIntoMonth rule.wMonth fuel
          ⟨QDate.julianDayFromDate year rule.wMonth 1 + off + 7 * (rule.wDay : Int)⟩ := by
    unfold calculateTransitionLocalDate
    simp only [hm0, hrel, if_true, if_false, hstart]
  rw [h5'] at hcalc
  -- the dates of this month and of the next one, by their distance from the 1st
  have inside : ∀ k : Int, 0 ≤ k → k < len →
      (QDate.mk (QDate.julianDayFromDate year rule.wMonth 1 + k)).isValid = true ∧
      (QDate.mk (QDate.julianDayFromDate year rule.wMonth 1 + k)).year = year ∧
      (QDate.mk (QDate.julianDayFromDate year rule.wMonth 1 + k)).month = rule.wMonth := by
    intro k hk0 hk
    have hv := hin (1 + k) (by omega) (by omega)
    have hf := fields_of_date hv hlo hhi
    rw [julianDayFromDate_add] at hf
    exact ⟨hf.1, hf.2.1, hf.2.2.1⟩
  have outside : ∀ k : Int, len ≤ k → k ≤ len + 27 →
      (QDate.mk (QDate.julianDayFromDate year rule.wMonth 1 + k)).isValid = true ∧
      (QDate.mk (QDate.julianDayFromDate year rule.wMonth 1 + k)).month
        ≠ (rule.wMonth : Int) := by
    intro k hk0 hk
    have hf := fields_first_add (y := y2) (m := m2) (k := k - len) hy2 (by omega) (by omega)
      hm21 hm212 (by omega) (by omega)
    have he : QDate.julianDayFromDate y2 m2 1 + (k - len)
        = QDate.julianDayFromDate year rule.wMonth 1 + k := by
      rw [← hnext]; ring
    rw [he] at hf
    refine ⟨hf.1, ?_⟩
    rw [hf.2.2.1]
    exact hne
  have addSeven : ∀ j : Int, QDate.minJd ≤ QDate.julianDayFromDate year rule.wMonth 1 + j →
      QDate.julianDayFromDate year rule.wMonth 1 + j + 7 ≤ QDate.maxJd →
      (QDate.mk (QDate.julianDayFromDate year rule.wMonth 1 + j)).addDays 7
        = ⟨QDate.julianDayFromDate year rule.wMonth 1 + (j + 7)⟩ := by
    intro j h1 h2
    rw [addDays_of_valid (by rw [isValid_iff]; simp only; omega) (by simp only; omega)
      (by simp only; omega)]
    simp only [QDate.mk.injEq]
    ring
  by_cases hc : off + 35 < len
  · obtain ⟨hval, hyear, hmonth⟩ := inside (off + 35) (by omega) hc
    obtain ⟨hval7, hmonth7⟩ := outside (off + 35 + 7) (by omega) (by omega)
    refine ⟨⟨QDate.julianDayFromDate year rule.wMonth 1 + (off + 35)⟩, ?_, hval, hyear,
      hmonth, ?_, ?_, ?_⟩
    · rw [hcalc]
      have he : QDate.julianDayFromDate year rule.wMonth 1 + off + 7 * 5
          = QDate.julianDayFromDate year rule.wMonth 1 + (off + 35) := by ring
      rw [he]
      exact backIntoMonth_stop (by omega) hmonth
    · rw [dayOfWeek_of_valid hval, ← how]
      simp only
      omega
    · rw [addSeven _ (by omega) (by omega)]
      exact hval7
    · rw [addSeven _ (by omega) (by omega)]
      exact hmonth7
  · obtain ⟨hval, hyear, hmonth⟩ := inside (off + 28) (by omega) (by omega)
    obtain ⟨hval7, hmonth7⟩ := outside (off + 35) (by omega) (by omega)
    refine ⟨⟨QDate.julianDayFromDate year rule.wMonth 1 + (off + 28)⟩, ?_, hval, hyear,
      hmonth, ?_, ?_, ?_⟩
    · rw [hcalc]
      have he : QDate.julianDayFromDate year rule.wMonth 1 + off + 7 * 5
          = QDate.julianDayFromDate year rule.wMonth 1 + (off + 35) := by ring
      rw [he]
      obtain ⟨n, rfl⟩ : ∃ n, fuel = n + 1 + 1 := ⟨fuel - 2, by omega⟩
      rw [backIntoMonth_step _ hmonth7]
      rw [addDays_of_valid hval7 (by simp only; omega) (by simp only; omega)]
      have he2 : QDate.julianDayFromDate year rule.wMonth 1 + (off + 35) + -7
          = QDate.julianDayFromDate year rule.wMonth 1 + (off + 28) := by ring
      simp only [he2]
      exact backIntoMonth_stop (by omega) hmonth
    · rw [dayOfWeek_of_valid hval, ← how]
      simp only
      omega
    · rw [addSeven _ (by omega) (by omega)]
      have he3 : off + 28 + 7 = off + 35 := by ring
      rw [he3]
      exact hval7
    · rw [addSeven _ (by omega) (by omega)]
      have he3 : off + 28 + 7 = off + 35 := by ring
      rw [he3]
      exact hmonth7

/-- C7 fails as stated: for the year 0, which QDate does not have, the loop of
calculateTransitionLocalDate never ends, whatever the fuel; the same happens
for December of the greatest `int` year, where five weeks after the 1st is out
of the range of QDate, and for January of the least one, where the week before
the 1st is. -/
theorem calculateTransitionLocalDate_last_counterexample :
    (¬ ∃ (fuel : Nat) (date : QDate),
      calculateTransitionLocalDate fuel (relativeRule 10 0 5 2) 0 = some date) ∧
    (¬ ∃ (fuel : Nat) (date : QDate),
      calculateTransitionLocalDate fuel (relativeRule 12 3 5 2) 2147483647 = some date) ∧
    (¬ ∃ (fuel : Nat) (date : QDate),
      calculateTransitionLocalDate fuel (relativeRule 1 0 5 2) (-2147483648) = some date) := by
  refine ⟨?_, ?_, ?_⟩
  · rintro ⟨fuel, date, h⟩
    have h0 : relativeStartDate (relativeRule 10 0 5 2) 0 = QDate.null := by decide
    unfold calculateTransitionLocalDate at h
    simp only [relativeRule, OfNat.ofNat_ne_zero, if_false, if_true] at h
    simp only [relativeRule] at h0
    rw [h0, backIntoMonth_null (by decide)] at h
    cases h
  · rintro ⟨fuel, date, h⟩
    have h0 : relativeStartDate (relativeRule 12 3 5 2) 2147483647 = QDate.null := by decide
    unfold calculateTransitionLocalDate at h
    simp only [relativeRule, OfNat.ofNat_ne_zero, if_false, if_true] at h
    simp only [relativeRule] at h0
    rw [h0, backIntoMonth_null (by decide)] at h
    cases h
  · rintro ⟨fuel, date, h⟩
    have h0 : relativeStartDate (relativeRule 1 0 5 2) (-2147483648) = QDate.null := by decide
    unfold calculateTransitionLocalDate at h
    simp only [relativeRule, OfNat.ofNat_ne_zero, if_false, if_true] at h
    simp only [relativeRule] at h0
    rw [h0, backIntoMonth_null (by decide)] at h
    cases h

/-- Witness of C7: the last Sunday of October 2023, a month with five Sundays. -/
theorem calculateTransitionLocalDate_last_witness :
    ∃ date, calculateTransitionLocalDate 2 (relativeRule 10 0 5 2) 2023 = some date ∧
      date.isValid = true ∧ date.year = 2023 ∧ date.month = (10 : Nat) ∧
      date.dayOfWeek = (if 0 = 0 then 7 else ((0 : Nat) : Int)) ∧
      (date.addDays 7).isValid = true ∧ (date.addDays 7).month ≠ (10 : Nat) :=
  calculateTransitionLocalDate_last 2 (relativeRule 10 0 5 2) 2023 (by decide) rfl
    (by decide) (by decide) (by decide) rfl (by decide) (by decide) (by decide)
    (by decide) (by decide)

/-! ### timeToMSecs and the transition pair -/

theorem wrap32_of_range {x : Int} (hlo : -2147483648 ≤ x) (hhi : x ≤ 2147483647) :
    wrap32 x = x := by
  unfold wrap32
  omega

theorem wrap64_of_range {x : Int} (hlo : -9223372036854775808 ≤ x)
    (hhi : x ≤ 9223372036854775807) : wrap64 x = x := by
  unfold wrap64
  omega

/-- When the count of milliseconds fits 64 bits, timeToMSecs is that count. -/
theorem timeToMSecs_of_range (date : QDate) (time : QTime)
    (hlo : -9223372036854775808
      ≤ (date.toJulianDay - JULIAN_DAY_FOR_EPOCH) * MSECS_PER_DAY + time.msecsSinceStartOfDay)
    (hhi : (date.toJulianDay - JULIAN_DAY_FOR_EPOCH) * MSECS_PER_DAY
      + time.msecsSinceStartOfDay ≤ 9223372036854775807) :
    timeToMSecs date time
      = (date.toJulianDay - JULIAN_DAY_FOR_EPOCH) * MSECS_PER_DAY
        + time.msecsSinceStartOfDay := by
  unfold timeToMSecs wrap64
  unfold JULIAN_DAY_FOR_EPOCH MSECS_PER_DAY at *
  generalize date.toJulianDay = jd at *
  generalize time.msecsSinceStartOfDay = ms at *
  omega

/-- C8 fails as stated: the day 106751991168 days after the epoch (in the year
292277026) is a valid QDate, yet its count of milliseconds passes 2^63 and
timeToMSecs, a qint64, comes out negative, below the value 0 of the epoch. -/
theorem timeToMSecs_mono_counterexample :
    (QDate.ofYMD 1970 1 1).isValid = true ∧
    (QDate.fromJulianDay 106754431756).isValid = true ∧
    (QTime.ofHMS 0 0 0 0).isValid = true ∧
    (QDate.ofYMD 1970 1 1).toJulianDay < (QDate.fromJulianDay 106754431756).toJulianDay ∧
    ¬ (timeToMSecs (QDate.ofYMD 1970 1 1) (QTime.ofHMS 0 0 0 0)
        < timeToMSecs (QDate.fromJulianDay 106754431756) (QTime.ofHMS 0 0 0 0)) := by
  decide

/-- A valid time of day is within the milliseconds of a day. -/
theorem msecs_range {t : QTime} (h : t.isValid = true) :
    0 ≤ t.msecsSinceStartOfDay ∧ t.msecsSinceStartOfDay < 86400000 := by
  unfold QTime.msecsSinceStartOfDay
  rw [if_pos h]
  unfold QTime.isValid at h
  simp only [Bool.and_eq_true, decide_eq_true_eq] at h
  omega

/-- C8 (amended): timeToMSecs is strictly monotonic on the valid dates and
times whose count of milliseconds since the epoch fits 64 bits: when (d1, t1)
precedes (d2, t2), by Julian day and then by time of day, timeToMSecs(d1, t1)
is less than timeToMSecs(d2, t2); and timeToMSecs(1970-01-01, 00:00:00) = 0. -/
theorem timeToMSecs_strictMono (d1 d2 : QDate) (t1 t2 : QTime)
    (_hd1 : d1.isValid = true) (_hd2 : d2.isValid = true)
    (ht1 : t1.isValid = true) (ht2 : t2.isValid = true)
    (hlo1 : -9223372036854775808
      ≤ (d1.toJulianDay - JULIAN_DAY_FOR_EPOCH) * MSECS_PER_DAY + t1.msecsSinceStartOfDay)
    (hhi1 : (d1.toJulianDay - JULIAN_DAY_FOR_EPOCH) * MSECS_PER_DAY
      + t1.msecsSinceStartOfDay ≤ 9223372036854775807)
    (hlo2 : -9223372036854775808
      ≤ (d2.toJulianDay - JULIAN_DAY_FOR_EPOCH) * MSECS_PER_DAY + t2.msecsSinceStartOfDay)
    (hhi2 : (d2.toJulianDay - JULIAN_DAY_FOR_EPOCH) * MSECS_PER_DAY
      + t2.msecsSinceStartOfDay ≤ 9223372036854775807)
    (hlex : d1.toJulianDay < d2.toJulianDay ∨
      (d1.toJulianDay = d2.toJulianDay ∧
        t1.msecsSinceStartOfDay < t2.msecsSinceStartOfDay)) :
    timeToMSecs d1 t1 < timeToMSecs d2 t2 ∧
      timeToMSecs (QDate.ofYMD 1970 1 1) (QTime.ofHMS 0 0 0 0) = 0 := by
  refine ⟨?_, by decide⟩
  rw [timeToMSecs_of_range d1 t1 hlo1 hhi1, timeToMSecs_of_range d2 t2 hlo2 hhi2]
  have hm1 := msecs_range ht1
  have hm2 := msecs_range ht2
  unfold JULIAN_DAY_FOR_EPOCH MSECS_PER_DAY
  generalize d1.toJulianDay = j1 at *
  generalize d2.toJulianDay = j2 at *
  generalize t1.msecsSinceStartOfDay = m1 at *
  generalize t2.msecsSinceStartOfDay = m2 at *
  omega

/-- Witness of C8: 2023-03-12 02:00 precedes 2023-11-05 01:00. -/
theorem timeToMSecs_strictMono_witness :
    timeToMSecs (QDate.ofYMD 2023 3 12) (QTime.ofHMS 2 0 0 0)
        < timeToMSecs (QDate.ofYMD 2023 11 5) (QTime.ofHMS 1 0 0 0) ∧
      timeToMSecs (QDate.ofYMD 1970 1 1) (QTime.ofHMS 0 0 0 0) = 0 :=
  timeToMSecs_strictMono (QDate.ofYMD 2023 3 12) (QDate.ofYMD 2023 11 5)
    (QTime.ofHMS 2 0 0 0) (QTime.ofHMS 1 0 0 0) (by decide) (by decide) (by decide)
    (by decide) (by decide) (by decide) (by decide) (by decide) (by decide)

/-- The instant of a transition whose date and time of day are valid. -/
theorem calculateTransitionForYear_of_valid {fuel : Nat} {rule : SYSTEMTIME}
    {year bias : Int} {date : QDate}
    (hd : calculateTransitionLocalDate fuel rule year = some date)
    (hv : date.isValid = true)
    (ht : (QTime.ofHMS rule.wHour rule.wMinute rule.wSecond 0).isValid = true) :
    calculateTransitionForYear fuel rule year bias
      = some (wrap64 (timeToMSecs date (QTime.ofHMS rule.wHour rule.wMinute rule.wSecond 0)
          + wrap32 (bias * 60000))) := by
  unfold calculateTransitionForYear
  simp only [hd, hv, ht, Bool.and_self, if_true]

/-- A SYSTEMTIME without a month gives the invalid instant, whatever the year,
the bias and the fuel. -/
theorem calculateTransitionForYear_noMonth (fuel : Nat) {rule : SYSTEMTIME}
    (year bias : Int) (hm : rule.wMonth = 0) :
    calculateTransitionForYear fuel rule year bias = some invalidMSecs := by
  unfold calculateTransitionForYear calculateTransitionLocalDate
  simp only [hm, if_true, null_not_valid, Bool.false_and, Bool.false_eq_true, if_false]

/-- The pair is made of the two instants, once both are computed. -/
theorem ofRule_of_some {fuel : Nat} {rule : QWinTransitionRule} {year s d : Int}
    (hs : calculateTransitionForYear fuel rule.standardTimeRule year
      (wrap32 (rule.standardTimeBias + rule.daylightTimeBias)) = some s)
    (hd : calculateTransitionForYear fuel rule.daylightTimeRule year rule.standardTimeBias
      = some d) :
    TransitionTimePair.ofRule fuel rule year = some ⟨s, d⟩ := by
  unfold TransitionTimePair.ofRule
  rw [hs, hd]

/-- C9: dual basis of the transition pair. When both SYSTEMTIMEs of a rule
resolve, in a year, to a valid date and a valid time of day, the pair is
produced; its `std` is timeToMSecs of the standard date and time plus
(standardTimeBias + daylightTimeBias) * 60000 and its `dst` is timeToMSecs of
the daylight date and time plus standardTimeBias * 60000, in the `int` and
`qint64` arithmetic of the code; these are the exact integers whenever no
operation leaves its range. -/
theorem transitionTimePair_dualBasis (fuel : Nat) (rule : QWinTransitionRule) (year : Int)
    (dStd dDst : QDate)
    (hs : calculateTransitionLocalDate fuel rule.standardTimeRule year = some dStd)
    (hd : calculateTransitionLocalDate fuel rule.daylightTimeRule year = some dDst)
    (hsv : dStd.isValid = true) (hdv : dDst.isValid = true)
    (hst : (QTime.ofHMS rule.standardTimeRule.wHour rule.standardTimeRule.wMinute
      rule.standardTimeRule.wSecond 0).isValid = true)
    (hdt : (QTime.ofHMS rule.daylightTimeRule.wHour rule.daylightTimeRule.wMinute
      rule.daylightTimeRule.wSecond 0).isValid = true) :
    ∃ pair, TransitionTimePair.ofRule fuel rule year = some pair ∧
      pair.std = wrap64 (timeToMSecs dStd (QTime.ofHMS rule.standardTimeRule.wHour
          rule.standardTimeRule.wMinute rule.standardTimeRule.wSecond 0)
        + wrap32 (wrap32 (rule.standardTimeBias + rule.daylightTimeBias) * 60000)) ∧
      pair.dst = wrap64 (timeToMSecs dDst (QTime.ofHMS rule.daylightTimeRule.wHour
          rule.daylightTimeRule.wMinute rule.daylightTimeRule.wSecond 0)
        + wrap32 (rule.standardTimeBias * 60000)) ∧
      (-2147483648 ≤ (rule.standardTimeBias + rule.daylightTimeBias) * 60000 →
        (rule.standardTimeBias + rule.daylightTimeBias) * 60000 ≤ 2147483647 →
        -9223372036854775808 ≤ timeToMSecs dStd (QTime.ofHMS rule.standardTimeRule.wHour
            rule.standardTimeRule.wMinute rule.standardTimeRule.wSecond 0)
          + (rule.standardTimeBias + rule.daylightTimeBias) * 60000 →
        timeToMSecs dStd (QTime.ofHMS rule.standardTimeRule.wHour
            rule.standardTimeRule.wMinute rule.standardTimeRule.wSecond 0)
          + (rule.standardTimeBias + rule.daylightTimeBias) * 60000
          ≤ 9223372036854775807 →
        pair.std = timeToMSecs dStd (QTime.ofHMS rule.standardTimeRule.wHour
            rule.standardTimeRule.wMinute rule.standardTimeRule.wSecond 0)
          + (rule.standardTimeBias + rule.daylightTimeBias) * 60000) ∧
      (-2147483648 ≤ rule.standardTimeBias * 60000 →
        rule.standardTimeBias * 60000 ≤ 2147483647 →
        -9223372036854775808 ≤ timeToMSecs dDst (QTime.ofHMS rule.daylightTimeRule.wHour
            rule.daylightTimeRule.wMinute rule.daylightTimeRule.wSecond 0)
          + rule.standardTimeBias * 60000 →
        timeToMSecs dDst (QTime.ofHMS rule.daylightTimeRule.wHour
            rule.daylightTimeRule.wMinute rule.daylightTimeRule.wSecond 0)
          + rule.standardTimeBias * 60000 ≤ 9223372036854775807 →
        pair.dst = timeToMSecs dDst (QTime.ofHMS rule.daylightTimeRule.wHour
            rule.daylightTimeRule.wMinute rule.daylightTimeRule.wSecond 0)
          + rule.standardTimeBias * 60000) := by
  refine ⟨_, ofRule_of_some (calculateTransitionForYear_of_valid hs hsv hst)
    (calculateTransitionForYear_of_valid hd hdv hdt), rfl, rfl, ?_, ?_⟩
  · intro h1 h2 h3 h4
    have hb : wrap32 (rule.standardTimeBias + rule.daylightTimeBias)
        = rule.standardTimeBias + rule.daylightTimeBias := by
      apply wrap32_of_range <;> omega
    simp only [hb, wrap32_of_range h1 h2, wrap64_of_range h3 h4]
  · intro h1 h2 h3 h4
    simp only [wrap32_of_range h1 h2, wrap64_of_range h3 h4]
/-- C10: a side of the transition pair whose SYSTEMTIME has month 0 is the
invalid instant, the least 64-bit integer, and nothing fails: for every rule,
year and fuel, the instant computed for such a side is the sentinel, and the
pair is the other side's instant next to the sentinel (so it exists as soon as
the other side's date resolution has ended, and always when both months are
0). -/
theorem transitionTimePair_noMonth (fuel : Nat) (rule : QWinTransitionRule) (year : Int) :
    (rule.standardTimeRule.wMonth = 0 →
      calculateTransitionForYear fuel rule.standardTimeRule year
          (wrap32 (rule.standardTimeBias + rule.daylightTimeBias)) = some invalidMSecs ∧
      TransitionTimePair.ofRule fuel rule year
        = (calculateTransitionForYear fuel rule.daylightTimeRule year
            rule.standardTimeBias).map (fun dst => ⟨invalidMSecs, dst⟩)) ∧
    (rule.daylightTimeRule.wMonth = 0 →
      calculateTransitionForYear fuel rule.daylightTimeRule year rule.standardTimeBias
        = some invalidMSecs ∧
      TransitionTimePair.ofRule fuel rule year
        = (calculateTransitionForYear fuel rule.standardTimeRule year
            (wrap32 (rule.standardTimeBias + rule.daylightTimeBias))).map
            (fun std => ⟨std, invalidMSecs⟩)) ∧
    (rule.standardTimeRule.wMonth = 0 → rule.daylightTimeRule.wMonth = 0 →
      TransitionTimePair.ofRule fuel rule year = some ⟨invalidMSecs, invalidMSecs⟩) ∧
    invalidMSecs = -(2 : Int) ^ 63 := by
  refine ⟨?_, ?_, ?_, by decide⟩
  · intro hm
    have h := calculateTransitionForYear_noMonth fuel year
      (wrap32 (rule.standardTimeBias + rule.daylightTimeBias)) hm
    refine ⟨h, ?_⟩
    unfold TransitionTimePair.ofRule
    rw [h]
    cases calculateTransitionForYear fuel rule.daylightTimeRule year rule.standardTimeBias
      <;> rfl
  · intro hm
    have h := calculateTransitionForYear_noMonth fuel year rule.standardTimeBias hm
    refine ⟨h, ?_⟩
    unfold TransitionTimePair.ofRule
    rw [h]
    cases calculateTransitionForYear fuel rule.standardTimeRule year
      (wrap32 (rule.standardTimeBias + rule.daylightTimeBias)) <;> rfl
  · intro hs hd
    exact ofRule_of_some (calculateTransitionForYear_noMonth fuel year _ hs)
      (calculateTransitionForYear_noMonth fuel year _ hd)

/-- Witness of C10: a rule with a daylight rule only, in 2023; its `std` is
the sentinel and its `dst` the second Sunday of March, 02:00 local time. -/
theorem transitionTimePair_noMonth_witness :
    TransitionTimePair.ofRule 1 ⟨MIN_YEAR, 300, -60, noTransition, relativeRule 3 0 2 2⟩ 2023
      = some ⟨invalidMSecs, 1678604400000⟩ := by
  rw [(transitionTimePair_noMonth 1 ⟨MIN_YEAR, 300, -60, noTransition, relativeRule 3 0 2 2⟩
    2023).1 rfl |>.2]
  decide

/-- Witness of C9: the rule of US Eastern time since 2007, in 2023: the switch
to standard time is on 2023-11-05 at 02:00 daylight time (06:00 UTC), the
switch to daylight time on 2023-03-12 at 02:00 standard time (07:00 UTC). -/
theorem transitionTimePair_dualBasis_witness :
    ∃ pair, TransitionTimePair.ofRule 1
        ⟨2007, 300, -60, relativeRule 11 0 1 2, relativeRule 3 0 2 2⟩ 2023 = some pair ∧
      pair.std = 1699164000000 ∧ pair.dst = 1678604400000 := by
  obtain ⟨pair, h, hs, hd, _, _⟩ := transitionTimePair_dualBasis 1
    ⟨2007, 300, -60, relativeRule 11 0 1 2, relativeRule 3 0 2 2⟩ 2023
    (QDate.ofYMD 2023 11 5) (QDate.ofYMD 2023 3 12) (by decide) (by decide) (by decide)
    (by decide) (by decide) (by decide)
  refine ⟨pair, h, ?_, ?_⟩
  · rw [hs]
    decide
  · rw [hd]
    decide

/-! ### Rule lookup -/

theorem sorted_lt {rules : List QWinTransitionRule} (hs : StrictlyIncreasing rules)
    {i j : Nat} {a b : QWinTransitionRule} (hij : i < j)
    (ha : rules[i]? = some a) (hb : rules[j]? = some b) : a.startYear < b.startYear := by
  obtain ⟨hi, rfl⟩ := List.getElem?_eq_some.mp ha
  obtain ⟨hj, rfl⟩ := List.getElem?_eq_some.mp hb
  exact (List.pairwise_iff_getElem.mp hs) i j hi hj hij

/-- The binary chop ends within `hi - lo` rounds, whatever the table holds. -/
theorem ruleIndexLoop_isSome (rules : List QWinTransitionRule) (year : Int) :
    ∀ (fuel lo hi : Nat), lo < hi → hi ≤ rules.length → hi - lo ≤ fuel →
      ∃ i, ruleIndexLoop rules year fuel lo hi = some i ∧ lo ≤ i ∧ i < hi := by
  intro fuel
  induction fuel with
  | zero => intro lo hi h1 _ h3; omega
  | succ n ih =>
    intro lo hi h1 h2 h3
    unfold ruleIndexLoop
    by_cases hlo : lo + 1 < hi
    · have hmid : (lo + hi) / 2 < rules.length := by omega
      simp only [hlo, if_true, List.getElem?_eq_getElem hmid]
      by_cases hgt : rules[(lo + hi) / 2].startYear > year
      · simp only [hgt, if_true]
        obtain ⟨i, hi1, hi2, hi3⟩ := ih lo ((lo + hi) / 2) (by omega) (by omega) (by omega)
        exact ⟨i, hi1, hi2, by omega⟩
      · by_cases hlt : rules[(lo + hi) / 2].startYear < year
        · simp only [hgt, hlt, if_true, if_false]
          obtain ⟨i, hi1, hi2, hi3⟩ := ih ((lo + hi) / 2) hi (by omega) (by omega) (by omega)
          exact ⟨i, hi1, by omega, hi3⟩
        · simp only [hgt, hlt, if_false]
          exact ⟨_, rfl, by omega, by omega⟩
    · simp only [hlo, if_false]
      exact ⟨lo, rfl, le_refl _, h1⟩

/-- The binary chop keeps `rules[lo].startYear <= year < rules[hi].startYear`
and so ends on the greatest index that starts at or before `year`. -/
theorem ruleIndexLoop_greatest (rules : List QWinTransitionRule) (year : Int)
    (hs : StrictlyIncreasing rules) :
    ∀ (fuel lo hi : Nat), lo < hi → hi ≤ rules.length → hi - lo ≤ fuel →
      (∃ r, rules[lo]? = some r ∧ r.startYear ≤ year) →
      (∀ j r, hi ≤ j → rules[j]? = some r → year < r.startYear) →
      ∃ i, ruleIndexLoop rules year fuel lo hi = some i ∧ IsGreatestIndex rules year i := by
  intro fuel
  induction fuel with
  | zero => intro lo hi h1 _ h3; omega
  | succ n ih =>
    intro lo hi h1 h2 h3 hlow hup
    unfold ruleIndexLoop
    by_cases hlo : lo + 1 < hi
    · have hmid : (lo + hi) / 2 < rules.length := by omega
      have hm := List.getElem?_eq_getElem hmid
      simp only [hlo, if_true, hm]
      by_cases hgt : rules[(lo + hi) / 2].startYear > year
      · simp only [hgt, if_true]
        refine ih lo ((lo + hi) / 2) (by omega) (by omega) (by omega) hlow ?_
        intro j r hj hr
        rcases Nat.eq_or_lt_of_le hj with h | h
        · rw [← h, hm] at hr
          cases hr
          exact hgt
        · exact lt_trans hgt (sorted_lt hs h hm hr)
      · by_cases hlt : rules[(lo + hi) / 2].startYear < year
        · simp only [hgt, hlt, if_true, if_false]
          exact ih ((lo + hi) / 2) hi (by omega) (by omega) (by omega)
            ⟨_, hm, le_of_lt hlt⟩ hup
        · simp only [hgt, hlt, if_false]
          refine ⟨_, rfl, ⟨_, hm, le_of_not_gt hgt⟩, ?_⟩
          intro j r hr hle
          by_contra hc
          have := sorted_lt hs (not_le.mp hc) hm hr
          omega
    · simp only [hlo, if_false]
      refine ⟨lo, rfl, hlow, ?_⟩
      intro j r hr hle
      by_contra hc
      have := hup j r (by omega) hr
      omega

theorem head_getLast_of_ne_nil {rules : List QWinTransitionRule} (hne : rules ≠ []) :
    ∃ first last, rules.head? = some first ∧ rules.getLast? = some last ∧
      rules[0]? = some first ∧ rules[rules.length - 1]? = some last ∧ 0 < rules.length := by
  have hlen : 0 < rules.length := List.length_pos.mpr hne
  refine ⟨rules[0], rules[rules.length - 1], ?_, ?_, ?_, ?_, hlen⟩
  · rw [List.head?_eq_getElem?, List.getElem?_eq_getElem hlen]
  · rw [List.getLast?_eq_getElem?, List.getElem?_eq_getElem (by omega)]
  · exact List.getElem?_eq_getElem hlen
  · exact List.getElem?_eq_getElem (by omega)

/-- On a non-empty table the lookup returns an index of the table. -/
theorem ruleIndexForYear_isSome {rules : List QWinTransitionRule} (hne : rules ≠ [])
    (year : Int) : ∃ i, ruleIndexForYear rules year = some i ∧ i < rules.length := by
  obtain ⟨first, last, hf, hl, _, _, hlen⟩ := head_getLast_of_ne_nil hne
  unfold ruleIndexForYear
  simp only [hf, hl]
  by_cases h1 : last.startYear ≤ year
  · simp only [h1, if_true]
    exact ⟨_, rfl, by omega⟩
  · by_cases h2 : first.startYear > year
    · simp only [h1, h2, if_true, if_false]
      exact ⟨_, rfl, hlen⟩
    · simp only [h1, h2, if_false]
      obtain ⟨i, hi, _, hlt⟩ :=
        ruleIndexLoop_isSome rules year (rules.length + 1) 0 rules.length hlen
          (le_refl _) (by omega)
      exact ⟨i, hi, hlt⟩

/-- On a sorted non-empty table, from the first start year on, the lookup
returns the greatest index that starts at or before `year`. -/
theorem ruleIndexForYear_spec {rules : List QWinTransitionRule} (hne : rules ≠ [])
    (hs : StrictlyIncreasing rules) {first : QWinTransitionRule} {year : Int}
    (hfirst : rules.head? = some first) (hy : first.startYear ≤ year) :
    ∃ i, ruleIndexForYear rules year = some i ∧ IsGreatestIndex rules year i := by
  obtain ⟨first', last, hf, hl, hf0, hl0, hlen⟩ := head_getLast_of_ne_nil hne
  have hff : first' = first := by rw [hf] at hfirst; exact Option.some.inj hfirst
  subst hff
  unfold ruleIndexForYear
  simp only [hf, hl]
  by_cases h1 : last.startYear ≤ year
  · simp only [h1, if_true]
    refine ⟨_, rfl, ⟨last, hl0, h1⟩, ?_⟩
    intro j r hr _
    obtain ⟨hj, _⟩ := List.getElem?_eq_some.mp hr
    omega
  · have h2 : ¬ first'.startYear > year := by omega
    simp only [h1, h2, if_false]
    refine ruleIndexLoop_greatest rules year hs (rules.length + 1) 0 rules.length hlen
      (le_refl _) (by omega) ⟨first', hf0, hy⟩ ?_
    intro j r hj hr
    obtain ⟨hj2, _⟩ := List.getElem?_eq_some.mp hr
    omega

/-- C1: for a non-empty table with strictly increasing start years and a year
at or after the first start year, ruleIndexForYear returns the greatest index
whose rule starts at or before the year. -/
theorem ruleIndexForYear_greatest (rules : List QWinTransitionRule) (year : Int)
    (first : QWinTransitionRule) (hfirst : rules.head? = some first)
    (hs : StrictlyIncreasing rules) (hy : first.startYear ≤ year) :
    ∃ i, ruleIndexForYear rules year = some i ∧ IsGreatestIndex rules year i := by
  have hne : rules ≠ [] := by
    intro h
    rw [h] at hfirst
    cases hfirst
  exact ruleIndexForYear_spec hne hs hfirst hy

/-- Witness of C1: the year 1999 in the table of US Eastern time. -/
theorem ruleIndexForYear_greatest_witness :
    ∃ i, ruleIndexForYear easternTable 1999 = some i ∧ IsGreatestIndex easternTable 1999 i :=
  ruleIndexForYear_greatest easternTable 1999
    ⟨MIN_YEAR, 300, -60, relativeRule 10 0 5 2, relativeRule 4 0 5 2⟩ rfl
    (by decide) (by decide)

/-- The two tests before the binary chop, on any non-empty list: a year at or
after the last start year gives the last index; a year before the last and
before the first start year gives index 0. -/
theorem ruleIndexForYear_ends (rules : List QWinTransitionRule) (year : Int)
    (first last : QWinTransitionRule) (hfirst : rules.head? = some first)
    (hlast : rules.getLast? = some last) :
    (last.startYear ≤ year → ruleIndexForYear rules year = some (rules.length - 1)) ∧
    (year < last.startYear → year < first.startYear →
      ruleIndexForYear rules year = some 0) := by
  unfold ruleIndexForYear
  simp only [hfirst, hlast]
  constructor
  · intro h
    simp only [h, if_true]
  · intro h1 h2
    have h1' : ¬ last.startYear ≤ year := by omega
    have h2' : first.startYear > year := h2
    simp only [h1', h2', if_true, if_false]

/-- The order of the two tests shows only on a list that is not sorted, which
init does not build: with start years 5, 3 the year 4 is before the first
start year, yet the lookup answers 1, the last index. -/
theorem ruleIndexForYear_unsorted :
    ¬ StrictlyIncreasing decreasingTable ∧
    (∃ first, decreasingTable.head? = some first ∧ (4 : Int) < first.startYear) ∧
    ruleIndexForYear decreasingTable 4 = some 1 := by
  decide

/-- In a table with strictly increasing start years the first rule starts no
later than the last. -/
theorem first_le_last {rules : List QWinTransitionRule} (hs : StrictlyIncreasing rules)
    {first last : QWinTransitionRule} (hf : rules.head? = some first)
    (hl : rules.getLast? = some last) : first.startYear ≤ last.startYear := by
  have hne : rules ≠ [] := by
    intro hc
    rw [hc] at hl
    cases hl
  obtain ⟨first2, last2, hf2, hl2, hf0, hl0, hlen⟩ := head_getLast_of_ne_nil hne
  rw [hf] at hf2
  rw [hl] at hl2
  cases hf2
  cases hl2
  by_cases h1 : rules.length - 1 = 0
  · rw [h1, hf0] at hl0
    cases hl0
    exact le_refl _
  · exact le_of_lt (sorted_lt hs (Nat.pos_of_ne_zero h1) hf0 hl0)

/-- C2: on every non-empty rule table, its start years strictly increasing as
in every RuleTable and every table init builds: a year before the first rule's
start year gives index 0, and a year at or after the last rule's start year
gives the last index, count - 1. -/
theorem ruleIndexForYear_degenerate (rules : List QWinTransitionRule) (year : Int)
    (first last : QWinTransitionRule) (hfirst : rules.head? = some first)
    (hlast : rules.getLast? = some last) (hs : StrictlyIncreasing rules) :
    (year < first.startYear → ruleIndexForYear rules year = some 0) ∧
    (last.startYear ≤ year → ruleIndexForYear rules year = some (rules.length - 1)) := by
  have hle := first_le_last hs hfirst hlast
  have h := ruleIndexForYear_ends rules year first last hfirst hlast
  exact ⟨fun hy => h.2 (by omega) hy, h.1⟩

/-- Witness of C2: the table of US Eastern time, at the year before MIN_YEAR,
its first start year, and at the year 2500, after 2007, its last. -/
theorem ruleIndexForYear_degenerate_witness :
    ruleIndexForYear easternTable (-292275057) = some 0 ∧
    ruleIndexForYear easternTable 2500 = some (easternTable.length - 1) :=
  ⟨(ruleIndexForYear_degenerate easternTable (-292275057)
      ⟨MIN_YEAR, 300, -60, relativeRule 10 0 5 2, relativeRule 4 0 5 2⟩
      ⟨2007, 300, -60, relativeRule 11 0 1 2, relativeRule 3 0 2 2⟩ rfl rfl (by decide)).1
      (by decide),
    (ruleIndexForYear_degenerate easternTable 2500
      ⟨MIN_YEAR, 300, -60, relativeRule 10 0 5 2, relativeRule 4 0 5 2⟩
      ⟨2007, 300, -60, relativeRule 11 0 1 2, relativeRule 3 0 2 2⟩ rfl rfl (by decide)).2
      (by decide)⟩

/-- C3: on a non-empty table with strictly increasing start years the lookup
is monotonic: for y1 < y2 both lookups return an index and the index of y1 is
at most the index of y2. -/
theorem ruleIndexForYear_mono (rules : List QWinTransitionRule) (hne : rules ≠ [])
    (hs : StrictlyIncreasing rules) (y1 y2 : Int) (hlt : y1 < y2) :
    ∃ i1 i2, ruleIndexForYear rules y1 = some i1 ∧ ruleIndexForYear rules y2 = some i2 ∧
      i1 ≤ i2 := by
  obtain ⟨first, last, hf, hl, hf0, hl0, hlen⟩ := head_getLast_of_ne_nil hne
  by_cases hy : first.startYear ≤ y1
  · obtain ⟨i1, h1, ⟨r1, hr1, hle1⟩, _⟩ := ruleIndexForYear_spec hne hs hf hy
    obtain ⟨i2, h2, _, hmax⟩ := ruleIndexForYear_spec hne hs hf (le_trans hy (le_of_lt hlt))
    exact ⟨i1, i2, h1, h2, hmax i1 r1 hr1 (by omega)⟩
  · obtain ⟨i2, h2, _⟩ := ruleIndexForYear_isSome hne y2
    refine ⟨0, i2, ?_, h2, Nat.zero_le _⟩
    have hfl : first.startYear ≤ last.startYear := by
      rcases Nat.eq_zero_or_pos (rules.length - 1) with h | h
      · rw [h, hf0] at hl0
        cases hl0
        exact le_refl _
      · exact le_of_lt (sorted_lt hs h hf0 hl0)
    unfold ruleIndexForYear
    simp only [hf, hl]
    have h1' : ¬ last.startYear ≤ y1 := by omega
    have h2' : first.startYear > y1 := by omega
    simp only [h1', h2', if_true, if_false]

/-- Witness of C3: the years 1986 and 2007 in the table of US Eastern time. -/
theorem ruleIndexForYear_mono_witness :
    ∃ i1 i2, ruleIndexForYear easternTable 1986 = some i1 ∧
      ruleIndexForYear easternTable 2007 = some i2 ∧ i1 ≤ i2 :=
  ruleIndexForYear_mono easternTable (by decide) (by decide) 1986 2007 (by decide)

/-! ### msecsToDate -/

/-- The Julian day msecsToDate computes, for every qint64 but the least one:
the day of the epoch plus the whole days of `msecs`, rounded down. -/
theorem msecsToDate_eq {msecs : Int} (hlo : -9223372036854775808 < msecs)
    (hhi : msecs ≤ 9223372036854775807) :
    msecsToDate msecs = ⟨2440588 + msecs / 86400000⟩ ∧
      (msecsToDate msecs).isValid = true := by
  have hq : qAbs msecs = if msecs ≥ 0 then msecs else -msecs := by
    unfold qAbs wrap64
    split_ifs <;> omega
  have hjd : QDate.minJd ≤ 2440588 + msecs / 86400000 ∧
      2440588 + msecs / 86400000 ≤ QDate.maxJd := by
    unfold QDate.minJd QDate.maxJd
    omega
  have key : msecsToDate msecs = QDate.fromJulianDay (2440588 + msecs / 86400000) := by
    unfold msecsToDate
    simp only [hq, JULIAN_DAY_FOR_EPOCH, MSECS_PER_DAY, tdiv_eq _ 86400000 (by decide),
      tmod_eq _ 86400000 (by decide)]
    congr 1
    by_cases hb : (if msecs ≥ 0 then msecs else -msecs) ≥ 86400000
    · simp only [hb, decide_True, if_true]
      by_cases hn : 0 ≤ msecs
      · simp only [hn, if_true]
        have h1 : ¬ (msecs % 86400000 < 0) := by omega
        simp only [h1, if_false]
        unfold wrap64
        omega
      · simp only [hn, if_false]
        by_cases hz : -(-msecs % 86400000) < 0
        · simp only [hz, if_true]
          have h2 : wrap64 (wrap64 (86400000 - -(-msecs % 86400000)) - 1)
              = 86400000 + (-msecs % 86400000) - 1 := by
            unfold wrap64
            omega
          rw [h2]
          have h3 : ((0 : Int) ≤ 86400000 + -msecs % 86400000 - 1) := by omega
          simp only [h3, if_true]
          unfold wrap64
          omega
        · simp only [hz, if_false]
          unfold wrap64
          omega
    · simp only [hb, decide_False, if_false, Bool.false_eq_true]
      by_cases hn : msecs < 0
      · simp only [hn, if_true]
        have h2 : wrap64 (wrap64 (86400000 - msecs) - 1) = 86400000 - msecs - 1 := by
          unfold wrap64
          split_ifs at hb <;> omega
        rw [h2]
        have h3 : ((0 : Int) ≤ 86400000 - msecs - 1) := by omega
        simp only [h3, if_true]
        unfold wrap64
        split_ifs at hb <;> omega
      · simp only [hn, if_false]
        split_ifs at hb <;> omega
  rw [key]
  unfold QDate.fromJulianDay
  simp only [hjd, and_self, if_true, isValid_iff]

/-! ### Fuel -/

/-- More fuel does not change a result of the loop of the date resolution. -/
theorem backIntoMonth_mono {wMonth : Nat} :
    ∀ (f f2 : Nat) (d r : QDate), f ≤ f2 → backIntoMonth wMonth f d = some r →
      backIntoMonth wMonth f2 d = some r := by
  intro f
  induction f with
  | zero =>
    intro f2 d r _ h
    have h0 : backIntoMonth wMonth 0 d = none := rfl
    rw [h0] at h
    cases h
  | succ n ih =>
    intro f2 d r hle h
    obtain ⟨m, rfl⟩ : ∃ m, f2 = m + 1 := ⟨f2 - 1, by omega⟩
    unfold backIntoMonth at h ⊢
    by_cases hm : d.month ≠ (wMonth : Int)
    · rw [if_pos hm] at h ⊢
      exact ih m _ r (by omega) h
    · rw [if_neg hm] at h ⊢
      exact h

theorem calculateTransitionLocalDate_mono {f f2 : Nat} {rule : SYSTEMTIME} {year : Int}
    {r : QDate} (hle : f ≤ f2) (h : calculateTransitionLocalDate f rule year = some r) :
    calculateTransitionLocalDate f2 rule year = some r := by
  unfold calculateTransitionLocalDate at h ⊢
  split_ifs at h ⊢
  · exact h
  · exact backIntoMonth_mono f f2 _ r hle h
  · exact h

theorem calculateTransitionForYear_mono {f f2 : Nat} {rule : SYSTEMTIME} {year bias r : Int}
    (hle : f ≤ f2) (h : calculateTransitionForYear f rule year bias = some r) :
    calculateTransitionForYear f2 rule year bias = some r := by
  unfold calculateTransitionForYear at h ⊢
  cases hd : calculateTransitionLocalDate f rule year with
  | none => rw [hd] at h; cases h
  | some d =>
    rw [hd] at h
    rw [calculateTransitionLocalDate_mono hle hd]
    exact h

theorem ofRule_mono {f f2 : Nat} {rule : QWinTransitionRule} {year : Int}
    {p : TransitionTimePair} (hle : f ≤ f2)
    (h : TransitionTimePair.ofRule f rule year = some p) :
    TransitionTimePair.ofRule f2 rule year = some p := by
  unfold TransitionTimePair.ofRule at h ⊢
  cases hs : calculateTransitionForYear f rule.standardTimeRule year
      (wrap32 (rule.standardTimeBias + rule.daylightTimeBias)) with
  | none => rw [hs] at h; cases h
  | some s =>
    rw [hs] at h
    cases hd : calculateTransitionForYear f rule.daylightTimeRule year
        rule.standardTimeBias with
    | none => rw [hd] at h; cases h
    | some d =>
      rw [hd] at h
      rw [calculateTransitionForYear_mono hle hs, calculateTransitionForYear_mono hle hd]
      exact h

/-- The pair of a rule in a year does not depend on the fuel that computed
it. -/
theorem ofRule_unique {f1 f2 : Nat} {rule : QWinTransitionRule} {year : Int}
    {p1 p2 : TransitionTimePair} (h1 : TransitionTimePair.ofRule f1 rule year = some p1)
    (h2 : TransitionTimePair.ofRule f2 rule year = some p2) : p1 = p2 := by
  have e1 := ofRule_mono (Nat.le_max_left f1 f2) h1
  have e2 := ofRule_mono (Nat.le_max_right f1 f2) h2
  rw [e1] at e2
  exact Option.some.inj e2

/-- More fuel, for the years and for the dates, does not change a result of
the loop of `data`. -/
theorem dataLoop_mono (rules : List QWinTransitionRule) {df df2 : Nat} (t : Int)
    (hdf : df ≤ df2) :
    ∀ (f f2 : Nat) (year : Int) (pair : TransitionTimePair) (s : WalkState), f ≤ f2 →
      dataLoop rules df t f year pair = some s → dataLoop rules df2 t f2 year pair = some s := by
  intro f
  induction f with
  | zero =>
    intro f2 year pair s _ h
    have h0 : dataLoop rules df t 0 year pair = none := rfl
    rw [h0] at h
    cases h
  | succ n ih =>
    intro f2 year pair s hle h
    obtain ⟨m, rfl⟩ : ∃ m, f2 = m + 1 := ⟨f2 - 1, by omega⟩
    unfold dataLoop at h ⊢
    cases hr : ruleForYear rules year with
    | none => rw [hr] at h; cases h
    | some rule =>
      rw [hr] at h
      simp only at h ⊢
      by_cases hz : rule.standardTimeRule.wMonth = 0 ∧ rule.daylightTimeRule.wMonth = 0
      · simp only [hz, and_self, if_true] at h ⊢
        exact h
      · simp only [hz, if_false] at h ⊢
        cases hp : TransitionTimePair.ofRule df rule year with
        | none => rw [hp] at h; cases h
        | some p =>
          rw [hp] at h
          rw [ofRule_mono hdf hp]
          simp only at h ⊢
          split_ifs at h ⊢ <;> first | exact h | exact ih m _ _ s (by omega) h

/-! ### ruleToData -/

/-- C15: ruleToData gives the instant it was handed, standardTimeOffset =
standardTimeBias * -60, daylightTimeOffset = daylightTimeBias * -60 for the
daylight type and 0 otherwise, and offsetFromUtc = standardTimeOffset +
daylightTimeOffset, in the `int` arithmetic of the code; these are the exact
integers whenever the products stay within `int`. -/
theorem ruleToData_offsets (z : QWinTimeZonePrivate) (rule : QWinTransitionRule)
    (atMSecsSinceEpoch : Int) (type : TimeType) :
    (ruleToData z rule atMSecsSinceEpoch type).atMSecsSinceEpoch = atMSecsSinceEpoch ∧
    (ruleToData z rule atMSecsSinceEpoch type).standardTimeOffset
      = wrap32 (rule.standardTimeBias * -60) ∧
    (ruleToData z rule atMSecsSinceEpoch type).daylightTimeOffset
      = (if type = TimeType.DaylightTime then wrap32 (rule.daylightTimeBias * -60) else 0) ∧
    (ruleToData z rule atMSecsSinceEpoch type).offsetFromUtc
      = wrap32 ((ruleToData z rule atMSecsSinceEpoch type).standardTimeOffset
          + (ruleToData z rule atMSecsSinceEpoch type).daylightTimeOffset) ∧
    (ruleToData z rule atMSecsSinceEpoch type).abbreviation
      = (if type = TimeType.DaylightTime then z.m_daylightName else z.m_standardName) ∧
    (-35791394 ≤ rule.standardTimeBias → rule.standardTimeBias ≤ 35791394 →
      -35791394 ≤ rule.daylightTimeBias → rule.daylightTimeBias ≤ 35791394 →
      -35791394 ≤ rule.standardTimeBias + rule.daylightTimeBias →
      rule.standardTimeBias + rule.daylightTimeBias ≤ 35791394 →
      (ruleToData z rule atMSecsSinceEpoch type).standardTimeOffset
        = -60 * rule.standardTimeBias ∧
      (ruleToData z rule atMSecsSinceEpoch type).daylightTimeOffset
        = (if type = TimeType.DaylightTime then -60 * rule.daylightTimeBias else 0) ∧
      (ruleToData z rule atMSecsSinceEpoch type).offsetFromUtc
        = (ruleToData z rule atMSecsSinceEpoch type).standardTimeOffset
          + (ruleToData z rule atMSecsSinceEpoch type).daylightTimeOffset) := by
  refine ⟨rfl, rfl, rfl, rfl, rfl, ?_⟩
  intro h1 h2 h3 h4 h5 h6
  have hs : wrap32 (rule.standardTimeBias * -60) = -60 * rule.standardTimeBias := by
    unfold wrap32
    omega
  have hd : wrap32 (rule.daylightTimeBias * -60) = -60 * rule.daylightTimeBias := by
    unfold wrap32
    omega
  simp only [ruleToData, hs, hd]
  refine ⟨trivial, trivial, ?_⟩
  unfold wrap32
  split_ifs <;> omega

/-- Witness of C15: the rule of the concrete scenario in daylight time, whose
biases of 300 and -60 minutes give -18000 s, 3600 s and their sum. -/
theorem ruleToData_offsets_witness :
    (ruleToData scenarioZone scenarioRule 1689422400000
        TimeType.DaylightTime).standardTimeOffset = -60 * scenarioRule.standardTimeBias ∧
    (ruleToData scenarioZone scenarioRule 1689422400000
        TimeType.DaylightTime).daylightTimeOffset
      = (if TimeType.DaylightTime = TimeType.DaylightTime
          then -60 * scenarioRule.daylightTimeBias else 0) ∧
    (ruleToData scenarioZone scenarioRule 1689422400000 TimeType.DaylightTime).offsetFromUtc
      = (ruleToData scenarioZone scenarioRule 1689422400000
            TimeType.DaylightTime).standardTimeOffset
        + (ruleToData scenarioZone scenarioRule 1689422400000
            TimeType.DaylightTime).daylightTimeOffset :=
  (ruleToData_offsets scenarioZone scenarioRule 1689422400000
    TimeType.DaylightTime).2.2.2.2.2 (by decide) (by decide) (by decide) (by decide)
    (by decide) (by decide)

/-! ### The rounds of the loops -/

/-- On a non-empty table every year has a rule. -/
theorem ruleForYear_isSome {rules : List QWinTransitionRule} (hne : rules ≠ [])
    (year : Int) : ∃ rule, ruleForYear rules year = some rule := by
  obtain ⟨i, hi, hlt⟩ := ruleIndexForYear_isSome hne year
  refine ⟨rules[i], ?_⟩
  unfold ruleForYear
  rw [hi]
  exact List.getElem?_eq_getElem hlt

/-- A table of one rule has that rule for every year. -/
theorem ruleForYear_single (rule : QWinTransitionRule) (year : Int) :
    ruleForYear [rule] year = some rule := by
  unfold ruleForYear ruleIndexForYear
  simp only [List.getLast?_singleton, List.head?_cons, List.length_singleton]
  by_cases h1 : rule.startYear ≤ year
  · simp only [h1, if_true]
    rfl
  · have h2 : rule.startYear > year := by omega
    simp only [h1, h2, if_true, if_false]
    rfl

/-- A round of `data` on a rule without transitions: the loop is left at
once, `next` and `pair` as they were. -/
theorem dataLoop_break {rules : List QWinTransitionRule} {dfuel : Nat} {t : Int} (fuel : Nat)
    {year : Int} (pair0 : TransitionTimePair) {rule : QWinTransitionRule}
    (hr : ruleForYear rules year = some rule)
    (hs : rule.standardTimeRule.wMonth = 0) (hd : rule.daylightTimeRule.wMonth = 0) :
    dataLoop rules dfuel t (fuel + 1) year pair0 = some ⟨rule, maxMSecs, pair0, year⟩ := by
  rw [dataLoop]
  simp only [hr, hs, hd, and_self, if_true]

/-- A round of `data` on a rule with a transition. -/
theorem dataLoop_step {rules : List QWinTransitionRule} {dfuel : Nat} {t : Int} (fuel : Nat)
    {year : Int} (pair0 : TransitionTimePair) {rule : QWinTransitionRule}
    {pair : TransitionTimePair} (hr : ruleForYear rules year = some rule)
    (hz : ¬ (rule.standardTimeRule.wMonth = 0 ∧ rule.daylightTimeRule.wMonth = 0))
    (hp : TransitionTimePair.ofRule dfuel rule year = some pair) :
    dataLoop rules dfuel t (fuel + 1) year pair0
      = if resolveInYear t pair = maxMSecs ∧ year - 1 ≥ MIN_YEAR then
          dataLoop rules dfuel t fuel (year - 1) pair
        else some ⟨rule, resolveInYear t pair, pair, year - 1⟩ := by
  rw [dataLoop]
  simp only [hr, hz, hp, if_false]

/-- A round of `nextTransition` on a rule with a transition. -/
theorem nextTransitionLoop_step {rules : List QWinTransitionRule} {dfuel : Nat} {t : Int}
    (fuel : Nat) {year : Int} {rule : QWinTransitionRule} {pair : TransitionTimePair}
    (hr : ruleForYear rules year = some rule)
    (hz : ¬ (rule.standardTimeRule.wMonth = 0 ∧ rule.daylightTimeRule.wMonth = 0))
    (hp : TransitionTimePair.ofRule dfuel rule year = some pair) :
    nextTransitionLoop rules dfuel t (fuel + 1) year
      = if nextInYear t pair = minMSecs ∧ year + 1 ≤ MAX_YEAR then
          nextTransitionLoop rules dfuel t fuel (year + 1)
        else some (some ⟨rule, nextInYear t pair, pair, year + 1⟩) := by
  rw [nextTransitionLoop]
  simp only [hr, hz, hp, if_false]

/-- A round of `previousTransition` on a rule with a transition. -/
theorem previousTransitionLoop_step {rules : List QWinTransitionRule} {dfuel : Nat} {t : Int}
    (fuel : Nat) {year : Int} {rule : QWinTransitionRule} {pair : TransitionTimePair}
    (hr : ruleForYear rules year = some rule)
    (hz : ¬ (rule.standardTimeRule.wMonth = 0 ∧ rule.daylightTimeRule.wMonth = 0))
    (hp : TransitionTimePair.ofRule dfuel rule year = some pair) :
    previousTransitionLoop rules dfuel t (fuel + 1) year
      = if previousInYear t pair = maxMSecs ∧ year - 1 ≥ MIN_YEAR then
          previousTransitionLoop rules dfuel t fuel (year - 1)
        else some (some ⟨rule, previousInYear t pair, pair, year - 1⟩) := by
  rw [previousTransitionLoop]
  simp only [hr, hz, hp, if_false]

theorem wrap32_wrap32_add_zero (x : Int) : wrap32 (wrap32 x + 0) = wrap32 x := by
  unfold wrap32
  omega

/-! ### data -/

/-- C12: on a non-empty table, when the rule in effect for the calendar year
of an instant has month 0 in both SYSTEMTIMEs, `data` returns in its first
round the standard-only data of that rule: standardTimeOffset =
standardTimeBias * -60 (an `int` product, the exact integer while it stays
within `int`), daylightTimeOffset = 0, offsetFromUtc = standardTimeOffset and
the standard name as abbreviation. -/
theorem data_noTransitions (z : QWinTimeZonePrivate) (fuel dfuel : Nat) (t : Int)
    (hne : z.m_tranRules ≠ []) (hfuel : 1 ≤ fuel) :
    ∃ rule, ruleForYear z.m_tranRules (msecsToDate t).year = some rule ∧
      (rule.standardTimeRule.wMonth = 0 → rule.daylightTimeRule.wMonth = 0 →
        ∃ d, data z fuel dfuel t = some d ∧
          d.standardTimeOffset = wrap32 (rule.standardTimeBias * -60) ∧
          d.daylightTimeOffset = 0 ∧ d.offsetFromUtc = d.standardTimeOffset ∧
          d.abbreviation = z.m_standardName ∧ d.atMSecsSinceEpoch = t ∧
          (-35791394 ≤ rule.standardTimeBias → rule.standardTimeBias ≤ 35791394 →
            d.standardTimeOffset = -60 * rule.standardTimeBias)) := by
  obtain ⟨rule, hr⟩ := ruleForYear_isSome hne (msecsToDate t).year
  refine ⟨rule, hr, ?_⟩
  intro hs hd
  obtain ⟨n, rfl⟩ : ∃ n, fuel = n + 1 := ⟨fuel - 1, by omega⟩
  have hloop := @dataLoop_break z.m_tranRules dfuel t n _ ⟨invalidMSecs, invalidMSecs⟩ _ hr hs hd
  have hty : (WalkState.mk rule maxMSecs ⟨invalidMSecs, invalidMSecs⟩
      (msecsToDate t).year).type = TimeType.StandardTime := by
    unfold WalkState.type
    have hmx : maxMSecs ≠ invalidMSecs := by decide
    simp only [hmx, if_false]
  refine ⟨ruleToData z rule t TimeType.StandardTime, ?_, rfl, rfl, ?_, rfl, rfl, ?_⟩
  · unfold data dataFrom
    rw [hloop]
    simp only [hty]
  · simp only [ruleToData]
    exact wrap32_wrap32_add_zero _
  · intro h1 h2
    simp only [ruleToData]
    unfold wrap32
    omega

/-- Witness of C12: a zone of fixed offset UTC+05:30, at the epoch. -/
theorem data_noTransitions_witness :
    ∃ d, data ⟨"India Standard Time", "IST", "IST",
        [⟨MIN_YEAR, -330, 0, noTransition, noTransition⟩]⟩ 1 0 0 = some d ∧
      d.standardTimeOffset = 19800 ∧ d.daylightTimeOffset = 0 ∧ d.offsetFromUtc = 19800 ∧
      d.abbreviation = "IST" := by
  obtain ⟨rule, hr, h⟩ := data_noTransitions
    ⟨"India Standard Time", "IST", "IST", [⟨MIN_YEAR, -330, 0, noTransition, noTransition⟩]⟩
    1 0 0 (by decide) (by decide)
  rw [ruleForYear_single] at hr
  cases hr
  obtain ⟨d, hd, h1, h2, h3, h4, _, _⟩ := h rfl rfl
  refine ⟨d, hd, ?_, h2, ?_, h4⟩
  · rw [h1]
    decide
  · rw [h3, h1]
    decide

/-- The calendar year of an instant within a month of a year. -/
theorem year_of_instant_in_month {y m len t : Int}
    (hv : ∀ d : Int, 1 ≤ d → d ≤ len → QDate.isValidYMD y m d = true)
    (hylo : -2147483648 ≤ y) (hyhi : y ≤ 2147483647)
    (hlo : (QDate.julianDayFromDate y m 1 - 2440588) * 86400000 ≤ t)
    (hhi : t < (QDate.julianDayFromDate y m 1 + len - 2440588) * 86400000)
    (htlo : -9223372036854775808 < t) (hthi : t ≤ 9223372036854775807) :
    (msecsToDate t).year = y := by
  obtain ⟨he, _⟩ := msecsToDate_eq htlo hthi
  rw [he]
  generalize hj : QDate.julianDayFromDate y m 1 = jd0 at hlo hhi
  have hk0 : 0 ≤ t / 86400000 - (jd0 - 2440588) := by omega
  have hk1 : t / 86400000 - (jd0 - 2440588) < len := by omega
  have hf := fields_of_date (hv (1 + (t / 86400000 - (jd0 - 2440588))) (by omega) (by omega))
    hylo hyhi
  rw [julianDayFromDate_add, hj] at hf
  have hjd : jd0 + (t / 86400000 - (jd0 - 2440588)) = 2440588 + t / 86400000 := by ring
  rw [hjd] at hf
  exact hf.2.1

/-- C11: the concrete scenario. For a zone whose only rule starts at MIN_YEAR
with standard bias 300, daylight bias -60, standard rule "1st Sunday (weekday
7) of November, 02:00" and daylight rule "2nd Sunday of March, 02:00", `data`
at every instant of July 2023 (UTC) reports standardTimeOffset = -18000 s and
daylightTimeOffset = 3600 s, and at every instant of January 2023 it reports
daylightTimeOffset = 0 (with standardTimeOffset = -18000 s); two rounds of the
year loop and one test of the date loop are enough. -/
theorem data_scenario (z : QWinTimeZonePrivate) (fuel dfuel : Nat) (t : Int)
    (hz : z.m_tranRules = [scenarioRule]) (hfuel : 2 ≤ fuel) (hdfuel : 1 ≤ dfuel) :
    (1688169600000 ≤ t → t < 1690848000000 →
      ∃ d, data z fuel dfuel t = some d ∧ d.standardTimeOffset = -18000 ∧
        d.daylightTimeOffset = 3600) ∧
    (1672531200000 ≤ t → t < 1675209600000 →
      ∃ d, data z fuel dfuel t = some d ∧ d.standardTimeOffset = -18000 ∧
        d.daylightTimeOffset = 0) := by
  have hp23 : TransitionTimePair.ofRule dfuel scenarioRule 2023
      = some ⟨1699164000000, 1678604400000⟩ := ofRule_mono hdfuel (by decide)
  have hp22 : TransitionTimePair.ofRule dfuel scenarioRule 2022
      = some ⟨1667714400000, 1647154800000⟩ := ofRule_mono hdfuel (by decide)
  have hrule : ∀ y, ruleForYear z.m_tranRules y = some scenarioRule := by
    intro y
    rw [hz]
    exact ruleForYear_single _ _
  have hmonths : ¬ (scenarioRule.standardTimeRule.wMonth = 0 ∧
      scenarioRule.daylightTimeRule.wMonth = 0) := by decide
  obtain ⟨n, rfl⟩ : ∃ n, fuel = n + 1 + 1 := ⟨fuel - 2, by omega⟩
  constructor
  · intro hlo hhi
    have hyear : (msecsToDate t).year = 2023 := by
      apply @year_of_instant_in_month 2023 7 31 t _ (by decide) (by decide)
        _ _ (by omega) (by omega)
      · intro d hd1 hd2
        rw [isValidYMD_iff]
        refine ⟨by decide, hd1, by decide, by decide, Or.inl ?_⟩
        have : QDate.monthDays 7 = 31 := by decide
        rw [this]
        exact hd2
      · have : QDate.julianDayFromDate 2023 7 1 = 2460127 := by decide
        rw [this]
        omega
      · have : QDate.julianDayFromDate 2023 7 1 = 2460127 := by decide
        rw [this]
        omega
    have hres : resolveInYear t ⟨1699164000000, 1678604400000⟩ = 1678604400000 := by
      simp only [resolveInYear, TransitionTimePair.first, TransitionTimePair.second,
        invalidMSecs]
      split_ifs <;> omega
    have hloop := dataLoop_step (t := t) (n + 1) ⟨invalidMSecs, invalidMSecs⟩
      (hrule 2023) hmonths hp23
    rw [hres] at hloop
    have hne : ¬ ((1678604400000 : Int) = maxMSecs ∧ (2023 : Int) - 1 ≥ MIN_YEAR) := by decide
    rw [if_neg hne] at hloop
    refine ⟨ruleToData z scenarioRule t TimeType.DaylightTime, ?_,
      by simp only [ruleToData]; decide, by simp only [ruleToData]; decide⟩
    unfold data dataFrom
    rw [hyear, hloop]
    rfl
  · intro hlo hhi
    have hyear : (msecsToDate t).year = 2023 := by
      apply @year_of_instant_in_month 2023 1 31 t _ (by decide) (by decide)
        _ _ (by omega) (by omega)
      · intro d hd1 hd2
        rw [isValidYMD_iff]
        refine ⟨by decide, hd1, by decide, by decide, Or.inl ?_⟩
        have : QDate.monthDays 1 = 31 := by decide
        rw [this]
        exact hd2
      · have : QDate.julianDayFromDate 2023 1 1 = 2459946 := by decide
        rw [this]
        omega
      · have : QDate.julianDayFromDate 2023 1 1 = 2459946 := by decide
        rw [this]
        omega
    have hres23 : resolveInYear t ⟨1699164000000, 1678604400000⟩ = maxMSecs := by
      simp only [resolveInYear, TransitionTimePair.first, TransitionTimePair.second,
        invalidMSecs]
      split_ifs <;> first | rfl | omega
    have hres22 : resolveInYear t ⟨1667714400000, 1647154800000⟩ = 1667714400000 := by
      simp only [resolveInYear, TransitionTimePair.first, TransitionTimePair.second,
        invalidMSecs]
      split_ifs <;> omega
    have hloop23 := dataLoop_step (t := t) (n + 1) ⟨invalidMSecs, invalidMSecs⟩
      (hrule 2023) hmonths hp23
    rw [hres23] at hloop23
    have hgo : maxMSecs = maxMSecs ∧ (2023 : Int) - 1 ≥ MIN_YEAR := by decide
    rw [if_pos hgo] at hloop23
    have h2022 : (2023 : Int) - 1 = 2022 := by decide
    rw [h2022] at hloop23
    have hloop22 := dataLoop_step (t := t) n ⟨1699164000000, 1678604400000⟩
      (hrule 2022) hmonths hp22
    rw [hres22] at hloop22
    have hne : ¬ ((1667714400000 : Int) = maxMSecs ∧ (2022 : Int) - 1 ≥ MIN_YEAR) := by decide
    rw [if_neg hne] at hloop22
    refine ⟨ruleToData z scenarioRule t TimeType.StandardTime, ?_,
      by simp only [ruleToData]; decide, by simp only [ruleToData]; decide⟩
    unfold data dataFrom
    rw [hyear, hloop23, hloop22]
    rfl

/-- Witness of C11: the instants 2023-07-15T12:00Z and 2023-01-15T12:00Z. -/
theorem data_scenario_witness :
    (∃ d, data scenarioZone 2 1 1689422400000 = some d ∧ d.standardTimeOffset = -18000 ∧
      d.daylightTimeOffset = 3600) ∧
    (∃ d, data scenarioZone 2 1 1673784000000 = some d ∧ d.standardTimeOffset = -18000 ∧
      d.daylightTimeOffset = 0) :=
  ⟨(data_scenario scenarioZone 2 1 1689422400000 rfl (by decide) (by decide)).1
      (by decide) (by decide),
    (data_scenario scenarioZone 2 1 1673784000000 rfl (by decide) (by decide)).2
      (by decide) (by decide)⟩

/-! ### The year of a Julian day -/

theorem century_of_days (Q C a : Int) (hC0 : 0 ≤ C) (hC3 : C ≤ 3)
    (h1 : 146097 * (4 * Q + C) ≤ 4 * a + 3) (h2 : 4 * a + 3 < 146097 * (4 * Q + C + 1)) :
    0 ≤ a - (146097 * Q + 36524 * C) ∧ a - (146097 * Q + 36524 * C) ≤ 36524 ∧
      (a - (146097 * Q + 36524 * C) = 36524 → C = 3) := by
  omega

theorem year_of_century_days (q r c : Int) (hr0 : 0 ≤ r) (hr3 : r ≤ 3)
    (h1 : 1461 * (4 * q + r) ≤ 4 * c + 3) (h2 : 4 * c + 3 < 1461 * (4 * q + r + 1)) :
    0 ≤ c - (1461 * q + 365 * r) ∧ c - (1461 * q + 365 * r) ≤ 365 ∧
      (c - (1461 * q + 365 * r) = 365 → r = 3) := by
  omega

/-- The steps of getDateFromJulianDay split a day count `a` into a March-based
year `100 * b + d` and a day `e` of that year. -/
theorem days_split (a : Int) :
    ∃ b d e : Int,
      (4 * a + 3) / 146097 = b ∧
      (4 * (a - 146097 * b / 4) + 3) / 1461 = d ∧
      a - 146097 * b / 4 - 1461 * d / 4 = e ∧
      0 ≤ e ∧ e ≤ 365 ∧
      (e = 365 → (100 * b + d + 1) % 4 = 0 ∧
        ((100 * b + d + 1) % 100 ≠ 0 ∨ (100 * b + d + 1) % 400 = 0)) ∧
      a = e + daysBeforeYear (100 * b + d) := by
  obtain ⟨Q, C, hb, hC0, hC3⟩ : ∃ Q C : Int, (4 * a + 3) / 146097 = 4 * Q + C ∧ 0 ≤ C ∧ C ≤ 3 :=
    ⟨(4 * a + 3) / 146097 / 4, (4 * a + 3) / 146097 % 4, by omega, by omega, by omega⟩
  have h1 : 146097 * (4 * Q + C) ≤ 4 * a + 3 := by omega
  have h2 : 4 * a + 3 < 146097 * (4 * Q + C + 1) := by omega
  obtain ⟨hc0, hc1, hc2⟩ := century_of_days Q C a hC0 hC3 h1 h2
  have e5 : 146097 * (4 * Q + C) / 4 = 146097 * Q + 36524 * C := by omega
  generalize hc : a - (146097 * Q + 36524 * C) = c at hc0 hc1 hc2
  obtain ⟨q, r, hd, hr0, hr3⟩ : ∃ q r : Int, (4 * c + 3) / 1461 = 4 * q + r ∧ 0 ≤ r ∧ r ≤ 3 :=
    ⟨(4 * c + 3) / 1461 / 4, (4 * c + 3) / 1461 % 4, by omega, by omega, by omega⟩
  have h3 : 1461 * (4 * q + r) ≤ 4 * c + 3 := by omega
  have h4 : 4 * c + 3 < 1461 * (4 * q + r + 1) := by omega
  obtain ⟨he0, he1, he2⟩ := year_of_century_days q r c hr0 hr3 h3 h4
  have e6 : 1461 * (4 * q + r) / 4 = 1461 * q + 365 * r := by omega
  have hq0 : 0 ≤ 4 * q + r := by omega
  have hq99 : 4 * q + r ≤ 99 := by omega
  refine ⟨4 * Q + C, 4 * q + r, c - (1461 * q + 365 * r), hb, ?_, ?_, he0, he1, ?_, ?_⟩
  · rw [e5, hc]
    exact hd
  · rw [e5, hc, e6]
  · intro h
    have hr := he2 h
    have hcc : 4 * q + r = 99 → C = 3 := by
      intro h99
      apply hc2
      omega
    omega
  · unfold daysBeforeYear
    have e4 : (100 * (4 * Q + C) + (4 * q + r)) / 4 = 100 * Q + 25 * C + q := by omega
    have e100 : (100 * (4 * Q + C) + (4 * q + r)) / 100 = 4 * Q + C := by omega
    have e400 : (100 * (4 * Q + C) + (4 * q + r)) / 400 = Q := by omega
    rw [e4, e100, e400]
    omega
theorem daysBeforeYear_mono {Y1 Y2 : Int} (h : Y1 ≤ Y2) :
    daysBeforeYear Y1 ≤ daysBeforeYear Y2 := by
  unfold daysBeforeYear
  omega

/-- A day of a March-based year is before the first day of the next year. -/
theorem day_lt_next_year {Y e : Int} (he : e ≤ 365)
    (hl : e = 365 → (Y + 1) % 4 = 0 ∧ ((Y + 1) % 100 ≠ 0 ∨ (Y + 1) % 400 = 0)) :
    e + daysBeforeYear Y < daysBeforeYear (Y + 1) := by
  unfold daysBeforeYear
  by_cases h : e = 365
  · have := hl h
    omega
  · omega

/-- The year getDateFromJulianDay reads off a Julian day, by the March-based
year and the day of it. -/
theorem getDate_year (jd : Int) :
    ∃ Y e : Int, 0 ≤ e ∧ e ≤ 365 ∧
      (e = 365 → (Y + 1) % 4 = 0 ∧ ((Y + 1) % 100 ≠ 0 ∨ (Y + 1) % 400 = 0)) ∧
      jd + 32044 = e + daysBeforeYear Y ∧
      (QDate.getDateFromJulianDay jd).year
        = (if Y - 4800 + (if 306 ≤ e then 1 else 0) ≤ 0
            then Y - 4800 + (if 306 ≤ e then 1 else 0) - 1
            else Y - 4800 + (if 306 ≤ e then 1 else 0)) := by
  obtain ⟨b, d, e, hb, hd, he, he0, he1, hl, ha⟩ := days_split (jd + 32044)
  refine ⟨100 * b + d, e, he0, he1, hl, ha, ?_⟩
  simp only [QDate.getDateFromJulianDay, (floordiv_lit _).1, (floordiv_lit _).2.1,
    (floordiv_lit _).2.2.1, (floordiv_lit _).2.2.2.2.2.1, (floordiv_lit _).2.2.2.2.2.2.2.1,
    (floordiv_lit _).2.2.2.2.2.2.2.2, hb, hd, he]
  have hm : (5 * e + 2) / 153 / 10 = if 306 ≤ e then 1 else 0 := by
    split_ifs <;> omega
  rw [hm]

/-- The year of a Julian day does not decrease with the day. -/
theorem getDate_year_mono {jd1 jd2 : Int} (h : jd1 ≤ jd2) :
    (QDate.getDateFromJulianDay jd1).year ≤ (QDate.getDateFromJulianDay jd2).year := by
  obtain ⟨Y1, e1, h10, h11, hl1, ha1, hy1⟩ := getDate_year jd1
  obtain ⟨Y2, e2, h20, h21, hl2, ha2, hy2⟩ := getDate_year jd2
  rw [hy1, hy2]
  have hlt2 := day_lt_next_year h21 hl2
  have hY : Y1 ≤ Y2 := by
    by_contra hc
    have hm := daysBeforeYear_mono (show Y2 + 1 ≤ Y1 by omega)
    omega
  by_cases hY2 : Y1 = Y2
  · subst hY2
    have : e1 ≤ e2 := by omega
    split_ifs <;> omega
  · split_ifs <;> omega

/-- The calendar year of an instant does not decrease with the instant (the
least qint64 apart, where msecsToDate overflows). -/
theorem year_of_msecs_mono {t1 t2 : Int} (hlo : -9223372036854775808 < t1) (h : t1 ≤ t2)
    (hhi : t2 ≤ 9223372036854775807) :
    (msecsToDate t1).year ≤ (msecsToDate t2).year := by
  obtain ⟨he1, hv1⟩ := msecsToDate_eq hlo (le_trans h hhi)
  obtain ⟨he2, hv2⟩ := msecsToDate_eq (lt_of_lt_of_le hlo h) hhi
  unfold QDate.year
  simp only [hv1, hv2, if_true]
  rw [he1, he2]
  exact getDate_year_mono (by show 2440588 + t1 / 86400000 ≤ 2440588 + t2 / 86400000; omega)

/-- The calendar year of every qint64 instant is within MIN_YEAR .. MAX_YEAR. -/
theorem year_of_msecs_range {t : Int} (hlo : -9223372036854775808 ≤ t)
    (hhi : t ≤ 9223372036854775807) :
    MIN_YEAR ≤ (msecsToDate t).year ∧ (msecsToDate t).year ≤ MAX_YEAR := by
  by_cases h : t = -9223372036854775808
  · subst h
    decide
  · have h1 := @year_of_msecs_mono (-9223372036854775807) t (by decide)
      (by omega) hhi
    have h2 := @year_of_msecs_mono t 9223372036854775807 (by omega) hhi
      (by decide)
    have e1 : (msecsToDate (-9223372036854775807)).year = MIN_YEAR := by decide
    have e2 : (msecsToDate 9223372036854775807).year = MAX_YEAR := by decide
    rw [e1] at h1
    rw [e2] at h2
    exact ⟨h1, h2⟩

/-! ### Instants of transitions -/

/-- An instant of a transition is even, or the invalid instant: never one of
the odd sentinels maxMSecs and minMSecs of the walks. -/
theorem calculateTransitionForYear_even {fuel : Nat} {rule : SYSTEMTIME} {year bias v : Int}
    (h : calculateTransitionForYear fuel rule year bias = some v) : v % 2 = 0 := by
  unfold calculateTransitionForYear at h
  cases hd : calculateTransitionLocalDate fuel rule year with
  | none => rw [hd] at h; cases h
  | some date =>
    rw [hd] at h
    simp only at h
    by_cases hv : (date.isValid &&
        (QTime.ofHMS rule.wHour rule.wMinute rule.wSecond 0).isValid) = true
    · rw [if_pos hv] at h
      have hv2 := (Bool.and_eq_true _ _).mp hv
      have hms : (QTime.ofHMS rule.wHour rule.wMinute rule.wSecond 0).msecsSinceStartOfDay
          % 2 = 0 := by
        by_cases hc : (0 : Int) ≤ rule.wHour ∧ (rule.wHour : Int) < 24 ∧ (0 : Int) ≤ rule.wMinute
            ∧ (rule.wMinute : Int) < 60 ∧ (0 : Int) ≤ rule.wSecond ∧ (rule.wSecond : Int) < 60
            ∧ (0 : Int) ≤ 0 ∧ (0 : Int) < 1000
        · have he : QTime.ofHMS rule.wHour rule.wMinute rule.wSecond 0
              = ⟨((rule.wHour : Int) * 3600 + (rule.wMinute : Int) * 60 + (rule.wSecond : Int))
                  * 1000 + 0⟩ := by
            unfold QTime.ofHMS
            rw [if_pos hc]
          rw [he]
          unfold QTime.msecsSinceStartOfDay
          split_ifs
          · simp only
            omega
          · rfl
        · have he : QTime.ofHMS rule.wHour rule.wMinute rule.wSecond 0 = ⟨-1⟩ := by
            unfold QTime.ofHMS
            rw [if_neg hc]
          rw [he]
          decide
      cases h
      unfold timeToMSecs wrap64 wrap32 MSECS_PER_DAY
      generalize (QTime.ofHMS rule.wHour rule.wMinute rule.wSecond 0).msecsSinceStartOfDay
        = ms at hms
      generalize date.toJulianDay - JULIAN_DAY_FOR_EPOCH = dj
      omega
    · rw [if_neg hv] at h
      cases h
      decide

theorem ofRule_even {fuel : Nat} {rule : QWinTransitionRule} {year : Int}
    {pair : TransitionTimePair} (h : TransitionTimePair.ofRule fuel rule year = some pair) :
    pair.std % 2 = 0 ∧ pair.dst % 2 = 0 := by
  unfold TransitionTimePair.ofRule at h
  cases hs : calculateTransitionForYear fuel rule.standardTimeRule year
      (wrap32 (rule.standardTimeBias + rule.daylightTimeBias)) with
  | none => rw [hs] at h; cases h
  | some s =>
    rw [hs] at h
    cases hd : calculateTransitionForYear fuel rule.daylightTimeRule year
        rule.standardTimeBias with
    | none => rw [hd] at h; cases h
    | some d =>
      rw [hd] at h
      cases h
      exact ⟨calculateTransitionForYear_even hs, calculateTransitionForYear_even hd⟩

theorem first_le_second (pair : TransitionTimePair) : pair.first ≤ pair.second := by
  unfold TransitionTimePair.first TransitionTimePair.second
  split_ifs <;> omega

theorem first_second_cases (pair : TransitionTimePair) :
    (pair.first = pair.std ∧ pair.second = pair.dst) ∨
      (pair.first = pair.dst ∧ pair.second = pair.std) := by
  unfold TransitionTimePair.first TransitionTimePair.second
  split_ifs
  · exact Or.inl ⟨rfl, rfl⟩
  · exact Or.inr ⟨rfl, rfl⟩

theorem pair_ne_sentinels {fuel : Nat} {rule : QWinTransitionRule} {year : Int}
    {pair : TransitionTimePair} (h : TransitionTimePair.ofRule fuel rule year = some pair) :
    pair.first ≠ maxMSecs ∧ pair.second ≠ maxMSecs ∧ pair.first ≠ minMSecs ∧
      pair.second ≠ minMSecs ∧ pair.std ≠ maxMSecs ∧ pair.dst ≠ maxMSecs ∧
      pair.std ≠ minMSecs ∧ pair.dst ≠ minMSecs := by
  obtain ⟨h1, h2⟩ := ofRule_even h
  unfold maxMSecs minMSecs
  rcases first_second_cases pair with ⟨e1, e2⟩ | ⟨e1, e2⟩ <;> rw [e1, e2] <;>
    refine ⟨?_, ?_, ?_, ?_, ?_, ?_, ?_, ?_⟩ <;> omega

/-- The backward loop of `data` from the year MIN_YEAR + n, when no year down
to MIN_YEAR has a transition at or before the instant: it is left below
MIN_YEAR with `next` still maxMSecs, on the rule and the pair of MIN_YEAR. -/
theorem dataLoop_exhaust (rules : List QWinTransitionRule) (dfuel : Nat) (t : Int) :
    ∀ (n fuel : Nat) (pair0 : TransitionTimePair), n + 1 ≤ fuel →
      (∀ Y : Int, MIN_YEAR ≤ Y → Y ≤ MIN_YEAR + n →
        ∃ rule pair, ruleForYear rules Y = some rule ∧
          ¬ (rule.standardTimeRule.wMonth = 0 ∧ rule.daylightTimeRule.wMonth = 0) ∧
          TransitionTimePair.ofRule dfuel rule Y = some pair ∧
          resolveInYear t pair = maxMSecs) →
      ∃ rule pair, ruleForYear rules MIN_YEAR = some rule ∧
        TransitionTimePair.ofRule dfuel rule MIN_YEAR = some pair ∧
        dataLoop rules dfuel t fuel (MIN_YEAR + n) pair0
          = some ⟨rule, maxMSecs, pair, MIN_YEAR - 1⟩ := by
  intro n
  induction n with
  | zero =>
    intro fuel pair0 hf H
    obtain ⟨m, rfl⟩ : ∃ m, fuel = m + 1 := ⟨fuel - 1, by omega⟩
    obtain ⟨rule, pair, hr, hz, hp, hres⟩ := H MIN_YEAR (le_refl _) (by simp)
    refine ⟨rule, pair, hr, hp, ?_⟩
    have hstep := dataLoop_step (t := t) m pair0 hr hz hp
    have hno : ¬ (resolveInYear t pair = maxMSecs ∧ MIN_YEAR - 1 ≥ MIN_YEAR) := by
      intro hc
      have := hc.2
      omega
    rw [if_neg hno, hres] at hstep
    simpa using hstep
  | succ k ih =>
    intro fuel pair0 hf H
    obtain ⟨m, rfl⟩ : ∃ m, fuel = m + 1 := ⟨fuel - 1, by omega⟩
    obtain ⟨rule, pair, hr, hz, hp, hres⟩ :=
      H (MIN_YEAR + (k + 1 : Nat)) (by omega) (le_refl _)
    have hstep := dataLoop_step (t := t) m pair0 hr hz hp
    have hgo : resolveInYear t pair = maxMSecs ∧ MIN_YEAR + (k + 1 : Nat) - 1 ≥ MIN_YEAR :=
      ⟨hres, by omega⟩
    rw [if_pos hgo] at hstep
    have hy : MIN_YEAR + ((k + 1 : Nat) : Int) - 1 = MIN_YEAR + (k : Nat) := by
      push_cast
      ring
    rw [hy] at hstep
    obtain ⟨rule0, pair1, hr0, hp0, hloop⟩ := ih m pair (by omega)
      (fun Y h1 h2 => H Y h1 (by push_cast at h2 ⊢; omega))
    exact ⟨rule0, pair1, hr0, hp0, by rw [hstep, hloop]⟩

/-- Data of the standard time of a rule are never the invalid result. -/
theorem ruleToData_standard_ne_invalid (z : QWinTimeZonePrivate) (rule : QWinTransitionRule)
    (t : Int) : ruleToData z rule t TimeType.StandardTime ≠ invalidData := by
  intro h
  have h2 := congrArg Data.daylightTimeOffset h
  simp only [ruleToData, invalidData] at h2
  have hne : ¬ (TimeType.StandardTime = TimeType.DaylightTime) := by decide
  rw [if_neg hne] at h2
  revert h2
  decide

/-- The result of `data` when its loop has gone below MIN_YEAR. -/
theorem data_of_exhaust (z : QWinTimeZonePrivate) (fuel dfuel : Nat) (t : Int)
    (hlo : -9223372036854775808 ≤ t) (hhi : t ≤ 9223372036854775807)
    (hfuel : (msecsToDate t).year - MIN_YEAR + 1 ≤ (fuel : Int))
    (H : ∀ Y : Int, MIN_YEAR ≤ Y → Y ≤ (msecsToDate t).year →
      ∃ rule pair, ruleForYear z.m_tranRules Y = some rule ∧
        ¬ (rule.standardTimeRule.wMonth = 0 ∧ rule.daylightTimeRule.wMonth = 0) ∧
        TransitionTimePair.ofRule dfuel rule Y = some pair ∧
        resolveInYear t pair = maxMSecs) :
    ∃ rule, ruleForYear z.m_tranRules MIN_YEAR = some rule ∧
      data z fuel dfuel t = some (ruleToData z rule t TimeType.StandardTime) := by
  obtain ⟨hy, _⟩ := year_of_msecs_range hlo hhi
  obtain ⟨n, hn⟩ : ∃ n : Nat, (msecsToDate t).year = MIN_YEAR + n :=
    ⟨((msecsToDate t).year - MIN_YEAR).toNat, by omega⟩
  obtain ⟨rule, pair, hr, hp, hloop⟩ := dataLoop_exhaust z.m_tranRules dfuel t n fuel
    ⟨invalidMSecs, invalidMSecs⟩ (by omega) (fun Y h1 h2 => H Y h1 (by omega))
  refine ⟨rule, hr, ?_⟩
  unfold data dataFrom
  rw [hn, hloop]
  have hty : (WalkState.mk rule maxMSecs pair (MIN_YEAR - 1)).type
      = TimeType.StandardTime := by
    unfold WalkState.type
    have := (pair_ne_sentinels hp).2.2.2.2.2.1
    simp only [Ne.symm this, if_false]
  simp only [hty]
/-- A SYSTEMTIME without a month or with an explicit year resolves to the same
date whatever the year and the fuel. -/
theorem calculateTransitionLocalDate_fixed {rule : SYSTEMTIME}
    (h : rule.wMonth = 0 ∨ rule.wYear ≠ 0) (f f2 : Nat) (y y2 : Int) :
    calculateTransitionLocalDate f rule y = calculateTransitionLocalDate f2 rule y2 := by
  unfold calculateTransitionLocalDate
  rcases h with h | h
  · simp only [h, if_true]
  · simp only [h, if_false]

theorem calculateTransitionForYear_fixed {rule : SYSTEMTIME}
    (h : rule.wMonth = 0 ∨ rule.wYear ≠ 0) (f f2 : Nat) (y y2 bias : Int) :
    calculateTransitionForYear f rule y bias = calculateTransitionForYear f2 rule y2 bias := by
  unfold calculateTransitionForYear
  rw [calculateTransitionLocalDate_fixed h f f2 y y2]

/-- The pair of a rule whose SYSTEMTIMEs have no month or an explicit year is
the same for every year. -/
theorem ofRule_fixed {rule : QWinTransitionRule}
    (hs : rule.standardTimeRule.wMonth = 0 ∨ rule.standardTimeRule.wYear ≠ 0)
    (hd : rule.daylightTimeRule.wMonth = 0 ∨ rule.daylightTimeRule.wYear ≠ 0)
    (f f2 : Nat) (y y2 : Int) :
    TransitionTimePair.ofRule f rule y = TransitionTimePair.ofRule f2 rule y2 := by
  unfold TransitionTimePair.ofRule
  rw [calculateTransitionForYear_fixed hs f f2 y y2, calculateTransitionForYear_fixed hd f f2 y y2]

/-- In the zone with the one-time switch of 2010, no year has a transition at
or before 2004-11-09T11:33:20Z. -/
theorem oneTimeZone_nothing_before (Y : Int) :
    ∃ rule pair, ruleForYear oneTimeZone.m_tranRules Y = some rule ∧
      ¬ (rule.standardTimeRule.wMonth = 0 ∧ rule.daylightTimeRule.wMonth = 0) ∧
      TransitionTimePair.ofRule 0 rule Y = some pair ∧
      resolveInYear 1100000000000 pair = maxMSecs := by
  refine ⟨⟨MIN_YEAR, -60, -60, noTransition, ⟨2010, 3, 0, 28, 2, 0, 0, 0⟩⟩,
    ⟨invalidMSecs, 1269738000000⟩, ruleForYear_single _ _, by decide, ?_, by decide⟩
  rw [ofRule_fixed (Or.inl rfl) (Or.inr (by decide)) 0 0 Y 0]
  decide

/-- C14 fails as stated: in the zone whose only rule has a one-time switch to
daylight time in 2010, `data` at 2004-11-09T11:33:20Z runs its loop from 2004
down below MIN_YEAR without finding a transition at or before the instant, and
returns the standard-time data of the rule (offset 3600 s), not invalidData. -/
theorem data_exhausted_counterexample :
    data oneTimeZone 292277061 0 1100000000000
        = some ⟨"OTS", 1100000000000, 3600, 3600, 0⟩ ∧
      data oneTimeZone 292277061 0 1100000000000 ≠ some invalidData := by
  obtain ⟨rule, hr, hd⟩ := data_of_exhaust oneTimeZone 292277061 0 1100000000000
    (by decide) (by decide) (by decide) (fun Y _ _ => oneTimeZone_nothing_before Y)
  have hr2 : ruleForYear oneTimeZone.m_tranRules MIN_YEAR
      = some ⟨MIN_YEAR, -60, -60, noTransition, ⟨2010, 3, 0, 28, 2, 0, 0, 0⟩⟩ :=
    ruleForYear_single _ _
  rw [hr2] at hr
  cases hr
  rw [hd]
  constructor
  · decide
  · decide

/-- C14 (amended): when the backward year loop of `data` passes every year
from the calendar year of the instant down to MIN_YEAR without a transition at
or before the instant (each year has a rule with a month and a pair, and the
two tests leave `next` at maxMSecs), `data` returns, with fuel for those
years, the standard-time data of the rule in effect for MIN_YEAR:
ruleToData(rule, t, StandardTime), which is not the invalid result. -/
theorem data_exhausted (z : QWinTimeZonePrivate) (fuel dfuel : Nat) (t : Int)
    (hlo : -9223372036854775808 ≤ t) (hhi : t ≤ 9223372036854775807)
    (hfuel : (msecsToDate t).year - MIN_YEAR + 1 ≤ (fuel : Int))
    (H : ∀ Y : Int, MIN_YEAR ≤ Y → Y ≤ (msecsToDate t).year →
      ∃ rule pair, ruleForYear z.m_tranRules Y = some rule ∧
        ¬ (rule.standardTimeRule.wMonth = 0 ∧ rule.daylightTimeRule.wMonth = 0) ∧
        TransitionTimePair.ofRule dfuel rule Y = some pair ∧
        resolveInYear t pair = maxMSecs) :
    ∃ rule, ruleForYear z.m_tranRules MIN_YEAR = some rule ∧
      data z fuel dfuel t = some (ruleToData z rule t TimeType.StandardTime) ∧
      data z fuel dfuel t ≠ some invalidData := by
  obtain ⟨rule, hr, hd⟩ := data_of_exhaust z fuel dfuel t hlo hhi hfuel H
  refine ⟨rule, hr, hd, ?_⟩
  rw [hd]
  intro hc
  exact ruleToData_standard_ne_invalid z rule t (Option.some.inj hc)

/-- Witness of C14 (amended): the zone with the one-time switch of 2010, at
2004-11-09T11:33:20Z. -/
theorem data_exhausted_witness :
    ∃ rule, ruleForYear oneTimeZone.m_tranRules MIN_YEAR = some rule ∧
      data oneTimeZone 292277061 0 1100000000000
        = some (ruleToData oneTimeZone rule 1100000000000 TimeType.StandardTime) ∧
      data oneTimeZone 292277061 0 1100000000000 ≠ some invalidData :=
  data_exhausted oneTimeZone 292277061 0 1100000000000 (by decide) (by decide) (by decide)
    (fun Y _ _ => oneTimeZone_nothing_before Y)

/-! ### The walks -/

/-- Where the loop of `nextTransition` is left with a state: in the round of
a year Y at or after the year it was entered at, on the rule and the pair of
Y; every year before Y left `next` at minMSecs. -/
theorem nextTransitionLoop_result (rules : List QWinTransitionRule) (dfuel : Nat) (t : Int) :
    ∀ (fuel : Nat) (year : Int) (s : WalkState),
      nextTransitionLoop rules dfuel t fuel year = some (some s) →
      ∃ Y : Int, year ≤ Y ∧ s.year = Y + 1 ∧ ruleForYear rules Y = some s.rule ∧
        TransitionTimePair.ofRule dfuel s.rule Y = some s.pair ∧
        s.next = nextInYear t s.pair ∧
        ∀ Y2 : Int, year ≤ Y2 → Y2 < Y →
          ∃ r p, ruleForYear rules Y2 = some r ∧ TransitionTimePair.ofRule dfuel r Y2 = some p ∧
            nextInYear t p = minMSecs := by
  intro fuel
  induction fuel with
  | zero =>
    intro year s h
    have h0 : nextTransitionLoop rules dfuel t 0 year = none := rfl
    rw [h0] at h
    cases h
  | succ n ih =>
    intro year s h
    rw [nextTransitionLoop] at h
    cases hr : ruleForYear rules year with
    | none => rw [hr] at h; cases h
    | some rule =>
      rw [hr] at h
      simp only at h
      by_cases hz : rule.standardTimeRule.wMonth = 0 ∧ rule.daylightTimeRule.wMonth = 0
      · rw [if_pos hz] at h
        cases h
      · rw [if_neg hz] at h
        cases hp : TransitionTimePair.ofRule dfuel rule year with
        | none => rw [hp] at h; cases h
        | some pair =>
          rw [hp] at h
          simp only at h
          by_cases hc : nextInYear t pair = minMSecs ∧ year + 1 ≤ MAX_YEAR
          · rw [if_pos hc] at h
            obtain ⟨Y, hY, hsy, hsr, hsp, hsn, hall⟩ := ih (year + 1) s h
            refine ⟨Y, by omega, hsy, hsr, hsp, hsn, ?_⟩
            intro Y2 h1 h2
            by_cases he : Y2 = year
            · subst he
              exact ⟨rule, pair, hr, hp, hc.1⟩
            · exact hall Y2 (by omega) h2
          · rw [if_neg hc] at h
            cases h
            exact ⟨year, le_refl _, rfl, hr, hp, rfl, fun Y2 h1 h2 => by omega⟩

/-- Where the loop of `previousTransition` is left with a state: in the round
of a year Y at or before the year it was entered at, on the rule and the pair
of Y; every year after Y left `next` at maxMSecs. -/
theorem previousTransitionLoop_result (rules : List QWinTransitionRule) (dfuel : Nat)
    (t : Int) :
    ∀ (fuel : Nat) (year : Int) (s : WalkState),
      previousTransitionLoop rules dfuel t fuel year = some (some s) →
      ∃ Y : Int, Y ≤ year ∧ s.year = Y - 1 ∧ ruleForYear rules Y = some s.rule ∧
        TransitionTimePair.ofRule dfuel s.rule Y = some s.pair ∧
        s.next = previousInYear t s.pair ∧
        ∀ Y2 : Int, Y < Y2 → Y2 ≤ year →
          ∃ r p, ruleForYear rules Y2 = some r ∧ TransitionTimePair.ofRule dfuel r Y2 = some p ∧
            previousInYear t p = maxMSecs := by
  intro fuel
  induction fuel with
  | zero =>
    intro year s h
    have h0 : previousTransitionLoop rules dfuel t 0 year = none := rfl
    rw [h0] at h
    cases h
  | succ n ih =>
    intro year s h
    rw [previousTransitionLoop] at h
    cases hr : ruleForYear rules year with
    | none => rw [hr] at h; cases h
    | some rule =>
      rw [hr] at h
      simp only at h
      by_cases hz : rule.standardTimeRule.wMonth = 0 ∧ rule.daylightTimeRule.wMonth = 0
      · rw [if_pos hz] at h
        cases h
      · rw [if_neg hz] at h
        cases hp : TransitionTimePair.ofRule dfuel rule year with
        | none => rw [hp] at h; cases h
        | some pair =>
          rw [hp] at h
          simp only at h
          by_cases hc : previousInYear t pair = maxMSecs ∧ year - 1 ≥ MIN_YEAR
          · rw [if_pos hc] at h
            obtain ⟨Y, hY, hsy, hsr, hsp, hsn, hall⟩ := ih (year - 1) s h
            refine ⟨Y, by omega, hsy, hsr, hsp, hsn, ?_⟩
            intro Y2 h1 h2
            by_cases he : Y2 = year
            · subst he
              exact ⟨rule, pair, hr, hp, hc.1⟩
            · exact hall Y2 h1 (by omega)
          · rw [if_neg hc] at h
            cases h
            exact ⟨year, le_refl _, rfl, hr, hp, rfl, fun Y2 h1 h2 => by omega⟩

/-- The state behind a valid result of `nextTransition`. -/
theorem nextTransition_state {z : QWinTimeZonePrivate} {fuel dfuel : Nat} {t : Int} {d : Data}
    (h : nextTransition z fuel dfuel t = some d) (hv : d ≠ invalidData) :
    ∃ s, nextTransitionWalk z fuel dfuel t = some (some s) ∧
      d = ruleToData z s.rule s.next s.type := by
  unfold nextTransition at h
  cases hw : nextTransitionWalk z fuel dfuel t with
  | none => rw [hw] at h; cases h
  | some o =>
    cases o with
    | none =>
      rw [hw] at h
      simp only at h
      exact absurd (Option.some.inj h).symm hv
    | some s =>
      rw [hw] at h
      simp only at h
      exact ⟨s, rfl, (Option.some.inj h).symm⟩

/-- The loop behind a state of the walk of `nextTransition`. -/
theorem nextTransitionWalk_loop {z : QWinTimeZonePrivate} {fuel dfuel : Nat} {t : Int}
    {s : WalkState} (h : nextTransitionWalk z fuel dfuel t = some (some s)) :
    nextTransitionLoop z.m_tranRules dfuel t fuel (msecsToDate t).year = some (some s) ∧
      s.next ≠ minMSecs ∧ s.next ≠ invalidMSecs := by
  unfold nextTransitionWalk at h
  simp only at h
  cases hl : z.m_tranRules.getLast? with
  | none => rw [hl] at h; cases h
  | some last =>
    rw [hl] at h
    simp only at h
    split at h
    · cases h
    · cases h
    · split at h
      · cases h
      · cases h
      · rename_i s2 hloop
        split_ifs at h with hc
        · cases h
        · cases h
          exact ⟨hloop, fun h1 => hc (Or.inl h1), fun h2 => hc (Or.inr h2)⟩

/-- The state behind a valid result of `previousTransition`. -/
theorem previousTransition_state {z : QWinTimeZonePrivate} {fuel dfuel : Nat} {t : Int}
    {d : Data} (h : previousTransition z fuel dfuel t = some d) (hv : d ≠ invalidData) :
    ∃ s, previousTransitionWalk z fuel dfuel t = some (some s) ∧
      d = ruleToData z s.rule s.next s.type := by
  unfold previousTransition at h
  cases hw : previousTransitionWalk z fuel dfuel t with
  | none => rw [hw] at h; cases h
  | some o =>
    cases o with
    | none =>
      rw [hw] at h
      simp only at h
      exact absurd (Option.some.inj h).symm hv
    | some s =>
      rw [hw] at h
      simp only at h
      exact ⟨s, rfl, (Option.some.inj h).symm⟩

/-- The loop behind a state of the walk of `previousTransition`. -/
theorem previousTransitionWalk_loop {z : QWinTimeZonePrivate} {fuel dfuel : Nat} {t : Int}
    {s : WalkState} (h : previousTransitionWalk z fuel dfuel t = some (some s)) :
    previousTransitionLoop z.m_tranRules dfuel t fuel (msecsToDate t).year = some (some s) ∧
      s.next ≠ maxMSecs := by
  unfold previousTransitionWalk at h
  simp only at h
  cases hl : z.m_tranRules.head? with
  | none => rw [hl] at h; cases h
  | some first =>
    rw [hl] at h
    simp only at h
    split at h
    · cases h
    · cases h
    · split at h
      · cases h
      · cases h
      · rename_i s2 hloop
        split_ifs at h with hc
        · cases h
        · cases h
          exact ⟨hloop, hc⟩

/-- What the two tests of a round of `nextTransition` leave in `next`, when
it is not minMSecs: the earliest instant of the pair after `t`. -/
theorem nextInYear_spec {t : Int} {pair : TransitionTimePair}
    (h : nextInYear t pair ≠ minMSecs) :
    (nextInYear t pair = pair.std ∨ nextInYear t pair = pair.dst) ∧ t < nextInYear t pair ∧
      ∀ x : Int, (x = pair.std ∨ x = pair.dst) → t < x → nextInYear t pair ≤ x := by
  unfold nextInYear at h ⊢
  rcases first_second_cases pair with ⟨e1, e2⟩ | ⟨e1, e2⟩
  · have hle := first_le_second pair
    rw [e1, e2] at h hle ⊢
    split_ifs at h ⊢ with h1 h2
    · exact ⟨Or.inl rfl, h1, fun x hx hlt => by rcases hx with rfl | rfl <;> omega⟩
    · exact ⟨Or.inr rfl, h2, fun x hx hlt => by rcases hx with rfl | rfl <;> omega⟩
    · exact absurd rfl h
  · have hle := first_le_second pair
    rw [e1, e2] at h hle ⊢
    split_ifs at h ⊢ with h1 h2
    · exact ⟨Or.inr rfl, h1, fun x hx hlt => by rcases hx with rfl | rfl <;> omega⟩
    · exact ⟨Or.inl rfl, h2, fun x hx hlt => by rcases hx with rfl | rfl <;> omega⟩
    · exact absurd rfl h

/-- What the two tests of a round of `previousTransition` leave in `next`,
when it is not maxMSecs: the latest valid instant of the pair before `t`. -/
theorem previousInYear_spec {t : Int} {pair : TransitionTimePair}
    (h : previousInYear t pair ≠ maxMSecs) :
    (previousInYear t pair = pair.std ∨ previousInYear t pair = pair.dst) ∧
      previousInYear t pair < t ∧ previousInYear t pair ≠ invalidMSecs ∧
      ∀ x : Int, (x = pair.std ∨ x = pair.dst) → x ≠ invalidMSecs → x < t →
        x ≤ previousInYear t pair := by
  unfold previousInYear at h ⊢
  unfold invalidMSecs at *
  rcases first_second_cases pair with ⟨e1, e2⟩ | ⟨e1, e2⟩
  · have hle := first_le_second pair
    rw [e1, e2] at h hle ⊢
    split_ifs at h ⊢ with h1 h2
    · exact ⟨Or.inr rfl, h1.1, h1.2, fun x hx hv hlt => by rcases hx with rfl | rfl <;> omega⟩
    · exact ⟨Or.inl rfl, h2.1, h2.2, fun x hx hv hlt => by rcases hx with rfl | rfl <;> omega⟩
    · exact absurd rfl h
  · have hle := first_le_second pair
    rw [e1, e2] at h hle ⊢
    split_ifs at h ⊢ with h1 h2
    · exact ⟨Or.inl rfl, h1.1, h1.2, fun x hx hv hlt => by rcases hx with rfl | rfl <;> omega⟩
    · exact ⟨Or.inr rfl, h2.1, h2.2, fun x hx hv hlt => by rcases hx with rfl | rfl <;> omega⟩
    · exact absurd rfl h

/-- C16: a valid result of `nextTransition` is a transition instant of the
pair of a rule-year at or after the calendar year of `t`; it is strictly after
`t`, and it is the earliest instant of that pair after `t`: no instant of that
year lies strictly between `t` and the result. -/
theorem nextTransition_earliest (z : QWinTimeZonePrivate) (fuel dfuel : Nat) (t : Int)
    (d : Data) (h : nextTransition z fuel dfuel t = some d) (hv : d ≠ invalidData) :
    ∃ (Y : Int) (rule : QWinTransitionRule) (pair : TransitionTimePair),
      (msecsToDate t).year ≤ Y ∧ ruleForYear z.m_tranRules Y = some rule ∧
      TransitionTimePair.ofRule dfuel rule Y = some pair ∧
      (d.atMSecsSinceEpoch = pair.std ∨ d.atMSecsSinceEpoch = pair.dst) ∧
      d.atMSecsSinceEpoch ≠ invalidMSecs ∧
      t < d.atMSecsSinceEpoch ∧
      (∀ x : Int, (x = pair.std ∨ x = pair.dst) → t < x → d.atMSecsSinceEpoch ≤ x) ∧
      d = ruleToData z rule d.atMSecsSinceEpoch
        (if d.atMSecsSinceEpoch = pair.dst then TimeType.DaylightTime
          else TimeType.StandardTime) := by
  obtain ⟨s, hw, hd⟩ := nextTransition_state h hv
  obtain ⟨hloop, hn1, hn2⟩ := nextTransitionWalk_loop hw
  obtain ⟨Y, hY, _, hr, hp, hnext, _⟩ :=
    nextTransitionLoop_result z.m_tranRules dfuel t fuel _ s hloop
  have hat : d.atMSecsSinceEpoch = s.next := by rw [hd]; rfl
  rw [hnext] at hn1
  obtain ⟨hmem, hlt, hmin⟩ := nextInYear_spec hn1
  rw [← hnext] at hmem hlt hmin
  refine ⟨Y, s.rule, s.pair, hY, hr, hp, ?_, ?_, ?_, ?_, ?_⟩
  · rw [hat]; exact hmem
  · rw [hat]; exact hn2
  · rw [hat]; exact hlt
  · rw [hat]; exact hmin
  · rw [hat]; exact hd

/-- Witness of C16: after 2023-01-15T12:00Z the scenario zone next changes on
2023-03-12T07:00Z, to daylight time. -/
theorem nextTransition_earliest_witness :
    ∃ (Y : Int) (rule : QWinTransitionRule) (pair : TransitionTimePair),
      (msecsToDate 1673784000000).year ≤ Y ∧
      ruleForYear scenarioZone.m_tranRules Y = some rule ∧
      TransitionTimePair.ofRule 1 rule Y = some pair ∧
      ((1678604400000 : Int) = pair.std ∨ (1678604400000 : Int) = pair.dst) ∧
      (1678604400000 : Int) ≠ invalidMSecs ∧
      (1673784000000 : Int) < 1678604400000 ∧
      (∀ x : Int, (x = pair.std ∨ x = pair.dst) → 1673784000000 < x → 1678604400000 ≤ x) ∧
      (⟨"EDT", 1678604400000, -14400, -18000, 3600⟩ : Data)
        = ruleToData scenarioZone rule 1678604400000
          (if (1678604400000 : Int) = pair.dst then TimeType.DaylightTime
            else TimeType.StandardTime) :=
  nextTransition_earliest scenarioZone 1 1 1673784000000
    ⟨"EDT", 1678604400000, -14400, -18000, 3600⟩ (by decide) (by decide)

/-- C17: a valid result of `previousTransition` is a transition instant of the
pair of a rule-year at or before the calendar year of `t`; it is strictly
before `t`, it is not the invalid instant, and it is the latest valid instant
of that pair before `t`. -/
theorem previousTransition_latest (z : QWinTimeZonePrivate) (fuel dfuel : Nat) (t : Int)
    (d : Data) (h : previousTransition z fuel dfuel t = some d) (hv : d ≠ invalidData) :
    ∃ (Y : Int) (rule : QWinTransitionRule) (pair : TransitionTimePair),
      Y ≤ (msecsToDate t).year ∧ ruleForYear z.m_tranRules Y = some rule ∧
      TransitionTimePair.ofRule dfuel rule Y = some pair ∧
      (d.atMSecsSinceEpoch = pair.std ∨ d.atMSecsSinceEpoch = pair.dst) ∧
      d.atMSecsSinceEpoch ≠ invalidMSecs ∧
      d.atMSecsSinceEpoch < t ∧
      (∀ x : Int, (x = pair.std ∨ x = pair.dst) → x ≠ invalidMSecs → x < t →
        x ≤ d.atMSecsSinceEpoch) ∧
      d = ruleToData z rule d.atMSecsSinceEpoch
        (if d.atMSecsSinceEpoch = pair.dst then TimeType.DaylightTime
          else TimeType.StandardTime) := by
  obtain ⟨s, hw, hd⟩ := previousTransition_state h hv
  obtain ⟨hloop, hn1⟩ := previousTransitionWalk_loop hw
  obtain ⟨Y, hY, _, hr, hp, hnext, _⟩ :=
    previousTransitionLoop_result z.m_tranRules dfuel t fuel _ s hloop
  have hat : d.atMSecsSinceEpoch = s.next := by rw [hd]; rfl
  rw [hnext] at hn1
  obtain ⟨hmem, hlt, hval, hmax⟩ := previousInYear_spec hn1
  rw [← hnext] at hmem hlt hval hmax
  refine ⟨Y, s.rule, s.pair, hY, hr, hp, ?_, ?_, ?_, ?_, ?_⟩
  · rw [hat]; exact hmem
  · rw [hat]; exact hval
  · rw [hat]; exact hlt
  · rw [hat]; exact hmax
  · rw [hat]; exact hd

/-- Witness of C17: before 2023-01-15T12:00Z the scenario zone last changed on
2022-11-06T06:00Z, to standard time. -/
theorem previousTransition_latest_witness :
    ∃ (Y : Int) (rule : QWinTransitionRule) (pair : TransitionTimePair),
      Y ≤ (msecsToDate 1673784000000).year ∧
      ruleForYear scenarioZone.m_tranRules Y = some rule ∧
      TransitionTimePair.ofRule 1 rule Y = some pair ∧
      ((1667714400000 : Int) = pair.std ∨ (1667714400000 : Int) = pair.dst) ∧
      (1667714400000 : Int) ≠ invalidMSecs ∧
      (1667714400000 : Int) < 1673784000000 ∧
      (∀ x : Int, (x = pair.std ∨ x = pair.dst) → x ≠ invalidMSecs → x < 1673784000000 →
        x ≤ 1667714400000) ∧
      (⟨"EST", 1667714400000, -18000, -18000, 0⟩ : Data)
        = ruleToData scenarioZone rule 1667714400000
          (if (1667714400000 : Int) = pair.dst then TimeType.DaylightTime
            else TimeType.StandardTime) :=
  previousTransition_latest scenarioZone 2 1 1673784000000
    ⟨"EST", 1667714400000, -18000, -18000, 0⟩ (by decide) (by decide)

/-- From the last start year on, the rule in effect is the last rule. -/
theorem ruleForYear_of_last_le {rules : List QWinTransitionRule} {last : QWinTransitionRule}
    {year : Int} (hl : rules.getLast? = some last) (h : last.startYear ≤ year) :
    ruleForYear rules year = some last := by
  have hne : rules ≠ [] := by
    intro hc
    rw [hc] at hl
    cases hl
  obtain ⟨first, last2, hf, hl2, _, hl0, _⟩ := head_getLast_of_ne_nil hne
  rw [hl] at hl2
  cases hl2
  unfold ruleForYear ruleIndexForYear
  simp only [hf, hl, h, if_true]
  exact hl0

/-- Before the first and the last start year, the rule in effect is the first
rule. -/
theorem ruleForYear_of_lt_first {rules : List QWinTransitionRule}
    {first last : QWinTransitionRule} {year : Int} (hf : rules.head? = some first)
    (hl : rules.getLast? = some last) (h1 : year < first.startYear)
    (h2 : year < last.startYear) : ruleForYear rules year = some first := by
  have hne : rules ≠ [] := by
    intro hc
    rw [hc] at hl
    cases hl
  obtain ⟨first2, last2, hf2, _, hf0, _, _⟩ := head_getLast_of_ne_nil hne
  rw [hf] at hf2
  cases hf2
  unfold ruleForYear ruleIndexForYear
  have h3 : ¬ last.startYear ≤ year := by omega
  have h4 : first.startYear > year := h1
  simp only [hf, hl, h3, h4, if_true, if_false]
  exact hf0

theorem noMoreTransitions_iff (rule : QWinTransitionRule) :
    noMoreTransitions rule = true ↔
      (rule.standardTimeRule.wYear ≠ 0 ∨ rule.daylightTimeRule.wYear ≠ 0 ∨
        rule.standardTimeRule.wMonth = 0 ∨ rule.daylightTimeRule.wMonth = 0) := by
  unfold noMoreTransitions
  simp only [Bool.or_eq_true, decide_eq_true_eq]
  tauto

/-- The walk of `nextTransition` stops before its loop on a last rule without
recurring transitions. -/
theorem nextTransition_stop {z : QWinTimeZonePrivate} (fuel dfuel : Nat) {t : Int}
    {last : QWinTransitionRule} (hl : z.m_tranRules.getLast? = some last)
    (hy : (msecsToDate t).year > last.startYear) (hx : noMoreTransitions last = true) :
    nextTransition z fuel dfuel t = some invalidData := by
  have hr := ruleForYear_of_last_le hl (le_of_lt hy)
  unfold nextTransition nextTransitionWalk
  simp only [hl, hy, if_true, hr, Option.map_some', hx]

/-- The walk of `previousTransition` stops before its loop on a first rule
without recurring transitions. -/
theorem previousTransition_stop {z : QWinTimeZonePrivate} (fuel dfuel : Nat) {t : Int}
    {first last : QWinTransitionRule} (hf : z.m_tranRules.head? = some first)
    (hl : z.m_tranRules.getLast? = some last)
    (hy : (msecsToDate t).year < first.startYear) (hy2 : (msecsToDate t).year < last.startYear)
    (hx : noMoreTransitions first = true) :
    previousTransition z fuel dfuel t = some invalidData := by
  have hr := ruleForYear_of_lt_first hf hl hy hy2
  unfold previousTransition previousTransitionWalk
  simp only [hf, hy, if_true, hr, Option.map_some', hx]

/-- The test before the loop of `previousTransition` is on the rule looked up
for the year, which differs from the first rule only on a list that is not
sorted, which init does not build: with start years 5 then 3 the year 4 gets
the last rule, which recurs, and the transition of November of the year 4 is
found. -/
theorem previousTransition_unsorted :
    ¬ StrictlyIncreasing unsortedZone.m_tranRules ∧
    (∃ first, unsortedZone.m_tranRules.head? = some first ∧
      (msecsToDate (-62012044800000)).year < first.startYear ∧
      first.standardTimeRule.wYear ≠ 0) ∧
    previousTransition unsortedZone 1 1 (-62012044800000)
      = some ⟨"UST", -62014096800000, -18000, -18000, 0⟩ := by
  decide

/-- C18: short-circuit of the walks, on every non-empty table, its start years
strictly increasing as in every RuleTable and every table init builds. When
the calendar year of `t` is after the last rule's start year and the last rule
has an explicit year or month 0 in either SYSTEMTIME, `nextTransition` returns
the invalid result; when the calendar year of `t` is before the first rule's
start year and the first rule has an explicit year or month 0 in either
SYSTEMTIME, `previousTransition` returns the invalid result. Both return
whatever the fuel. -/
theorem walks_shortCircuit (z : QWinTimeZonePrivate) (fuel dfuel : Nat) (t : Int)
    (first last : QWinTransitionRule) (hf : z.m_tranRules.head? = some first)
    (hl : z.m_tranRules.getLast? = some last) (hs : StrictlyIncreasing z.m_tranRules) :
    ((msecsToDate t).year > last.startYear →
      (last.standardTimeRule.wYear ≠ 0 ∨ last.daylightTimeRule.wYear ≠ 0 ∨
        last.standardTimeRule.wMonth = 0 ∨ last.daylightTimeRule.wMonth = 0) →
      nextTransition z fuel dfuel t = some invalidData) ∧
    ((msecsToDate t).year < first.startYear →
      (first.standardTimeRule.wYear ≠ 0 ∨ first.daylightTimeRule.wYear ≠ 0 ∨
        first.standardTimeRule.wMonth = 0 ∨ first.daylightTimeRule.wMonth = 0) →
      previousTransition z fuel dfuel t = some invalidData) := by
  have hle := first_le_last hs hf hl
  exact ⟨fun hy hx =>
      nextTransition_stop fuel dfuel hl hy ((noMoreTransitions_iff last).mpr hx),
    fun hy hx =>
      previousTransition_stop fuel dfuel hf hl hy (by omega)
        ((noMoreTransitions_iff first).mpr hx)⟩

/-- Witness of C18: the zone with the one-time switch of 2010, asked for the
next transition after 2004-11-09T11:33:20Z, and the zone whose only rule
starts in 2000 without transitions, asked for the previous transition before
1990-01-01T00:00Z. -/
theorem walks_shortCircuit_witness :
    nextTransition oneTimeZone 0 0 1100000000000 = some invalidData ∧
    previousTransition lateZone 0 0 631152000000 = some invalidData :=
  ⟨(walks_shortCircuit oneTimeZone 0 0 1100000000000
      ⟨MIN_YEAR, -60, -60, noTransition, ⟨2010, 3, 0, 28, 2, 0, 0, 0⟩⟩
      ⟨MIN_YEAR, -60, -60, noTransition, ⟨2010, 3, 0, 28, 2, 0, 0, 0⟩⟩ rfl rfl (by decide)).1
      (by decide) (by decide),
    (walks_shortCircuit lateZone 0 0 631152000000
      ⟨2000, -60, 0, noTransition, noTransition⟩
      ⟨2000, -60, 0, noTransition, noTransition⟩ rfl rfl (by decide)).2
      (by decide) (by decide)⟩

/-- The instant of a SYSTEMTIME with an explicit year, a WORD, is not before
the year 1 less the greatest bias: its date is a date of the years 1 to 65535,
and nothing overflows. -/
theorem explicit_instant_lower {rule : SYSTEMTIME} {f : Nat} {y bias D : Int}
    (hy : rule.wYear ≠ 0) (hw : rule.wYear ≤ 65535)
    (hD : calculateTransitionForYear f rule y bias = some D) (hv : D ≠ invalidMSecs) :
    -62137744283648 ≤ D := by
  unfold calculateTransitionForYear calculateTransitionLocalDate at hD
  by_cases hm : rule.wMonth = 0
  · rw [if_pos hm] at hD
    simp only [null_not_valid, Bool.false_and, Bool.false_eq_true, if_false] at hD
    exact absurd (Option.some.inj hD).symm hv
  · rw [if_neg hm, if_neg hy] at hD
    simp only at hD
    by_cases hval : ((QDate.ofYMD rule.wYear rule.wMonth rule.wDay).isValid &&
        (QTime.ofHMS rule.wHour rule.wMinute rule.wSecond 0).isValid) = true
    · rw [if_pos hval] at hD
      obtain ⟨hdv, htv⟩ := (Bool.and_eq_true _ _).mp hval
      have hymd : QDate.isValidYMD rule.wYear rule.wMonth rule.wDay = true := by
        by_contra hc
        unfold QDate.ofYMD at hdv
        rw [if_neg hc, null_not_valid] at hdv
        cases hdv
      have hjd : (QDate.ofYMD rule.wYear rule.wMonth rule.wDay).toJulianDay
          = QDate.julianDayFromDate rule.wYear rule.wMonth rule.wDay := by
        unfold QDate.ofYMD
        rw [if_pos hymd]
        rfl
      obtain ⟨_, hd1, hm1, hm12, hd⟩ :=
        (isValidYMD_iff rule.wYear rule.wMonth rule.wDay).mp hymd
      have hd31 : (rule.wDay : Int) ≤ 31 := by
        rcases hd with h | h
        · exact (monthDays_le h).1
        · omega
      have hy1 : (1 : Int) ≤ rule.wYear := by omega
      have hy2 : (rule.wYear : Int) ≤ 65535 := by omega
      have hb : 1721426 ≤ QDate.julianDayFromDate rule.wYear rule.wMonth rule.wDay ∧
          QDate.julianDayFromDate rule.wYear rule.wMonth rule.wDay ≤ 25657591 := by
        rw [julianDayFromDate_eq]
        generalize (rule.wYear : Int) = Y at hy1 hy2
        generalize (rule.wMonth : Int) = M at hm1 hm12
        generalize (rule.wDay : Int) = dd at hd1 hd31
        clear hD hval hdv htv hymd hjd hd hv hm hy hw
        by_cases hm2 : M ≤ 2
        · have ha : (14 - M) / 12 = 1 := by omega
          rw [ha]
          split_ifs <;> omega
        · have ha : (14 - M) / 12 = 0 := by omega
          rw [ha]
          split_ifs <;> omega
      obtain ⟨hms0, hms1⟩ := msecs_range htv
      have htm := timeToMSecs_of_range (QDate.ofYMD rule.wYear rule.wMonth rule.wDay)
        (QTime.ofHMS rule.wHour rule.wMinute rule.wSecond 0)
        (by rw [hjd]; unfold JULIAN_DAY_FOR_EPOCH MSECS_PER_DAY; omega)
        (by rw [hjd]; unfold JULIAN_DAY_FOR_EPOCH MSECS_PER_DAY; omega)
      rw [htm, hjd] at hD
      have hD2 := (Option.some.inj hD).symm
      rw [hD2]
      have hw32 : -2147483648 ≤ wrap32 (bias * 60000) ∧ wrap32 (bias * 60000) ≤ 2147483647 := by
        unfold wrap32
        omega
      unfold JULIAN_DAY_FOR_EPOCH MSECS_PER_DAY
      generalize (QTime.ofHMS rule.wHour rule.wMinute rule.wSecond 0).msecsSinceStartOfDay
        = ms at hms0 hms1
      generalize QDate.julianDayFromDate rule.wYear rule.wMonth rule.wDay = jd at hb
      generalize wrap32 (bias * 60000) = w at hw32
      rw [wrap64_of_range (by omega) (by omega)]
      omega
    · rw [if_neg hval] at hD
      exact absurd (Option.some.inj hD).symm hv

/-- C19: boundary scenario. For a table of a single rule whose startYear is
MIN_YEAR and whose daylight SYSTEMTIME has an explicit (non-zero) year, a
WORD, and for every instant `t` later than the instant of that one-time
daylight transition, `nextTransition` returns the invalid result, whatever the
fuel. -/
theorem nextTransition_afterOneTime (z : QWinTimeZonePrivate) (fuel dfuel f : Nat)
    (rule : QWinTransitionRule) (t y D : Int)
    (hz : z.m_tranRules = [rule]) (hs : rule.startYear = MIN_YEAR)
    (hy : rule.daylightTimeRule.wYear ≠ 0) (hw : rule.daylightTimeRule.wYear ≤ 65535)
    (hD : calculateTransitionForYear f rule.daylightTimeRule y rule.standardTimeBias = some D)
    (hv : D ≠ invalidMSecs) (hlt : D < t) (hhi : t ≤ 9223372036854775807) :
    nextTransition z fuel dfuel t = some invalidData := by
  have hlow := explicit_instant_lower hy hw hD hv
  have hmono := @year_of_msecs_mono (-62137744283648) t (by decide)
    (by omega) hhi
  have e1 : (msecsToDate (-62137744283648)).year = -1 := by decide
  rw [e1] at hmono
  have hl : z.m_tranRules.getLast? = some rule := by rw [hz]; rfl
  refine nextTransition_stop fuel dfuel hl ?_ ?_
  · rw [hs]
    unfold MIN_YEAR
    omega
  · exact (noMoreTransitions_iff rule).mpr (Or.inr (Or.inl hy))

/-- Witness of C19: the zone with the one-time switch of 2010-03-28, asked on
2011-03-13 for the next transition. -/
theorem nextTransition_afterOneTime_witness :
    calculateTransitionForYear 0 (⟨2010, 3, 0, 28, 2, 0, 0, 0⟩ : SYSTEMTIME) 2011 (-60)
      = some 1269738000000 ∧
    nextTransition oneTimeZone 0 0 1300000000000 = some invalidData :=
  ⟨by decide, nextTransition_afterOneTime oneTimeZone 0 0 0
    ⟨MIN_YEAR, -60, -60, noTransition, ⟨2010, 3, 0, 28, 2, 0, 0, 0⟩⟩ 1300000000000 2011
    1269738000000 rfl rfl (by decide) (by decide) (by decide) (by decide) (by decide)
    (by decide)⟩

/-- An instant of a transition is a qint64. -/
theorem calculateTransitionForYear_range {fuel : Nat} {rule : SYSTEMTIME} {year bias v : Int}
    (h : calculateTransitionForYear fuel rule year bias = some v) :
    -9223372036854775808 ≤ v ∧ v ≤ 9223372036854775807 := by
  unfold calculateTransitionForYear at h
  cases hd : calculateTransitionLocalDate fuel rule year with
  | none => rw [hd] at h; cases h
  | some date =>
    rw [hd] at h
    simp only at h
    split_ifs at h
    · cases h
      unfold wrap64
      omega
    · cases h
      unfold invalidMSecs
      omega

theorem ofRule_range {fuel : Nat} {rule : QWinTransitionRule} {year : Int}
    {pair : TransitionTimePair} (h : TransitionTimePair.ofRule fuel rule year = some pair) :
    pair.std ≤ 9223372036854775807 ∧ pair.dst ≤ 9223372036854775807 := by
  unfold TransitionTimePair.ofRule at h
  cases hs : calculateTransitionForYear fuel rule.standardTimeRule year
      (wrap32 (rule.standardTimeBias + rule.daylightTimeBias)) with
  | none => rw [hs] at h; cases h
  | some s =>
    rw [hs] at h
    cases hd : calculateTransitionForYear fuel rule.daylightTimeRule year
        rule.standardTimeBias with
    | none => rw [hd] at h; cases h
    | some d =>
      rw [hd] at h
      cases h
      exact ⟨(calculateTransitionForYear_range hs).2, (calculateTransitionForYear_range hd).2⟩

/-- The round trip from the invalid instant, the least qint64, in two's
complement arithmetic: msecsToDate gives it the calendar year MAX_YEAR, the
walk forward finds a transition of MAX_YEAR and the walk back one of the year
before, each in the calendar year of its round. -/
theorem roundTrip_from_invalidMSecs :
    nextTransitionWalk springZone 1 1 invalidMSecs
      = some (some ⟨⟨MIN_YEAR, 300, -60, relativeRule 5 0 1 2, relativeRule 3 0 2 2⟩,
          9223372022943600000, ⟨9223372027778400000, 9223372022943600000⟩, 292278995⟩) ∧
    (msecsToDate 9223372022943600000).year = 292278994 ∧
    previousTransitionWalk springZone 2 1 9223372022943600000
      = some (some ⟨⟨MIN_YEAR, 300, -60, relativeRule 5 0 1 2, relativeRule 3 0 2 2⟩,
          9223371996328800000, ⟨9223371996328800000, 9223371991494000000⟩, 292278992⟩) ∧
    (msecsToDate 9223371996328800000).year = 292278993 ∧
    invalidMSecs < 9223371996328800000 := by
  decide

/-- The loop of `hasTransitions` answers true exactly when it meets a rule
with a month in both SYSTEMTIMEs. -/
theorem hasTransitionsLoop_iff (rules : List QWinTransitionRule) :
    hasTransitionsLoop rules = true ↔
      ∃ rule ∈ rules, rule.standardTimeRule.wMonth ≠ 0 ∧ rule.daylightTimeRule.wMonth ≠ 0 := by
  induction rules with
  | nil => simp [hasTransitionsLoop]
  | cons r rest ih =>
    unfold hasTransitionsLoop
    by_cases h : r.standardTimeRule.wMonth > 0 ∧ r.daylightTimeRule.wMonth > 0
    · rw [if_pos h]
      simp only [true_iff]
      exact ⟨r, List.mem_cons_self _ _, by omega, by omega⟩
    · rw [if_neg h, ih]
      constructor
      · rintro ⟨rule, hm, h1, h2⟩
        exact ⟨rule, List.mem_cons_of_mem _ hm, h1, h2⟩
      · rintro ⟨rule, hm, h1, h2⟩
        rcases List.mem_cons.mp hm with e | hm2
        · subst e
          exact absurd ⟨by omega, by omega⟩ h
        · exact ⟨rule, hm2, h1, h2⟩

/-- C23: hasTransitions is true exactly when some rule has a non-zero month in
both its standard and its daylight SYSTEMTIME, and hasDaylightTime is the same
answer; so for every table in which every rule's daylight SYSTEMTIME has
month 0, both return false. -/
theorem hasTransitions_iff (z : QWinTimeZonePrivate) :
    (hasTransitions z = true ↔
      ∃ rule ∈ z.m_tranRules,
        rule.standardTimeRule.wMonth ≠ 0 ∧ rule.daylightTimeRule.wMonth ≠ 0) ∧
    hasDaylightTime z = hasTransitions z ∧
    ((∀ rule ∈ z.m_tranRules, rule.daylightTimeRule.wMonth = 0) →
      hasTransitions z = false ∧ hasDaylightTime z = false) := by
  have hiff := hasTransitionsLoop_iff z.m_tranRules
  refine ⟨hiff, rfl, ?_⟩
  intro h
  have hf : hasTransitions z = false := by
    cases hc : hasTransitions z with
    | false => rfl
    | true =>
      obtain ⟨rule, hm, _, h2⟩ := hiff.mp hc
      exact absurd (h rule hm) h2
  exact ⟨hf, hf⟩

/-- Witness of C23: the zone whose only rule has no months has no transitions
and no daylight time; the scenario zone has a rule with both months; the zone
with only a one-time switch to daylight time has none. -/
theorem hasTransitions_iff_witness :
    (hasTransitions lateZone = false ∧ hasDaylightTime lateZone = false) ∧
    hasTransitions scenarioZone = true ∧ hasTransitions oneTimeZone = false :=
  ⟨(hasTransitions_iff lateZone).2.2 (by decide), by decide, by decide⟩

/-! ### Order of the pair -/

/-- C25 fails as stated: a rule whose two SYSTEMTIMEs are the same 2nd Sunday
of March at 02:00 and whose daylight bias is 0 has, in 2023, two valid
transition instants that are equal, 2023-03-12T07:00Z; the code then takes
first = dst and second = std, and first < second does not hold. -/
theorem pair_ordering_counterexample :
    TransitionTimePair.ofRule 1 ⟨MIN_YEAR, 300, 0, relativeRule 3 0 2 2, relativeRule 3 0 2 2⟩
      2023 = some ⟨1678604400000, 1678604400000⟩ ∧
    (⟨1678604400000, 1678604400000⟩ : TransitionTimePair).std ≠ invalidMSecs ∧
    (⟨1678604400000, 1678604400000⟩ : TransitionTimePair).dst ≠ invalidMSecs ∧
    ¬ ((⟨1678604400000, 1678604400000⟩ : TransitionTimePair).first
      < (⟨1678604400000, 1678604400000⟩ : TransitionTimePair).second) := by
  decide

/-- C25 (amended): pair ordering. For every pair of transition instants (of any
rule and year, valid or not), the ordered pair (first, second) chosen by data,
nextTransition and previousTransition (first = std if std < dst, else dst) is
the lesser and the greater of the two instants: first <= second, and
first < second strictly whenever the two instants differ (when they are equal,
first = second). -/
theorem pair_ordering (pair : TransitionTimePair) :
    pair.first = min pair.std pair.dst ∧ pair.second = max pair.std pair.dst ∧
    pair.first ≤ pair.second ∧
    (pair.std ≠ pair.dst → pair.first < pair.second) ∧
    (pair.std = pair.dst → pair.first = pair.second) := by
  unfold TransitionTimePair.first TransitionTimePair.second
  split_ifs with h
  · refine ⟨?_, ?_, ?_, ?_, ?_⟩
    · rw [min_eq_left (le_of_lt h)]
    · rw [max_eq_right (le_of_lt h)]
    · omega
    · intro _; exact h
    · intro h2; omega
  · refine ⟨?_, ?_, ?_, ?_, ?_⟩
    · rw [min_eq_right (by omega)]
    · rw [max_eq_left (by omega)]
    · omega
    · intro h2; omega
    · intro h2; exact h2.symm

/-- Witness of C25 (amended): the pair of the scenario rule in 2023, into
daylight time on 2023-03-12T07:00Z and back on 2023-11-05T06:00Z. -/
theorem pair_ordering_witness :
    (⟨1699164000000, 1678604400000⟩ : TransitionTimePair).first
      = min 1699164000000 1678604400000 ∧
    (⟨1699164000000, 1678604400000⟩ : TransitionTimePair).second
      = max 1699164000000 1678604400000 ∧
    (⟨1699164000000, 1678604400000⟩ : TransitionTimePair).first
      ≤ (⟨1699164000000, 1678604400000⟩ : TransitionTimePair).second ∧
    ((1699164000000 : Int) ≠ 1678604400000 →
      (⟨1699164000000, 1678604400000⟩ : TransitionTimePair).first
        < (⟨1699164000000, 1678604400000⟩ : TransitionTimePair).second) ∧
    ((1699164000000 : Int) = 1678604400000 →
      (⟨1699164000000, 1678604400000⟩ : TransitionTimePair).first
        = (⟨1699164000000, 1678604400000⟩ : TransitionTimePair).second) :=
  pair_ordering ⟨1699164000000, 1678604400000⟩

/-! ### msecsToDate at the least instant -/

/-- C27: msecsToDate at the least qint64, in two's complement arithmetic.
`qAbs` overflows and gives the negative number back, so the days are not
taken off by the division; the subtraction `MSECS_PER_DAY - msecs - 1`
overflows in its turn, and the result is the day 106754431754
(16 August 292278994), not the day 2440588 + floor(msecs / 86400000) =
-106749550580 (16 May -292275056). -/
theorem msecsToDate_least :
    qAbs (-9223372036854775808) = -9223372036854775808 ∧
    msecsToDate (-9223372036854775808) = ⟨106754431754⟩ ∧
    QDate.fromJulianDay (2440588 + (-9223372036854775808) / 86400000) = ⟨-106749550580⟩ ∧
    msecsToDate (-9223372036854775808)
      ≠ QDate.fromJulianDay (2440588 + (-9223372036854775808) / 86400000) ∧
    (msecsToDate (-9223372036854775808)).year = 292278994 ∧
    (QDate.fromJulianDay (2440588 + (-9223372036854775808) / 86400000)).year = -292275056 := by
  decide

/-! ### The binary chop, round by round -/

/-- C28: safety and invariant of the binary chop. For a non-empty table and a
year with first.startYear <= year < last.startYear, ruleIndexForYear runs its
loop from lo = 0, hi = count, where the invariant holds: lo < hi <= count,
rules[lo].startYear <= year, and hi = count or year < rules[hi].startYear.
Every iteration entered with the invariant has lo < mid < hi, so rules.at(mid)
is in bounds; it returns mid, or goes on with (lo, mid) or (mid, hi), where
the invariant holds again and hi - lo is smaller; when lo + 1 >= hi the loop
returns lo. The loop ends and the index returned is below count. -/
theorem ruleIndexForYear_chop (rules : List QWinTransitionRule) (year : Int)
    (first last : QWinTransitionRule) (hf : rules.head? = some first)
    (hl : rules.getLast? = some last) (h1 : first.startYear ≤ year)
    (h2 : year < last.startYear) :
    ruleIndexForYear rules year = ruleIndexLoop rules year (rules.length + 1) 0 rules.length ∧
    ChopInvariant rules year 0 rules.length ∧
    (∀ fuel lo hi : Nat, ChopInvariant rules year lo hi → lo + 1 < hi →
      ∃ r, rules[(lo + hi) / 2]? = some r ∧
        lo < (lo + hi) / 2 ∧ (lo + hi) / 2 < hi ∧ hi ≤ rules.length ∧
        (r.startYear > year →
          ruleIndexLoop rules year (fuel + 1) lo hi
            = ruleIndexLoop rules year fuel lo ((lo + hi) / 2) ∧
          ChopInvariant rules year lo ((lo + hi) / 2) ∧ (lo + hi) / 2 - lo < hi - lo) ∧
        (r.startYear < year →
          ruleIndexLoop rules year (fuel + 1) lo hi
            = ruleIndexLoop rules year fuel ((lo + hi) / 2) hi ∧
          ChopInvariant rules year ((lo + hi) / 2) hi ∧ hi - (lo + hi) / 2 < hi - lo) ∧
        (r.startYear = year →
          ruleIndexLoop rules year (fuel + 1) lo hi = some ((lo + hi) / 2))) ∧
    (∀ fuel lo hi : Nat, ChopInvariant rules year lo hi → ¬ lo + 1 < hi →
      ruleIndexLoop rules year (fuel + 1) lo hi = some lo) ∧
    ∃ i, ruleIndexForYear rules year = some i ∧ i < rules.length := by
  have hne : rules ≠ [] := by
    intro hc
    rw [hc] at hl
    cases hl
  obtain ⟨first2, last2, hf2, hl2, hf0, hl0, hlen⟩ := head_getLast_of_ne_nil hne
  rw [hf] at hf2
  rw [hl] at hl2
  cases hf2
  cases hl2
  refine ⟨?_, ?_, ?_, ?_, ?_⟩
  · unfold ruleIndexForYear
    have c1 : ¬ last.startYear ≤ year := by omega
    have c2 : ¬ first.startYear > year := by omega
    simp only [hf, hl, c1, c2, if_false]
  · exact ⟨hlen, le_refl _, ⟨first, hf0, h1⟩, Or.inl rfl⟩
  · intro fuel lo hi hinv hlt
    obtain ⟨i1, i2, i3, i4⟩ := hinv
    have hmid : (lo + hi) / 2 < rules.length := by omega
    have hm := List.getElem?_eq_getElem hmid
    refine ⟨rules[(lo + hi) / 2], hm, by omega, by omega, i2, ?_, ?_, ?_⟩
    · intro hgt
      refine ⟨?_, ⟨by omega, by omega, i3, Or.inr ⟨_, hm, hgt⟩⟩, by omega⟩
      rw [ruleIndexLoop]
      simp only [hlt, if_true, hm, hgt]
    · intro hlt2
      have hgt : ¬ rules[(lo + hi) / 2].startYear > year := by omega
      refine ⟨?_, ⟨by omega, i2, ⟨_, hm, le_of_lt hlt2⟩, i4⟩, by omega⟩
      rw [ruleIndexLoop]
      simp only [hlt, if_true, hm, hgt, hlt2, if_false]
    · intro heq
      have hgt : ¬ rules[(lo + hi) / 2].startYear > year := by omega
      have hlt2 : ¬ rules[(lo + hi) / 2].startYear < year := by omega
      rw [ruleIndexLoop]
      simp only [hlt, if_true, hm, hgt, hlt2, if_false]
  · intro fuel lo hi _ hlt
    rw [ruleIndexLoop]
    simp only [hlt, if_false]
  · exact ruleIndexForYear_isSome hne year

/-- Witness of C28: the table of US Eastern time (start years MIN_YEAR, 1987,
2007) and the year 1990. -/
theorem ruleIndexForYear_chop_witness :
    ChopInvariant easternTable 1990 0 3 ∧
    ruleIndexLoop easternTable 1990 (2 + 1) 0 3 = ruleIndexLoop easternTable 1990 2 1 3 ∧
    ChopInvariant easternTable 1990 1 3 ∧
    ruleIndexForYear easternTable 1990 = some 1 := by
  have h := ruleIndexForYear_chop easternTable 1990
    ⟨MIN_YEAR, 300, -60, relativeRule 10 0 5 2, relativeRule 4 0 5 2⟩
    ⟨2007, 300, -60, relativeRule 11 0 1 2, relativeRule 3 0 2 2⟩ rfl rfl (by decide)
    (by decide)
  obtain ⟨_, hinv, hstep, _, _⟩ := h
  obtain ⟨r, hr, _, _, _, _, hlow, _⟩ := hstep 2 0 3 hinv (by decide)
  have hr2 : easternTable[(0 + 3) / 2]?
      = some ⟨1987, 300, -60, relativeRule 10 0 5 2, relativeRule 4 0 1 2⟩ := rfl
  rw [hr2] at hr
  cases hr
  obtain ⟨e, hinv2, _⟩ := hlow (by decide)
  exact ⟨hinv, e, hinv2, by decide⟩

/-! ### The table built by init -/

/-- The loop of `init` ends, and keeps its table in order: entered at a year
above MIN_YEAR with a table that starts at MIN_YEAR, increases strictly and
lies below the year, it returns such a table. -/
theorem initLoop_keeps (read : Int → Option QWinTransitionRule) (endYear : Int)
    (hhi : endYear < 2147483647) :
    ∀ (fuel : Nat) (year : Int) (rules : List QWinTransitionRule),
      MIN_YEAR < year → year ≤ endYear + 1 → endYear - year + 2 ≤ (fuel : Int) →
      StrictlyIncreasing rules → (∀ r ∈ rules, r.startYear < year) →
      (∀ r, rules.head? = some r → r.startYear = MIN_YEAR) →
      ∃ table, initLoop read endYear fuel year rules = some table ∧
        StrictlyIncreasing table ∧ (∀ r, table.head? = some r → r.startYear = MIN_YEAR) := by
  intro fuel
  induction fuel with
  | zero =>
    intro year rules h1 h2 h3
    omega
  | succ n ih =>
    intro year rules h1 h2 h3 hs hb hh
    rw [initLoop]
    by_cases hc : year ≤ endYear
    · rw [if_pos hc]
      have hw : wrap32 (year + 1) = year + 1 := by
        unfold MIN_YEAR at h1
        exact wrap32_of_range (by omega) (by omega)
      rw [hw]
      cases hread : read year with
      | none =>
        simp only
        exact ih (year + 1) rules (by omega) (by omega) (by push_cast at h3 ⊢; omega) hs
          (fun r hr => by have := hb r hr; omega) hh
      | some rule =>
        simp only
        refine ih (year + 1) _ (by omega) (by omega) (by push_cast at h3 ⊢; omega) ?_ ?_ ?_
        · unfold StrictlyIncreasing
          rw [List.pairwise_append]
          refine ⟨hs, List.pairwise_singleton _ _, ?_⟩
          intro a ha b hb2
          rw [List.mem_singleton] at hb2
          subst hb2
          have hne : rules.isEmpty = false := by
            cases rules with
            | nil => cases ha
            | cons x xs => rfl
          simp only [hne, Bool.false_eq_true, if_false]
          exact hb a ha
        · intro r hr
          rcases List.mem_append.mp hr with h | h
          · have := hb r h
            omega
          · rw [List.mem_singleton] at h
            subst h
            simp only
            split_ifs <;> omega
        · intro r hr
          cases rules with
          | nil =>
            simp only [List.nil_append, List.head?_cons, Option.some.injEq] at hr
            subst hr
            rfl
          | cons x xs =>
            simp only [List.cons_append, List.head?_cons, Option.some.injEq] at hr
            subst hr
            exact hh _ rfl
    · rw [if_neg hc]
      exact ⟨rules, rfl, hs, hh⟩

/-- C30: the table built by the loop of `init`. For every range of entry years
startYear..endYear above MIN_YEAR (endYear below the greatest `int`, so that
`++year` stays an `int`) and every pattern `read` of successful and failed
reads, the loop, entered with an empty table, ends within
endYear - startYear + 2 tests of its condition, and the table it has built
has startYear = MIN_YEAR in its first rule when it is not empty, and start
years that increase strictly, hence without duplicates. -/
theorem initLoop_table (read : Int → Option QWinTransitionRule) (startYear endYear : Int)
    (fuel : Nat) (hlo : MIN_YEAR < startYear) (hhi : endYear < 2147483647)
    (hf1 : 1 ≤ fuel) (hf2 : endYear - startYear + 2 ≤ (fuel : Int)) :
    ∃ table, initLoop read endYear fuel startYear [] = some table ∧
      (∀ r, table.head? = some r → r.startYear = MIN_YEAR) ∧
      StrictlyIncreasing table ∧
      (table.map (fun r => r.startYear)).Nodup := by
  have hmain : ∃ table, initLoop read endYear fuel startYear [] = some table ∧
      StrictlyIncreasing table ∧ (∀ r, table.head? = some r → r.startYear = MIN_YEAR) := by
    by_cases hc : startYear ≤ endYear + 1
    · exact initLoop_keeps read endYear hhi fuel startYear [] hlo hc hf2 List.Pairwise.nil
        (fun r hr => by cases hr) (fun r hr => by cases hr)
    · obtain ⟨n, rfl⟩ : ∃ n, fuel = n + 1 := ⟨fuel - 1, by omega⟩
      refine ⟨[], ?_, List.Pairwise.nil, fun r hr => by cases hr⟩
      rw [initLoop]
      rw [if_neg (by omega)]
  obtain ⟨table, ht, hs, hh⟩ := hmain
  refine ⟨table, ht, hh, hs, ?_⟩
  unfold List.Nodup
  rw [List.pairwise_map]
  exact List.Pairwise.imp (fun h => ne_of_lt h) hs

/-- Witness of C30: the entry years 2006..2008 with a failed read for 2007
give a table that starts at MIN_YEAR and goes on in 2008. -/
theorem initLoop_table_witness :
    ∃ table,
      initLoop (fun y => if y = 2007 then none else some ⟨0, 300, -60, noTransition, noTransition⟩)
        2008 4 2006 [] = some table ∧
      (∀ r, table.head? = some r → r.startYear = MIN_YEAR) ∧
      StrictlyIncreasing table ∧
      (table.map (fun r => r.startYear)).Nodup :=
  initLoop_table (fun y => if y = 2007 then none else some ⟨0, 300, -60, noTransition, noTransition⟩)
    2006 2008 4 (by decide) (by decide) (by decide) (by decide)

/-- Why C30 keeps endYear below the greatest `int`: with endYear = 2147483647
the condition `year <= endYear` never fails, in two's complement arithmetic,
and the loop of `init` does not end. -/
theorem initLoop_greatest_int (read : Int → Option QWinTransitionRule) :
    ∀ (fuel : Nat) (year : Int) (rules : List QWinTransitionRule), year ≤ 2147483647 →
      initLoop read 2147483647 fuel year rules = none := by
  intro fuel
  induction fuel with
  | zero =>
    intro year rules _
    rfl
  | succ n ih =>
    intro year rules hy
    have hw : wrap32 (year + 1) ≤ 2147483647 := by
      unfold wrap32
      omega
    rw [initLoop, if_pos hy]
    cases read year with
    | none => exact ih _ _ hw
    | some rule => exact ih _ _ hw

/-! ### Zones without transitions -/

/-- The rule in effect for a year is a rule of the table. -/
theorem ruleForYear_mem {rules : List QWinTransitionRule} {year : Int}
    {rule : QWinTransitionRule} (h : ruleForYear rules year = some rule) : rule ∈ rules := by
  unfold ruleForYear at h
  cases hi : ruleIndexForYear rules year with
  | none => rw [hi] at h; cases h
  | some i =>
    rw [hi] at h
    obtain ⟨hlt, rfl⟩ := List.getElem?_eq_some.mp h
    exact List.getElem_mem hlt

/-- The walk of `nextTransition` on a rule without months in the year of the
instant. -/
theorem nextTransition_noMonths {z : QWinTimeZonePrivate} {fuel dfuel : Nat} {t : Int}
    {rule : QWinTransitionRule} (hne : z.m_tranRules ≠ [])
    (hr : ruleForYear z.m_tranRules (msecsToDate t).year = some rule)
    (hs : rule.standardTimeRule.wMonth = 0) (hd : rule.daylightTimeRule.wMonth = 0)
    (hfuel : 1 ≤ fuel) : nextTransition z fuel dfuel t = some invalidData := by
  obtain ⟨_, last, _, hl, _, _, _⟩ := head_getLast_of_ne_nil hne
  obtain ⟨n, rfl⟩ : ∃ n, fuel = n + 1 := ⟨fuel - 1, by omega⟩
  have hx : noMoreTransitions rule = true :=
    (noMoreTransitions_iff rule).mpr (Or.inr (Or.inr (Or.inl hs)))
  have hloop : nextTransitionLoop z.m_tranRules dfuel t (n + 1) (msecsToDate t).year
      = some none := by
    rw [nextTransitionLoop]
    simp only [hr, hs, hd, and_self, if_true]
  unfold nextTransition nextTransitionWalk
  simp only [hl, hr, Option.map_some', hx, hloop]
  split_ifs <;> rfl

/-- The walk of `previousTransition` on a rule without months in the year of
the instant. -/
theorem previousTransition_noMonths {z : QWinTimeZonePrivate} {fuel dfuel : Nat} {t : Int}
    {rule : QWinTransitionRule} (hne : z.m_tranRules ≠ [])
    (hr : ruleForYear z.m_tranRules (msecsToDate t).year = some rule)
    (hs : rule.standardTimeRule.wMonth = 0) (hd : rule.daylightTimeRule.wMonth = 0)
    (hfuel : 1 ≤ fuel) : previousTransition z fuel dfuel t = some invalidData := by
  obtain ⟨first, _, hf, _, _, _, _⟩ := head_getLast_of_ne_nil hne
  obtain ⟨n, rfl⟩ : ∃ n, fuel = n + 1 := ⟨fuel - 1, by omega⟩
  have hx : noMoreTransitions rule = true :=
    (noMoreTransitions_iff rule).mpr (Or.inr (Or.inr (Or.inl hs)))
  have hloop : previousTransitionLoop z.m_tranRules dfuel t (n + 1) (msecsToDate t).year
      = some none := by
    rw [previousTransitionLoop]
    simp only [hr, hs, hd, and_self, if_true]
  unfold previousTransition previousTransitionWalk
  simp only [hf, hr, Option.map_some', hx, hloop]
  split_ifs <;> rfl

/-- C21 fails as stated: a zone in which every rule's daylight SYSTEMTIME has
month 0 but the standard SYSTEMTIME names a day. From 2000-01-01T00:00Z the
walks compute the pair of the year, whose standard instant is valid, and
return it: nextTransition the return to standard time of 2000-10-29T06:00Z,
previousTransition that of 1999-10-31T06:00Z. -/
theorem walks_noDaylight_counterexample :
    (∀ rule ∈ standardOnlyZone.m_tranRules, rule.daylightTimeRule.wMonth = 0) ∧
    nextTransition standardOnlyZone 1 1 946684800000
      = some ⟨"SOS", 972799200000, -18000, -18000, 0⟩ ∧
    previousTransition standardOnlyZone 2 1 946684800000
      = some ⟨"SOS", 941349600000, -18000, -18000, 0⟩ ∧
    (⟨"SOS", 972799200000, -18000, -18000, 0⟩ : Data) ≠ invalidData ∧
    (⟨"SOS", 941349600000, -18000, -18000, 0⟩ : Data) ≠ invalidData := by
  decide

/-- C21 (amended): zones without transitions, walk. For every non-empty table
in which every rule has month 0 in both its standard and its daylight
SYSTEMTIME, and every instant t, nextTransition(t) and previousTransition(t)
both return the invalid result, in the first round of their loop at the
latest. -/
theorem walks_noDaylight (z : QWinTimeZonePrivate) (fuel dfuel : Nat) (t : Int)
    (hne : z.m_tranRules ≠ [])
    (hall : ∀ rule ∈ z.m_tranRules,
      rule.standardTimeRule.wMonth = 0 ∧ rule.daylightTimeRule.wMonth = 0)
    (hfuel : 1 ≤ fuel) :
    nextTransition z fuel dfuel t = some invalidData ∧
      previousTransition z fuel dfuel t = some invalidData := by
  obtain ⟨rule, hr⟩ := ruleForYear_isSome hne (msecsToDate t).year
  obtain ⟨hs, hd⟩ := hall rule (ruleForYear_mem hr)
  exact ⟨nextTransition_noMonths hne hr hs hd hfuel,
    previousTransition_noMonths hne hr hs hd hfuel⟩

/-- Witness of C21 (amended): the zone whose only rule, from 2000, has no
months, asked in 1990 and in 2023. -/
theorem walks_noDaylight_witness :
    (nextTransition lateZone 1 0 631152000000 = some invalidData ∧
      previousTransition lateZone 1 0 631152000000 = some invalidData) ∧
    (nextTransition lateZone 1 0 1689422400000 = some invalidData ∧
      previousTransition lateZone 1 0 1689422400000 = some invalidData) :=
  ⟨walks_noDaylight lateZone 1 0 631152000000 (by decide) (by decide) (by decide),
    walks_noDaylight lateZone 1 0 1689422400000 (by decide) (by decide) (by decide)⟩

/-! ### The loop of data, in general -/

/-- The two tests of a round of `data` never leave the invalid instant in
`next`. -/
theorem resolveInYear_ne_invalid (t : Int) (pair : TransitionTimePair) :
    resolveInYear t pair ≠ invalidMSecs := by
  unfold resolveInYear
  split_ifs with h1 h2
  · exact h1.2
  · exact h2.2
  · decide

/-- The pair of a rule whose daylight SYSTEMTIME has no month has no instant
into daylight time. -/
theorem ofRule_dst_noMonth {fuel : Nat} {rule : QWinTransitionRule} {year : Int}
    {pair : TransitionTimePair} (h : TransitionTimePair.ofRule fuel rule year = some pair)
    (hd : rule.daylightTimeRule.wMonth = 0) : pair.dst = invalidMSecs := by
  unfold TransitionTimePair.ofRule at h
  cases hs : calculateTransitionForYear fuel rule.standardTimeRule year
      (wrap32 (rule.standardTimeBias + rule.daylightTimeBias)) with
  | none => rw [hs] at h; cases h
  | some s =>
    rw [hs, calculateTransitionForYear_noMonth fuel year rule.standardTimeBias hd] at h
    cases h
    rfl

/-- The state the loop of `data` is left in: `next` is not the invalid
instant, the rule is a rule of the table, and the pair is the one the loop was
entered with or the pair of a rule of the table in some year. -/
theorem dataLoop_state (rules : List QWinTransitionRule) (dfuel : Nat) (t : Int) :
    ∀ (fuel : Nat) (year : Int) (pair0 : TransitionTimePair) (s : WalkState),
      dataLoop rules dfuel t fuel year pair0 = some s →
      s.next ≠ invalidMSecs ∧ s.rule ∈ rules ∧
        (s.pair = pair0 ∨ ∃ Y r, ruleForYear rules Y = some r ∧
          TransitionTimePair.ofRule dfuel r Y = some s.pair) := by
  intro fuel
  induction fuel with
  | zero =>
    intro year pair0 s h
    have h0 : dataLoop rules dfuel t 0 year pair0 = none := rfl
    rw [h0] at h
    cases h
  | succ n ih =>
    intro year pair0 s h
    rw [dataLoop] at h
    cases hr : ruleForYear rules year with
    | none => rw [hr] at h; cases h
    | some rule =>
      rw [hr] at h
      simp only at h
      by_cases hz : rule.standardTimeRule.wMonth = 0 ∧ rule.daylightTimeRule.wMonth = 0
      · rw [if_pos hz] at h
        cases h
        have hmx : maxMSecs ≠ invalidMSecs := by decide
        exact ⟨hmx, ruleForYear_mem hr, Or.inl rfl⟩
      · rw [if_neg hz] at h
        cases hp : TransitionTimePair.ofRule dfuel rule year with
        | none => rw [hp] at h; cases h
        | some pair =>
          rw [hp] at h
          simp only at h
          by_cases hc : resolveInYear t pair = maxMSecs ∧ year - 1 ≥ MIN_YEAR
          · rw [if_pos hc] at h
            obtain ⟨h1, h2, h3⟩ := ih (year - 1) pair s h
            refine ⟨h1, h2, Or.inr ?_⟩
            rcases h3 with e | e
            · exact ⟨year, rule, hr, by rw [e]; exact hp⟩
            · exact e
          · rw [if_neg hc] at h
            cases h
            exact ⟨resolveInYear_ne_invalid t pair, ruleForYear_mem hr,
              Or.inr ⟨year, rule, hr, hp⟩⟩

/-- The only way the loop of `data` does not return, given fuel for all the
years down to MIN_YEAR: the date loop of a year it examines does not end
within `dfuel`; the years above that one had no transition at or before the
instant. -/
theorem dataLoop_stuck (rules : List QWinTransitionRule) (dfuel : Nat) (t : Int)
    (hne : rules ≠ []) :
    ∀ (n fuel : Nat) (year : Int) (pair0 : TransitionTimePair),
      year ≤ MIN_YEAR + n → n + 1 ≤ fuel →
      dataLoop rules dfuel t fuel year pair0 = none →
      ∃ Y r, Y ≤ year ∧ (MIN_YEAR ≤ Y ∨ Y = year) ∧ ruleForYear rules Y = some r ∧
        TransitionTimePair.ofRule dfuel r Y = none ∧
        ∀ Y2 : Int, Y < Y2 → Y2 ≤ year →
          ∃ r2 p2, ruleForYear rules Y2 = some r2 ∧
            TransitionTimePair.ofRule dfuel r2 Y2 = some p2 ∧
            resolveInYear t p2 = maxMSecs := by
  intro n
  induction n with
  | zero =>
    intro fuel year pair0 hy hf h
    obtain ⟨m, rfl⟩ : ∃ m, fuel = m + 1 := ⟨fuel - 1, by omega⟩
    obtain ⟨rule, hr⟩ := ruleForYear_isSome hne year
    rw [dataLoop] at h
    rw [hr] at h
    simp only at h
    by_cases hz : rule.standardTimeRule.wMonth = 0 ∧ rule.daylightTimeRule.wMonth = 0
    · rw [if_pos hz] at h
      cases h
    · rw [if_neg hz] at h
      cases hp : TransitionTimePair.ofRule dfuel rule year with
      | none =>
        exact ⟨year, rule, le_refl _, Or.inr rfl, hr, hp, fun Y2 h1 h2 => by omega⟩
      | some pair =>
        rw [hp] at h
        simp only at h
        have hc : ¬ (resolveInYear t pair = maxMSecs ∧ year - 1 ≥ MIN_YEAR) := by
          intro hc
          have := hc.2
          simp only [Nat.cast_zero, add_zero] at hy
          omega
        rw [if_neg hc] at h
        cases h
  | succ k ih =>
    intro fuel year pair0 hy hf h
    obtain ⟨m, rfl⟩ : ∃ m, fuel = m + 1 := ⟨fuel - 1, by omega⟩
    obtain ⟨rule, hr⟩ := ruleForYear_isSome hne year
    rw [dataLoop] at h
    rw [hr] at h
    simp only at h
    by_cases hz : rule.standardTimeRule.wMonth = 0 ∧ rule.daylightTimeRule.wMonth = 0
    · rw [if_pos hz] at h
      cases h
    · rw [if_neg hz] at h
      cases hp : TransitionTimePair.ofRule dfuel rule year with
      | none =>
        exact ⟨year, rule, le_refl _, Or.inr rfl, hr, hp, fun Y2 h1 h2 => by omega⟩
      | some pair =>
        rw [hp] at h
        simp only at h
        by_cases hc : resolveInYear t pair = maxMSecs ∧ year - 1 ≥ MIN_YEAR
        · rw [if_pos hc] at h
          obtain ⟨Y, r, h1, h2, h3, h4, h5⟩ :=
            ih m (year - 1) pair (by push_cast at hy ⊢; omega) (by omega) h
          refine ⟨Y, r, by omega, ?_, h3, h4, ?_⟩
          · rcases h2 with e | e
            · exact Or.inl e
            · left
              have := hc.2
              omega
          · intro Y2 hlt hle
            by_cases he : Y2 = year
            · subst he
              exact ⟨rule, pair, hr, hp, hc.1⟩
            · exact h5 Y2 hlt (by omega)
        · rw [if_neg hc] at h
          cases h

/-- In a table whose rules have no month in their daylight SYSTEMTIME, `data`
reports standard time whenever it returns. -/
theorem data_standard_of_noDaylight {z : QWinTimeZonePrivate}
    (hd : ∀ rule ∈ z.m_tranRules, rule.daylightTimeRule.wMonth = 0)
    {fuel dfuel : Nat} {t : Int} {d : Data} (h : data z fuel dfuel t = some d) :
    ∃ rule ∈ z.m_tranRules, d = ruleToData z rule t TimeType.StandardTime := by
  unfold data dataFrom at h
  cases hl : dataLoop z.m_tranRules dfuel t fuel (msecsToDate t).year
      ⟨invalidMSecs, invalidMSecs⟩ with
  | none => rw [hl] at h; cases h
  | some s =>
    rw [hl] at h
    simp only at h
    obtain ⟨h1, h2, h3⟩ := dataLoop_state z.m_tranRules dfuel t fuel _ _ s hl
    have hdst : s.pair.dst = invalidMSecs := by
      rcases h3 with e | ⟨Y, r, hr, hp⟩
      · rw [e]
      · exact ofRule_dst_noMonth hp (hd r (ruleForYear_mem hr))
    have hty : s.type = TimeType.StandardTime := by
      unfold WalkState.type
      rw [hdst, if_neg h1]
    rw [hty] at h
    exact ⟨s.rule, h2, (Option.some.inj h).symm⟩

/-- The only way `data` does not return, given fuel for all the years down to
MIN_YEAR: the date loop of a year it examines does not end within `dfuel`; the
years above that one had no transition at or before the instant. -/
theorem data_stuck {z : QWinTimeZonePrivate} {fuel dfuel : Nat} {t : Int}
    (hne : z.m_tranRules ≠ [])
    (hlo : -9223372036854775808 ≤ t) (hhi : t ≤ 9223372036854775807)
    (hf : (msecsToDate t).year - MIN_YEAR + 1 ≤ (fuel : Int))
    (h : data z fuel dfuel t = none) :
    ∃ Y r, MIN_YEAR ≤ Y ∧ Y ≤ (msecsToDate t).year ∧
      ruleForYear z.m_tranRules Y = some r ∧
      TransitionTimePair.ofRule dfuel r Y = none ∧
      ∀ Y2 : Int, Y < Y2 → Y2 ≤ (msecsToDate t).year →
        ∃ r2 p2, ruleForYear z.m_tranRules Y2 = some r2 ∧
          TransitionTimePair.ofRule dfuel r2 Y2 = some p2 ∧
          resolveInYear t p2 = maxMSecs := by
  obtain ⟨hy, _⟩ := year_of_msecs_range hlo hhi
  obtain ⟨n, hn⟩ : ∃ n : Nat, (msecsToDate t).year = MIN_YEAR + n :=
    ⟨((msecsToDate t).year - MIN_YEAR).toNat, by omega⟩
  have hloop : dataLoop z.m_tranRules dfuel t fuel (msecsToDate t).year
      ⟨invalidMSecs, invalidMSecs⟩ = none := by
    unfold data dataFrom at h
    cases hl : dataLoop z.m_tranRules dfuel t fuel (msecsToDate t).year
        ⟨invalidMSecs, invalidMSecs⟩ with
    | none => rfl
    | some s => rw [hl] at h; cases h
  obtain ⟨Y, r, h1, h2, h3, h4, h5⟩ := dataLoop_stuck z.m_tranRules dfuel t hne n fuel
    (msecsToDate t).year ⟨invalidMSecs, invalidMSecs⟩ (by omega) (by omega) hloop
  refine ⟨Y, r, ?_, h1, h3, h4, h5⟩
  rcases h2 with e | e
  · exact e
  · omega

/-- The date of a SYSTEMTIME without a month or with an explicit year is
computed without a loop. -/
theorem calculateTransitionForYear_isSome_fixed {rule : SYSTEMTIME}
    (h : rule.wMonth = 0 ∨ rule.wYear ≠ 0) (fuel : Nat) (year bias : Int) :
    ∃ v, calculateTransitionForYear fuel rule year bias = some v := by
  have hd : ∃ date, calculateTransitionLocalDate fuel rule year = some date := by
    unfold calculateTransitionLocalDate
    by_cases hm : rule.wMonth = 0
    · exact ⟨_, by rw [if_pos hm]⟩
    · have hy : rule.wYear ≠ 0 := by
        rcases h with h | h
        · exact absurd h hm
        · exact h
      exact ⟨_, by rw [if_neg hm, if_neg hy]⟩
  obtain ⟨date, hd⟩ := hd
  unfold calculateTransitionForYear
  rw [hd]
  simp only
  split_ifs
  · exact ⟨_, rfl⟩
  · exact ⟨_, rfl⟩

theorem ofRule_isSome_fixed {rule : QWinTransitionRule}
    (hs : rule.standardTimeRule.wMonth = 0 ∨ rule.standardTimeRule.wYear ≠ 0)
    (hd : rule.daylightTimeRule.wMonth = 0 ∨ rule.daylightTimeRule.wYear ≠ 0)
    (fuel : Nat) (year : Int) : ∃ p, TransitionTimePair.ofRule fuel rule year = some p := by
  obtain ⟨s, es⟩ := calculateTransitionForYear_isSome_fixed hs fuel year
    (wrap32 (rule.standardTimeBias + rule.daylightTimeBias))
  obtain ⟨d, ed⟩ := calculateTransitionForYear_isSome_fixed hd fuel year rule.standardTimeBias
  unfold TransitionTimePair.ofRule
  rw [es, ed]
  exact ⟨_, rfl⟩

/-- Zones without daylight time, resolve. For every non-empty table in which
every rule's daylight SYSTEMTIME has month 0 and every instant t, every
result of data(t) has daylightTimeOffset = 0, and isDaylightTime(t) is then
false. With fuel for all the years down to MIN_YEAR, `data` does return,
unless the date loop of a year it examines does not end within `dfuel` (the
years above that one having no transition at or before t); it returns in
particular when no rule has a relative standard SYSTEMTIME with a month, whose
date needs the loop. -/
theorem data_noDaylight (z : QWinTimeZonePrivate) (fuel dfuel : Nat) (t : Int)
    (hne : z.m_tranRules ≠ [])
    (hd : ∀ rule ∈ z.m_tranRules, rule.daylightTimeRule.wMonth = 0)
    (hlo : -9223372036854775808 ≤ t) (hhi : t ≤ 9223372036854775807) :
    (∀ d, data z fuel dfuel t = some d →
      d.daylightTimeOffset = 0 ∧ isDaylightTime z fuel dfuel t = some false) ∧
    ((msecsToDate t).year - MIN_YEAR + 1 ≤ (fuel : Int) → data z fuel dfuel t = none →
      ∃ Y r, MIN_YEAR ≤ Y ∧ Y ≤ (msecsToDate t).year ∧
        ruleForYear z.m_tranRules Y = some r ∧
        TransitionTimePair.ofRule dfuel r Y = none ∧
        ∀ Y2 : Int, Y < Y2 → Y2 ≤ (msecsToDate t).year →
          ∃ r2 p2, ruleForYear z.m_tranRules Y2 = some r2 ∧
            TransitionTimePair.ofRule dfuel r2 Y2 = some p2 ∧
            resolveInYear t p2 = maxMSecs) ∧
    ((msecsToDate t).year - MIN_YEAR + 1 ≤ (fuel : Int) →
      (∀ rule ∈ z.m_tranRules,
        rule.standardTimeRule.wMonth = 0 ∨ rule.standardTimeRule.wYear ≠ 0) →
      ∃ d, data z fuel dfuel t = some d ∧ d.daylightTimeOffset = 0 ∧
        isDaylightTime z fuel dfuel t = some false) := by
  have hflag : ∀ d, data z fuel dfuel t = some d →
      d.daylightTimeOffset = 0 ∧ isDaylightTime z fuel dfuel t = some false := by
    intro d h
    obtain ⟨rule, _, e⟩ := data_standard_of_noDaylight hd h
    have hne2 : ¬ (TimeType.StandardTime = TimeType.DaylightTime) := by decide
    have h0 : d.daylightTimeOffset = 0 := by
      rw [e]
      simp only [ruleToData, hne2, if_false]
    refine ⟨h0, ?_⟩
    unfold isDaylightTime
    rw [h]
    simp only [h0, ne_eq, not_true_eq_false, decide_False]
  refine ⟨hflag, fun hf h => data_stuck hne hlo hhi hf h, ?_⟩
  intro hf hs
  cases h : data z fuel dfuel t with
  | some d => exact ⟨d, rfl, hflag d h⟩
  | none =>
    obtain ⟨Y, r, _, _, hr, hp, _⟩ := data_stuck hne hlo hhi hf h
    have hm := ruleForYear_mem hr
    obtain ⟨p, e⟩ := ofRule_isSome_fixed (hs r hm) (Or.inl (hd r hm)) dfuel Y
    rw [e] at hp
    cases hp

/-- Two instances: the zone without daylight time on 2000-01-01T00:00Z, where
the loop goes back to the return to standard time of 1999 and reports standard
time; and the zone whose only rule has no months on 2023-07-15T12:00Z, with
fuel for all the years. -/
theorem data_noDaylight_sample :
    (data standardOnlyZone 2 1 946684800000
        = some ⟨"SOS", 946684800000, -18000, -18000, 0⟩ ∧
      (⟨"SOS", 946684800000, -18000, -18000, 0⟩ : Data).daylightTimeOffset = 0 ∧
      isDaylightTime standardOnlyZone 2 1 946684800000 = some false) ∧
    ∃ d, data lateZone 292277080 0 1689422400000 = some d ∧ d.daylightTimeOffset = 0 ∧
      isDaylightTime lateZone 292277080 0 1689422400000 = some false :=
  ⟨⟨by decide,
    (data_noDaylight standardOnlyZone 2 1 946684800000 (by decide) (by decide) (by decide)
      (by decide)).1 ⟨"SOS", 946684800000, -18000, -18000, 0⟩ (by decide)⟩,
    (data_noDaylight lateZone 292277080 0 1689422400000 (by decide) (by decide) (by decide)
      (by decide)).2.2 (by decide) (by decide)⟩

/-! ### Walks that find nothing -/

/-- The loop of `nextTransition` goes through `n` years without a transition
after the instant. -/
theorem nextTransitionLoop_pass (rules : List QWinTransitionRule) (dfuel : Nat) (t : Int) :
    ∀ (n fuel : Nat) (year : Int),
      (∀ Y : Int, year ≤ Y → Y < year + n → NothingAfterIn rules dfuel t Y) →
      year + n ≤ MAX_YEAR →
      nextTransitionLoop rules dfuel t (fuel + n) year
        = nextTransitionLoop rules dfuel t fuel (year + n) := by
  intro n
  induction n with
  | zero =>
    intro fuel year _ _
    simp only [Nat.cast_zero, add_zero]
  | succ k ih =>
    intro fuel year H hmax
    obtain ⟨r, p, hr, hz, hp, hnext⟩ := H year (le_refl _) (by push_cast; omega)
    have hstep := nextTransitionLoop_step (t := t) (fuel + k) hr hz hp
    rw [if_pos ⟨hnext, by push_cast at hmax; omega⟩] at hstep
    have e : fuel + (k + 1) = fuel + k + 1 := rfl
    rw [e, hstep, ih fuel (year + 1) (fun Y h1 h2 => H Y (by omega) (by push_cast; omega))
      (by push_cast at hmax; omega)]
    have e2 : year + 1 + (k : Int) = year + ((k + 1 : Nat) : Int) := by
      push_cast
      ring
    rw [e2]

/-- The loop of `previousTransition` goes through `n` years without a
transition before the instant. -/
theorem previousTransitionLoop_pass (rules : List QWinTransitionRule) (dfuel : Nat)
    (t : Int) :
    ∀ (n fuel : Nat) (year : Int),
      (∀ Y : Int, year - n < Y → Y ≤ year → NothingBeforeIn rules dfuel t Y) →
      MIN_YEAR ≤ year - n →
      previousTransitionLoop rules dfuel t (fuel + n) year
        = previousTransitionLoop rules dfuel t fuel (year - n) := by
  intro n
  induction n with
  | zero =>
    intro fuel year _ _
    simp only [Nat.cast_zero, add_zero, sub_zero]
  | succ k ih =>
    intro fuel year H hmin
    obtain ⟨r, p, hr, hz, hp, hnext⟩ := H year (by push_cast; omega) (le_refl _)
    have hstep := previousTransitionLoop_step (t := t) (fuel + k) hr hz hp
    rw [if_pos ⟨hnext, by push_cast at hmin; omega⟩] at hstep
    have e : fuel + (k + 1) = fuel + k + 1 := rfl
    rw [e, hstep, ih fuel (year - 1) (fun Y h1 h2 => H Y (by push_cast; omega) (by omega))
      (by push_cast at hmin; omega)]
    have e2 : year - 1 - (k : Int) = year - ((k + 1 : Nat) : Int) := by
      push_cast
      ring
    rw [e2]

/-- The walk of `nextTransition` returns the invalid result when its loop
returns it or ends with `next` at minMSecs. -/
theorem nextTransition_of_loop {z : QWinTimeZonePrivate} {fuel dfuel : Nat} {t : Int}
    (hne : z.m_tranRules ≠ [])
    (h : nextTransitionLoop z.m_tranRules dfuel t fuel (msecsToDate t).year = some none ∨
      ∃ s, nextTransitionLoop z.m_tranRules dfuel t fuel (msecsToDate t).year = some (some s)
        ∧ s.next = minMSecs) :
    nextTransition z fuel dfuel t = some invalidData := by
  obtain ⟨_, last, _, hl, _, _, _⟩ := head_getLast_of_ne_nil hne
  obtain ⟨rule, hr⟩ := ruleForYear_isSome hne (msecsToDate t).year
  unfold nextTransition nextTransitionWalk
  simp only [hl, hr, Option.map_some']
  rcases h with h | ⟨s, h, hs⟩
  · rw [h]
    cases noMoreTransitions rule <;> split_ifs <;> rfl
  · rw [h]
    simp only [hs, true_or, if_true]
    cases noMoreTransitions rule <;> split_ifs <;> rfl

/-- The walk of `previousTransition` returns the invalid result when its loop
returns it or ends with `next` at maxMSecs. -/
theorem previousTransition_of_loop {z : QWinTimeZonePrivate} {fuel dfuel : Nat} {t : Int}
    (hne : z.m_tranRules ≠ [])
    (h : previousTransitionLoop z.m_tranRules dfuel t fuel (msecsToDate t).year = some none ∨
      ∃ s, previousTransitionLoop z.m_tranRules dfuel t fuel (msecsToDate t).year
        = some (some s) ∧ s.next = maxMSecs) :
    previousTransition z fuel dfuel t = some invalidData := by
  obtain ⟨first, _, hf, _, _, _, _⟩ := head_getLast_of_ne_nil hne
  obtain ⟨rule, hr⟩ := ruleForYear_isSome hne (msecsToDate t).year
  unfold previousTransition previousTransitionWalk
  simp only [hf, hr, Option.map_some']
  rcases h with h | ⟨s, h, hs⟩
  · rw [h]
    cases noMoreTransitions rule <;> split_ifs <;> rfl
  · rw [h]
    simp only [hs, if_true]
    cases noMoreTransitions rule <;> split_ifs <;> rfl

/-- C24: walks that find nothing. On a non-empty table, when the forward walk
of nextTransition, after n years without a transition after t, comes to a
year (not after MAX_YEAR) whose rule has month 0 in both SYSTEMTIMEs, or to
MAX_YEAR itself without a transition after t, the result is invalid; and when
the backward walk of previousTransition, after n years without a transition
before t, comes to a year (not before MIN_YEAR) whose rule has month 0 in both
SYSTEMTIMEs, or to MIN_YEAR itself without a transition before t, the result
is invalid. n + 1 rounds of the loop give the result. -/
theorem walks_exhausted (z : QWinTimeZonePrivate) (fuel dfuel : Nat) (t : Int)
    (hne : z.m_tranRules ≠ []) :
    (∀ n : Nat, n + 1 ≤ fuel → (msecsToDate t).year + n ≤ MAX_YEAR →
      (∀ Y : Int, (msecsToDate t).year ≤ Y → Y < (msecsToDate t).year + n →
        NothingAfterIn z.m_tranRules dfuel t Y) →
      (NoMonthsIn z.m_tranRules ((msecsToDate t).year + n) ∨
        ((msecsToDate t).year + n = MAX_YEAR ∧
          NothingAfterIn z.m_tranRules dfuel t MAX_YEAR)) →
      nextTransition z fuel dfuel t = some invalidData) ∧
    (∀ n : Nat, n + 1 ≤ fuel → MIN_YEAR ≤ (msecsToDate t).year - n →
      (∀ Y : Int, (msecsToDate t).year - n < Y → Y ≤ (msecsToDate t).year →
        NothingBeforeIn z.m_tranRules dfuel t Y) →
      (NoMonthsIn z.m_tranRules ((msecsToDate t).year - n) ∨
        ((msecsToDate t).year - n = MIN_YEAR ∧
          NothingBeforeIn z.m_tranRules dfuel t MIN_YEAR)) →
      previousTransition z fuel dfuel t = some invalidData) := by
  constructor
  · intro n hf hmax H hend
    obtain ⟨m, rfl⟩ : ∃ m, fuel = (m + 1) + n := ⟨fuel - n - 1, by omega⟩
    apply nextTransition_of_loop hne
    rw [nextTransitionLoop_pass z.m_tranRules dfuel t n (m + 1) _ H hmax]
    rcases hend with ⟨r, hr, hs, hd⟩ | ⟨he, r, p, hr, hz, hp, hnext⟩
    · left
      rw [nextTransitionLoop]
      simp only [hr, hs, hd, and_self, if_true]
    · right
      rw [he]
      have hstep := nextTransitionLoop_step (t := t) m hr hz hp
      have hno : ¬ (nextInYear t p = minMSecs ∧ MAX_YEAR + 1 ≤ MAX_YEAR) := by
        intro hc
        have := hc.2
        omega
      rw [if_neg hno] at hstep
      exact ⟨_, hstep, hnext⟩
  · intro n hf hmin H hend
    obtain ⟨m, rfl⟩ : ∃ m, fuel = (m + 1) + n := ⟨fuel - n - 1, by omega⟩
    apply previousTransition_of_loop hne
    rw [previousTransitionLoop_pass z.m_tranRules dfuel t n (m + 1) _ H hmin]
    rcases hend with ⟨r, hr, hs, hd⟩ | ⟨he, r, p, hr, hz, hp, hnext⟩
    · left
      rw [previousTransitionLoop]
      simp only [hr, hs, hd, and_self, if_true]
    · right
      rw [he]
      have hstep := previousTransitionLoop_step (t := t) m hr hz hp
      have hno : ¬ (previousInYear t p = maxMSecs ∧ MIN_YEAR - 1 ≥ MIN_YEAR) := by
        intro hc
        have := hc.2
        omega
      rw [if_neg hno] at hstep
      exact ⟨_, hstep, hnext⟩

/-- Witness of C24: the zone with both switches in spring, asked for the next
transition after the greatest instant, in August of MAX_YEAR; and the zone
whose only rule has no months, asked for the previous transition before
2023-07-15T12:00Z. -/
theorem walks_exhausted_witness :
    nextTransition springZone 1 1 9223372036854775807 = some invalidData ∧
    previousTransition lateZone 1 0 1689422400000 = some invalidData :=
  ⟨(walks_exhausted springZone 1 1 9223372036854775807 (by decide)).1 0 (by decide)
      (by decide) (fun Y h1 h2 => by simp only [Nat.cast_zero, add_zero] at h2; omega)
      (Or.inr ⟨by decide,
        ⟨MIN_YEAR, 300, -60, relativeRule 5 0 1 2, relativeRule 3 0 2 2⟩,
        ⟨9223372027778400000, 9223372022943600000⟩, by decide, by decide, by decide,
        by decide⟩),
    (walks_exhausted lateZone 1 0 1689422400000 (by decide)).2 0 (by decide)
      (by decide) (fun Y h1 h2 => by simp only [Nat.cast_zero, sub_zero] at h1; omega)
      (Or.inl ⟨⟨2000, -60, 0, noTransition, noTransition⟩, by decide, rfl, rfl⟩)⟩

/-! ### The year loops of the walks are bounded -/

/-- The only way the loop of `nextTransition` does not return, given fuel for
all the years up to MAX_YEAR: the date loop of a year it examines does not end
within `dfuel`; the years below that one had no transition after the
instant. -/
theorem nextTransitionLoop_stuck (rules : List QWinTransitionRule) (dfuel : Nat) (t : Int)
    (hne : rules ≠ []) :
    ∀ (n fuel : Nat) (year : Int), MAX_YEAR ≤ year + n → n + 1 ≤ fuel →
      nextTransitionLoop rules dfuel t fuel year = none →
      ∃ Y r, year ≤ Y ∧ (Y ≤ MAX_YEAR ∨ Y = year) ∧ ruleForYear rules Y = some r ∧
        TransitionTimePair.ofRule dfuel r Y = none ∧
        ∀ Y2 : Int, year ≤ Y2 → Y2 < Y → NothingAfterIn rules dfuel t Y2 := by
  intro n
  induction n with
  | zero =>
    intro fuel year hy hf h
    obtain ⟨m, rfl⟩ : ∃ m, fuel = m + 1 := ⟨fuel - 1, by omega⟩
    obtain ⟨rule, hr⟩ := ruleForYear_isSome hne year
    rw [nextTransitionLoop] at h
    rw [hr] at h
    simp only at h
    by_cases hz : rule.standardTimeRule.wMonth = 0 ∧ rule.daylightTimeRule.wMonth = 0
    · rw [if_pos hz] at h
      cases h
    · rw [if_neg hz] at h
      cases hp : TransitionTimePair.ofRule dfuel rule year with
      | none =>
        exact ⟨year, rule, le_refl _, Or.inr rfl, hr, hp, fun Y2 h1 h2 => by omega⟩
      | some pair =>
        rw [hp] at h
        simp only at h
        have hc : ¬ (nextInYear t pair = minMSecs ∧ year + 1 ≤ MAX_YEAR) := by
          intro hc
          have := hc.2
          simp only [Nat.cast_zero, add_zero] at hy
          omega
        rw [if_neg hc] at h
        cases h
  | succ k ih =>
    intro fuel year hy hf h
    obtain ⟨m, rfl⟩ : ∃ m, fuel = m + 1 := ⟨fuel - 1, by omega⟩
    obtain ⟨rule, hr⟩ := ruleForYear_isSome hne year
    rw [nextTransitionLoop] at h
    rw [hr] at h
    simp only at h
    by_cases hz : rule.standardTimeRule.wMonth = 0 ∧ rule.daylightTimeRule.wMonth = 0
    · rw [if_pos hz] at h
      cases h
    · rw [if_neg hz] at h
      cases hp : TransitionTimePair.ofRule dfuel rule year with
      | none =>
        exact ⟨year, rule, le_refl _, Or.inr rfl, hr, hp, fun Y2 h1 h2 => by omega⟩
      | some pair =>
        rw [hp] at h
        simp only at h
        by_cases hc : nextInYear t pair = minMSecs ∧ year + 1 ≤ MAX_YEAR
        · rw [if_pos hc] at h
          obtain ⟨Y, r, h1, h2, h3, h4, h5⟩ :=
            ih m (year + 1) (by push_cast at hy ⊢; omega) (by omega) h
          refine ⟨Y, r, by omega, ?_, h3, h4, ?_⟩
          · rcases h2 with e | e
            · exact Or.inl e
            · left
              have := hc.2
              omega
          · intro Y2 hle hlt
            by_cases he : Y2 = year
            · subst he
              exact ⟨rule, pair, hr, hz, hp, hc.1⟩
            · exact h5 Y2 (by omega) hlt
        · rw [if_neg hc] at h
          cases h

/-- The only way the loop of `previousTransition` does not return, given fuel
for all the years down to MIN_YEAR: the date loop of a year it examines does
not end within `dfuel`; the years above that one had no transition before the
instant. -/
theorem previousTransitionLoop_stuck (rules : List QWinTransitionRule) (dfuel : Nat)
    (t : Int) (hne : rules ≠ []) :
    ∀ (n fuel : Nat) (year : Int), year ≤ MIN_YEAR + n → n + 1 ≤ fuel →
      previousTransitionLoop rules dfuel t fuel year = none →
      ∃ Y r, Y ≤ year ∧ (MIN_YEAR ≤ Y ∨ Y = year) ∧ ruleForYear rules Y = some r ∧
        TransitionTimePair.ofRule dfuel r Y = none ∧
        ∀ Y2 : Int, Y < Y2 → Y2 ≤ year → NothingBeforeIn rules dfuel t Y2 := by
  intro n
  induction n with
  | zero =>
    intro fuel year hy hf h
    obtain ⟨m, rfl⟩ : ∃ m, fuel = m + 1 := ⟨fuel - 1, by omega⟩
    obtain ⟨rule, hr⟩ := ruleForYear_isSome hne year
    rw [previousTransitionLoop] at h
    rw [hr] at h
    simp only at h
    by_cases hz : rule.standardTimeRule.wMonth = 0 ∧ rule.daylightTimeRule.wMonth = 0
    · rw [if_pos hz] at h
      cases h
    · rw [if_neg hz] at h
      cases hp : TransitionTimePair.ofRule dfuel rule year with
      | none =>
        exact ⟨year, rule, le_refl _, Or.inr rfl, hr, hp, fun Y2 h1 h2 => by omega⟩
      | some pair =>
        rw [hp] at h
        simp only at h
        have hc : ¬ (previousInYear t pair = maxMSecs ∧ year - 1 ≥ MIN_YEAR) := by
          intro hc
          have := hc.2
          simp only [Nat.cast_zero, add_zero] at hy
          omega
        rw [if_neg hc] at h
        cases h
  | succ k ih =>
    intro fuel year hy hf h
    obtain ⟨m, rfl⟩ : ∃ m, fuel = m + 1 := ⟨fuel - 1, by omega⟩
    obtain ⟨rule, hr⟩ := ruleForYear_isSome hne year
    rw [previousTransitionLoop] at h
    rw [hr] at h
    simp only at h
    by_cases hz : rule.standardTimeRule.wMonth = 0 ∧ rule.daylightTimeRule.wMonth = 0
    · rw [if_pos hz] at h
      cases h
    · rw [if_neg hz] at h
      cases hp : TransitionTimePair.ofRule dfuel rule year with
      | none =>
        exact ⟨year, rule, le_refl _, Or.inr rfl, hr, hp, fun Y2 h1 h2 => by omega⟩
      | some pair =>
        rw [hp] at h
        simp only at h
        by_cases hc : previousInYear t pair = maxMSecs ∧ year - 1 ≥ MIN_YEAR
        · rw [if_pos hc] at h
          obtain ⟨Y, r, h1, h2, h3, h4, h5⟩ :=
            ih m (year - 1) (by push_cast at hy ⊢; omega) (by omega) h
          refine ⟨Y, r, by omega, ?_, h3, h4, ?_⟩
          · rcases h2 with e | e
            · exact Or.inl e
            · left
              have := hc.2
              omega
          · intro Y2 hlt hle
            by_cases he : Y2 = year
            · subst he
              exact ⟨rule, pair, hr, hz, hp, hc.1⟩
            · exact h5 Y2 hlt (by omega)
        · rw [if_neg hc] at h
          cases h

/-! ### The year 0 -/

/-- In the year 0, which the calendar of QDate does not have, the relative
branch starts its loop from "no date". -/
theorem relativeStartDate_year0 (rule : SYSTEMTIME) :
    relativeStartDate rule 0 = QDate.null := by
  have h0 : QDate.ofYMD 0 rule.wMonth 1 = QDate.null := by
    unfold QDate.ofYMD QDate.isValidYMD
    simp only [if_true, Bool.false_eq_true, if_false]
  unfold relativeStartDate
  simp only [h0]
  split_ifs <;>
    rw [addDays_of_invalid _ null_not_valid, addDays_of_invalid _ null_not_valid]

/-- The date of a relative SYSTEMTIME with a month is never computed for the
year 0: the loop `while (date.month() != time.wMonth)` does not end. -/
theorem calculateTransitionLocalDate_year0 {rule : SYSTEMTIME} (hm : rule.wMonth ≠ 0)
    (hy : rule.wYear = 0) (fuel : Nat) : calculateTransitionLocalDate fuel rule 0 = none := by
  unfold calculateTransitionLocalDate
  rw [if_neg hm, if_pos hy, relativeStartDate_year0]
  exact backIntoMonth_null hm fuel

theorem calculateTransitionForYear_year0 {rule : SYSTEMTIME} (hm : rule.wMonth ≠ 0)
    (hy : rule.wYear = 0) (fuel : Nat) (bias : Int) :
    calculateTransitionForYear fuel rule 0 bias = none := by
  unfold calculateTransitionForYear
  rw [calculateTransitionLocalDate_year0 hm hy]

/-- The pair of a rule with a relative SYSTEMTIME that has a month is never
computed for the year 0. -/
theorem ofRule_year0 {rule : QWinTransitionRule}
    (h : (rule.standardTimeRule.wMonth ≠ 0 ∧ rule.standardTimeRule.wYear = 0) ∨
      (rule.daylightTimeRule.wMonth ≠ 0 ∧ rule.daylightTimeRule.wYear = 0)) (fuel : Nat) :
    TransitionTimePair.ofRule fuel rule 0 = none := by
  unfold TransitionTimePair.ofRule
  rcases h with ⟨hm, hy⟩ | ⟨hm, hy⟩
  · rw [calculateTransitionForYear_year0 hm hy]
  · rw [calculateTransitionForYear_year0 hm hy fuel rule.standardTimeBias]
    cases calculateTransitionForYear fuel rule.standardTimeRule 0
      (wrap32 (rule.standardTimeBias + rule.daylightTimeBias)) <;> rfl

/-- The pair of the scenario rule in a year, whatever fuel computed it. -/
theorem scenario_pair {dfuel : Nat} {year : Int} {pair P : TransitionTimePair}
    (h1 : TransitionTimePair.ofRule 1 scenarioRule year = some P)
    (h : TransitionTimePair.ofRule dfuel scenarioRule year = some pair) : pair = P := by
  cases dfuel with
  | zero =>
    have h0 : TransitionTimePair.ofRule 0 scenarioRule year = none := by
      unfold TransitionTimePair.ofRule calculateTransitionForYear calculateTransitionLocalDate
      rfl
    rw [h0] at h
    cases h
  | succ n =>
    have := ofRule_mono (Nat.succ_le_succ (Nat.zero_le n)) h1
    rw [this] at h
    exact (Option.some.inj h).symm

/-- C29: the loops are not bounded for every instant. In the scenario zone (one
US-like rule from MIN_YEAR), at 0001-01-15T00:00Z the loops of data and of
previousTransition find no transition in the year 1 and go on to the year 0,
and from -0001-12-15T00:00Z the loop of nextTransition finds none in the year
-1 and goes on to the year 0; there QDate(0, month, 1) is not a date, the date
loop of calculateTransitionLocalDate never ends, and none of the three
functions returns, whatever the fuel. -/
theorem walks_hang_at_year0 (fuel dfuel : Nat) :
    (msecsToDate (-62134387200000)).year = 1 ∧
    (msecsToDate (-62137065600000)).year = -1 ∧
    data scenarioZone fuel dfuel (-62134387200000) = none ∧
    previousTransition scenarioZone fuel dfuel (-62134387200000) = none ∧
    nextTransition scenarioZone fuel dfuel (-62137065600000) = none := by
  have hy1 : (msecsToDate (-62134387200000)).year = 1 := by decide
  have hy2 : (msecsToDate (-62137065600000)).year = -1 := by decide
  have hrule : ∀ y, ruleForYear scenarioZone.m_tranRules y = some scenarioRule :=
    fun y => ruleForYear_single _ _
  have hmonths : ¬ (scenarioRule.standardTimeRule.wMonth = 0 ∧
      scenarioRule.daylightTimeRule.wMonth = 0) := by decide
  have hp1 : TransitionTimePair.ofRule 1 scenarioRule 1
      = some ⟨-62109050400000, -62129610000000⟩ := by decide
  have hpm : TransitionTimePair.ofRule 1 scenarioRule (-1)
      = some ⟨-62140500000000, -62161059600000⟩ := by decide
  have h0 : TransitionTimePair.ofRule dfuel scenarioRule 0 = none :=
    ofRule_year0 (Or.inl ⟨by decide, by decide⟩) dfuel
  have hdata : ∀ pair0, dataLoop scenarioZone.m_tranRules dfuel (-62134387200000) fuel 1 pair0
      = none := by
    intro pair0
    cases fuel with
    | zero => rfl
    | succ n =>
      rw [dataLoop]
      simp only [hrule, hmonths, if_false]
      cases hp : TransitionTimePair.ofRule dfuel scenarioRule 1 with
      | none => rfl
      | some pair =>
        have e := scenario_pair hp1 hp
        subst e
        have hres : resolveInYear (-62134387200000) ⟨-62109050400000, -62129610000000⟩
            = maxMSecs := by decide
        have hge : (1 : Int) - 1 ≥ MIN_YEAR := by decide
        simp only [hres, hge, and_self, if_true]
        have e0 : (1 : Int) - 1 = 0 := rfl
        rw [e0]
        cases n with
        | zero => rfl
        | succ m =>
          rw [dataLoop]
          simp only [hrule, hmonths, if_false, h0]
  have hprev : previousTransitionLoop scenarioZone.m_tranRules dfuel (-62134387200000) fuel 1
      = none := by
    cases fuel with
    | zero => rfl
    | succ n =>
      rw [previousTransitionLoop]
      simp only [hrule, hmonths, if_false]
      cases hp : TransitionTimePair.ofRule dfuel scenarioRule 1 with
      | none => rfl
      | some pair =>
        have e := scenario_pair hp1 hp
        subst e
        have hres : previousInYear (-62134387200000) ⟨-62109050400000, -62129610000000⟩
            = maxMSecs := by decide
        have hge : (1 : Int) - 1 ≥ MIN_YEAR := by decide
        simp only [hres, hge, and_self, if_true]
        have e0 : (1 : Int) - 1 = 0 := rfl
        rw [e0]
        cases n with
        | zero => rfl
        | succ m =>
          rw [previousTransitionLoop]
          simp only [hrule, hmonths, if_false, h0]
  have hnext : nextTransitionLoop scenarioZone.m_tranRules dfuel (-62137065600000) fuel (-1)
      = none := by
    cases fuel with
    | zero => rfl
    | succ n =>
      rw [nextTransitionLoop]
      simp only [hrule, hmonths, if_false]
      cases hp : TransitionTimePair.ofRule dfuel scenarioRule (-1) with
      | none => rfl
      | some pair =>
        have e := scenario_pair hpm hp
        subst e
        have hres : nextInYear (-62137065600000) ⟨-62140500000000, -62161059600000⟩
            = minMSecs := by decide
        have hle : (-1 : Int) + 1 ≤ MAX_YEAR := by decide
        simp only [hres, hle, and_self, if_true]
        have e0 : (-1 : Int) + 1 = 0 := rfl
        rw [e0]
        cases n with
        | zero => rfl
        | succ m =>
          rw [nextTransitionLoop]
          simp only [hrule, hmonths, if_false, h0]
  refine ⟨hy1, hy2, ?_, ?_, ?_⟩
  · unfold data dataFrom
    rw [hy1, hdata]
  · have hf : scenarioZone.m_tranRules.head? = some scenarioRule := rfl
    have hlt : ¬ ((1 : Int) < scenarioRule.startYear) := by decide
    unfold previousTransition previousTransitionWalk
    simp only [hy1, hf, hlt, if_false, hprev]
  · have hl : scenarioZone.m_tranRules.getLast? = some scenarioRule := rfl
    have hgt : (-1 : Int) > scenarioRule.startYear := by decide
    have hx : noMoreTransitions scenarioRule = false := by decide
    unfold nextTransition nextTransitionWalk
    simp only [hy2, hl, hgt, if_true, hrule, Option.map_some', hx, hnext]

/-- C22 (the failing input): `data` does not return for every instant of a
zone without daylight time. In the zone whose two rules have no daylight month
and return to standard time on the last Sunday of October (a table init
builds: first rule from MIN_YEAR, start years increasing), at
0001-01-15T00:00Z the return of the year 1 is still ahead, the loop steps to
the year 0, QDate(0, 10, 1) is not a date and the date loop of
calculateTransitionLocalDate never ends: whatever the fuel there is no Data
whose daylightTimeOffset could be 0, and isDaylightTime has no answer. -/
theorem data_noDaylight_hang_at_year0 (fuel dfuel : Nat) :
    standardOnlyZone.m_tranRules ≠ [] ∧
    StrictlyIncreasing standardOnlyZone.m_tranRules ∧
    (∀ rule ∈ standardOnlyZone.m_tranRules, rule.daylightTimeRule.wMonth = 0) ∧
    (msecsToDate (-62134387200000)).year = 1 ∧
    data standardOnlyZone fuel dfuel (-62134387200000) = none ∧
    isDaylightTime standardOnlyZone fuel dfuel (-62134387200000) = none := by
  have hy1 : (msecsToDate (-62134387200000)).year = 1 := by decide
  have hr1 : ruleForYear standardOnlyZone.m_tranRules 1
      = some ⟨MIN_YEAR, 300, -60, relativeRule 10 0 5 2, noTransition⟩ := by decide
  have hr0 : ruleForYear standardOnlyZone.m_tranRules 0
      = some ⟨MIN_YEAR, 300, -60, relativeRule 10 0 5 2, noTransition⟩ := by decide
  have hmonths : ¬ ((⟨MIN_YEAR, 300, -60, relativeRule 10 0 5 2, noTransition⟩ :
      QWinTransitionRule).standardTimeRule.wMonth = 0 ∧
      (⟨MIN_YEAR, 300, -60, relativeRule 10 0 5 2, noTransition⟩ :
        QWinTransitionRule).daylightTimeRule.wMonth = 0) := by decide
  have hp1 : TransitionTimePair.ofRule 2
      ⟨MIN_YEAR, 300, -60, relativeRule 10 0 5 2, noTransition⟩ 1
      = some ⟨-62109655200000, invalidMSecs⟩ := by decide
  have h0 : TransitionTimePair.ofRule dfuel
      ⟨MIN_YEAR, 300, -60, relativeRule 10 0 5 2, noTransition⟩ 0 = none :=
    ofRule_year0 (Or.inl ⟨by decide, by decide⟩) dfuel
  have hdata : data standardOnlyZone fuel dfuel (-62134387200000) = none := by
    unfold data dataFrom
    rw [hy1]
    have hloop : dataLoop standardOnlyZone.m_tranRules dfuel (-62134387200000) fuel 1
        ⟨invalidMSecs, invalidMSecs⟩ = none := by
      cases fuel with
      | zero => rfl
      | succ n =>
        rw [dataLoop]
        simp only [hr1, hmonths, if_false]
        cases hp : TransitionTimePair.ofRule dfuel
            ⟨MIN_YEAR, 300, -60, relativeRule 10 0 5 2, noTransition⟩ 1 with
        | none => rfl
        | some pair =>
          have e := ofRule_unique hp hp1
          subst e
          have hres : resolveInYear (-62134387200000) ⟨-62109655200000, invalidMSecs⟩
              = maxMSecs := by decide
          have hge : (1 : Int) - 1 ≥ MIN_YEAR := by decide
          simp only [hres, hge, and_self, if_true]
          have e0 : (1 : Int) - 1 = 0 := rfl
          rw [e0]
          cases n with
          | zero => rfl
          | succ m =>
            rw [dataLoop]
            simp only [hr0, hmonths, if_false, h0]
    rw [hloop]
  refine ⟨by decide, by decide, by decide, hy1, hdata, ?_⟩
  unfold isDaylightTime
  rw [hdata]

/-! ### The flag at a transition -/

theorem ofRule_lower {fuel : Nat} {rule : QWinTransitionRule} {year : Int}
    {pair : TransitionTimePair} (h : TransitionTimePair.ofRule fuel rule year = some pair) :
    -9223372036854775808 ≤ pair.std ∧ -9223372036854775808 ≤ pair.dst := by
  unfold TransitionTimePair.ofRule at h
  cases hs : calculateTransitionForYear fuel rule.standardTimeRule year
      (wrap32 (rule.standardTimeBias + rule.daylightTimeBias)) with
  | none => rw [hs] at h; cases h
  | some s =>
    rw [hs] at h
    cases hd : calculateTransitionForYear fuel rule.daylightTimeRule year
        rule.standardTimeBias with
    | none => rw [hd] at h; cases h
    | some d =>
      rw [hd] at h
      cases h
      exact ⟨(calculateTransitionForYear_range hs).1, (calculateTransitionForYear_range hd).1⟩

/-- The pair of a rule whose standard SYSTEMTIME has no month has no instant
into standard time. -/
theorem ofRule_std_noMonth {fuel : Nat} {rule : QWinTransitionRule} {year : Int}
    {pair : TransitionTimePair} (h : TransitionTimePair.ofRule fuel rule year = some pair)
    (hs : rule.standardTimeRule.wMonth = 0) : pair.std = invalidMSecs := by
  unfold TransitionTimePair.ofRule at h
  rw [calculateTransitionForYear_noMonth fuel year _ hs] at h
  simp only at h
  cases hd : calculateTransitionForYear fuel rule.daylightTimeRule year
      rule.standardTimeBias with
  | none => rw [hd] at h; cases h
  | some d =>
    rw [hd] at h
    cases h
    rfl

/-- A round of `data` that finds the instant at or after `second`. -/
theorem dataFrom_second {z : QWinTimeZonePrivate} {dfuel : Nat} {t year : Int} (fuel : Nat)
    (pair0 : TransitionTimePair) {rule : QWinTransitionRule} {pair : TransitionTimePair}
    (hr : ruleForYear z.m_tranRules year = some rule)
    (hz : ¬ (rule.standardTimeRule.wMonth = 0 ∧ rule.daylightTimeRule.wMonth = 0))
    (hp : TransitionTimePair.ofRule dfuel rule year = some pair)
    (h : t ≥ pair.second ∧ pair.second ≠ invalidMSecs) :
    dataFrom z (fuel + 1) dfuel t year pair0 = some (ruleToData z rule t
      (if pair.second = pair.dst then TimeType.DaylightTime else TimeType.StandardTime)) := by
  obtain ⟨_, hs, _⟩ := pair_ne_sentinels hp
  have hstep := dataLoop_step (t := t) fuel pair0 hr hz hp
  have hres : resolveInYear t pair = pair.second := by
    unfold resolveInYear
    rw [if_pos h]
  rw [hres, if_neg (fun hc => hs hc.1)] at hstep
  unfold dataFrom
  rw [hstep]
  rfl

/-- A round of `data` that finds the instant at or after `first` only. -/
theorem dataFrom_first {z : QWinTimeZonePrivate} {dfuel : Nat} {t year : Int} (fuel : Nat)
    (pair0 : TransitionTimePair) {rule : QWinTransitionRule} {pair : TransitionTimePair}
    (hr : ruleForYear z.m_tranRules year = some rule)
    (hz : ¬ (rule.standardTimeRule.wMonth = 0 ∧ rule.daylightTimeRule.wMonth = 0))
    (hp : TransitionTimePair.ofRule dfuel rule year = some pair)
    (h1 : ¬ (t ≥ pair.second ∧ pair.second ≠ invalidMSecs))
    (h2 : t ≥ pair.first ∧ pair.first ≠ invalidMSecs) :
    dataFrom z (fuel + 1) dfuel t year pair0 = some (ruleToData z rule t
      (if pair.first = pair.dst then TimeType.DaylightTime else TimeType.StandardTime)) := by
  obtain ⟨hf, _, _⟩ := pair_ne_sentinels hp
  have hstep := dataLoop_step (t := t) fuel pair0 hr hz hp
  have hres : resolveInYear t pair = pair.first := by
    unfold resolveInYear
    rw [if_neg h1, if_pos h2]
  rw [hres, if_neg (fun hc => hf hc.1)] at hstep
  unfold dataFrom
  rw [hstep]
  rfl

/-- A round of `data` that finds the instant before both instants of the year
and goes on to the year before. -/
theorem dataFrom_next {z : QWinTimeZonePrivate} {dfuel : Nat} {t year : Int} (fuel : Nat)
    (pair0 : TransitionTimePair) {rule : QWinTransitionRule} {pair : TransitionTimePair}
    (hr : ruleForYear z.m_tranRules year = some rule)
    (hz : ¬ (rule.standardTimeRule.wMonth = 0 ∧ rule.daylightTimeRule.wMonth = 0))
    (hp : TransitionTimePair.ofRule dfuel rule year = some pair)
    (h1 : ¬ (t ≥ pair.second ∧ pair.second ≠ invalidMSecs))
    (h2 : ¬ (t ≥ pair.first ∧ pair.first ≠ invalidMSecs))
    (h3 : MIN_YEAR ≤ year - 1) :
    dataFrom z (fuel + 1) dfuel t year pair0 = dataFrom z fuel dfuel t (year - 1) pair := by
  have hstep := dataLoop_step (t := t) fuel pair0 hr hz hp
  have hres : resolveInYear t pair = maxMSecs := by
    unfold resolveInYear
    rw [if_neg h1, if_neg h2]
  rw [hres, if_pos ⟨rfl, h3⟩] at hstep
  unfold dataFrom
  rw [hstep]

/-- The flag of isDaylightTime on the data of a rule whose daylight offset is
not 0: set for daylight time only. -/
theorem isDaylightTime_of_dataFrom {z : QWinTimeZonePrivate} {fuel dfuel : Nat} {t : Int}
    {rule : QWinTransitionRule} {b : Prop} [Decidable b]
    (hb : wrap32 (rule.daylightTimeBias * -60) ≠ 0)
    (h : dataFrom z fuel dfuel t (msecsToDate t).year ⟨invalidMSecs, invalidMSecs⟩
      = some (ruleToData z rule t
        (if b then TimeType.DaylightTime else TimeType.StandardTime))) :
    isDaylightTime z fuel dfuel t = some (decide b) := by
  unfold isDaylightTime data
  rw [h]
  simp only [ruleToData]
  by_cases hc : b
  · simp only [hc, if_true, decide_True, ne_eq, hb, not_false_eq_true]
  · have hne : ¬ (TimeType.StandardTime = TimeType.DaylightTime) := by decide
    simp only [hc, if_false, hne, decide_False, ne_eq, not_true_eq_false]

/-- C26 fails as stated, in four ways, each in a single-rule recurring table
and a year with two valid transitions. With a daylight bias of 0 the flag is
never set (2023). When the two instants are equal the flag is set before, at
and after them (2023). When the first instant of 2023, 00:00 local time of
1 January one hour east of UTC, falls in the calendar year 2022, `data` looks
at the pair of 2022 and reports standard time before it and at it. When the
order of the two switches changes from 2021 to 2022, standard time is in
effect before the first instant of 2022, the return to standard time, as at
it. -/
theorem data_flag_flip_counterexample :
    (TransitionTimePair.ofRule 1 ⟨MIN_YEAR, 300, 0, relativeRule 11 0 1 2, relativeRule 3 0 2 2⟩
        2023 = some ⟨1699167600000, 1678604400000⟩ ∧
      isDaylightTime zeroBiasZone 2 1 (1678604400000 - 1) = some false ∧
      isDaylightTime zeroBiasZone 2 1 1678604400000 = some false) ∧
    (TransitionTimePair.ofRule 1
        ⟨MIN_YEAR, 300, -60, relativeRule 3 0 2 3, relativeRule 3 0 2 2⟩ 2023
        = some ⟨1678604400000, 1678604400000⟩ ∧
      isDaylightTime sameInstantZone 2 1 (1678604400000 - 1) = some true ∧
      isDaylightTime sameInstantZone 2 1 1678604400000 = some true) ∧
    (TransitionTimePair.ofRule 1
        ⟨MIN_YEAR, -60, -60, relativeRule 7 0 1 2, relativeRule 1 0 1 0⟩ 2023
        = some ⟨1688256000000, 1672527600000⟩ ∧
      (⟨1688256000000, 1672527600000⟩ : TransitionTimePair).first = 1672527600000 ∧
      (msecsToDate 1672527600000).year = 2022 ∧
      isDaylightTime januaryZone 2 1 (1672527600000 - 1) = some false ∧
      isDaylightTime januaryZone 2 1 1672527600000 = some false) ∧
    (TransitionTimePair.ofRule 1
        ⟨MIN_YEAR, 300, -60, relativeRule 3 0 1 2, relativeRule 3 1 1 2⟩ 2022
        = some ⟨1646546400000, 1646636400000⟩ ∧
      TransitionTimePair.ofRule 1
        ⟨MIN_YEAR, 300, -60, relativeRule 3 0 1 2, relativeRule 3 1 1 2⟩ 2021
        = some ⟨1615096800000, 1614582000000⟩ ∧
      (⟨1646546400000, 1646636400000⟩ : TransitionTimePair).first = 1646546400000 ∧
      isDaylightTime weekdayZone 2 1 (1646546400000 - 1) = some false ∧
      isDaylightTime weekdayZone 2 1 1646546400000 = some false) := by
  decide

/-- C26 (amended): flag flip at boundaries. For a single-rule table whose
daylight offset is not 0 and a year y with two valid transitions that differ,
first < second, such that the millisecond before first and second itself both
lie in the calendar year y: isDaylightTime at second is the kind of second
(set when second is the instant into daylight time), and at second - 1 and at
first it is the opposite; and when moreover the year y - 1, not below
MIN_YEAR, has a valid later transition that is before first and of the same
kind as second, isDaylightTime at first - 1 is the kind of second: the flag
differs between first - 1 and first, and between second - 1 and second. -/
theorem data_flag_flip (z : QWinTimeZonePrivate) (rule : QWinTransitionRule) (dfuel : Nat)
    (y : Int) (pair : TransitionTimePair) (hz : z.m_tranRules = [rule])
    (hp : TransitionTimePair.ofRule dfuel rule y = some pair)
    (hs : pair.std ≠ invalidMSecs) (hd : pair.dst ≠ invalidMSecs) (hne : pair.std ≠ pair.dst)
    (hb : wrap32 (rule.daylightTimeBias * -60) ≠ 0)
    (hy1 : (msecsToDate (pair.first - 1)).year = y)
    (hy2 : (msecsToDate pair.second).year = y) :
    (∀ fuel : Nat, 1 ≤ fuel →
      isDaylightTime z fuel dfuel pair.second = some (decide (pair.second = pair.dst)) ∧
      isDaylightTime z fuel dfuel (pair.second - 1)
        = some (!decide (pair.second = pair.dst)) ∧
      isDaylightTime z fuel dfuel pair.first = some (!decide (pair.second = pair.dst))) ∧
    (∀ (fuel : Nat) (pair2 : TransitionTimePair), 2 ≤ fuel → MIN_YEAR ≤ y - 1 →
      TransitionTimePair.ofRule dfuel rule (y - 1) = some pair2 →
      pair2.second ≠ invalidMSecs → pair2.second < pair.first →
      (pair2.second = pair2.dst ↔ pair.second = pair.dst) →
      isDaylightTime z fuel dfuel (pair.first - 1) = some (decide (pair.second = pair.dst))) := by
  have hrule : ∀ Y, ruleForYear z.m_tranRules Y = some rule := by
    intro Y
    rw [hz]
    exact ruleForYear_single _ _
  have hmonths : ¬ (rule.standardTimeRule.wMonth = 0 ∧ rule.daylightTimeRule.wMonth = 0) :=
    fun hc => hs (ofRule_std_noMonth hp hc.1)
  obtain ⟨hlo1, hlo2⟩ := ofRule_lower hp
  obtain ⟨hhi1, hhi2⟩ := ofRule_range hp
  obtain ⟨hev1, hev2⟩ := ofRule_even hp
  have hle := first_le_second pair
  unfold invalidMSecs at hs hd
  -- the facts about first and second, by the order of std and dst
  have hfacts : pair.first < pair.second ∧ pair.first ≠ invalidMSecs ∧
      pair.second ≠ invalidMSecs ∧ -9223372036854775808 < pair.first - 1 ∧
      pair.second ≤ 9223372036854775807 ∧
      (pair.first = pair.dst ↔ ¬ pair.second = pair.dst) := by
    unfold invalidMSecs
    rcases first_second_cases pair with ⟨e1, e2⟩ | ⟨e1, e2⟩
    · rw [e1, e2] at hle ⊢
      refine ⟨by omega, hs, hd, by omega, hhi2, ?_⟩
      constructor
      · intro h _
        exact hne h
      · intro h
        exact absurd rfl h
    · rw [e1, e2] at hle ⊢
      refine ⟨by omega, hd, hs, by omega, hhi1, ?_⟩
      constructor
      · intro _ h
        exact hne h
      · intro _
        rfl
  obtain ⟨hlt, hfv, hsv, hflo, hshi, hkind⟩ := hfacts
  -- the four instants lie in the calendar year y
  have hyF : (msecsToDate pair.first).year = y := by
    have h1 := @year_of_msecs_mono (pair.first - 1) pair.first hflo (by omega) (by omega)
    have h2 := @year_of_msecs_mono pair.first pair.second (by omega) (by omega) hshi
    omega
  have hyS1 : (msecsToDate (pair.second - 1)).year = y := by
    have h1 := @year_of_msecs_mono (pair.first - 1) (pair.second - 1) hflo (by omega)
      (by omega)
    have h2 := @year_of_msecs_mono (pair.second - 1) pair.second (by omega) (by omega) hshi
    omega
  have hdecF : decide (pair.first = pair.dst) = !decide (pair.second = pair.dst) := by
    by_cases hc : pair.second = pair.dst
    · have : ¬ pair.first = pair.dst := fun h => (hkind.mp h) hc
      simp only [hc, this, decide_True, decide_False, Bool.not_true]
    · have : pair.first = pair.dst := hkind.mpr hc
      simp only [hc, this, decide_True, decide_False, Bool.not_false]
  constructor
  · intro fuel hf
    obtain ⟨n, rfl⟩ : ∃ n, fuel = n + 1 := ⟨fuel - 1, by omega⟩
    refine ⟨?_, ?_, ?_⟩
    · apply isDaylightTime_of_dataFrom hb
      rw [hy2]
      exact dataFrom_second n _ (hrule y) hmonths hp ⟨le_refl _, hsv⟩
    · rw [← hdecF]
      apply isDaylightTime_of_dataFrom hb
      rw [hyS1]
      exact dataFrom_first n _ (hrule y) hmonths hp (fun hc => by have := hc.1; omega)
        ⟨by omega, hfv⟩
    · rw [← hdecF]
      apply isDaylightTime_of_dataFrom hb
      rw [hyF]
      exact dataFrom_first n _ (hrule y) hmonths hp (fun hc => by have := hc.1; omega)
        ⟨le_refl _, hfv⟩
  · intro fuel pair2 hf hmin hp2 hv2 hlt2 hsame
    obtain ⟨n, rfl⟩ : ∃ n, fuel = n + 1 + 1 := ⟨fuel - 2, by omega⟩
    have hdec : decide (pair.second = pair.dst) = decide (pair2.second = pair2.dst) := by
      by_cases hc : pair.second = pair.dst
      · simp only [hc, hsame.mpr hc, decide_True]
      · have : ¬ pair2.second = pair2.dst := fun h => hc (hsame.mp h)
        simp only [hc, this, decide_False]
    rw [hdec]
    apply isDaylightTime_of_dataFrom hb
    rw [hy1, dataFrom_next (n + 1) _ (hrule y) hmonths hp
      (fun hc => by have := hc.1; omega) (fun hc => by have := hc.1; omega) hmin]
    exact dataFrom_second n _ (hrule (y - 1)) hmonths hp2 ⟨by omega, hv2⟩

/-- Witness of C26 (amended): the scenario zone in 2023, whose first instant
is the switch to daylight time of 2023-03-12T07:00Z and whose second is the
return of 2023-11-05T06:00Z; the year 2022 ends in standard time. -/
theorem data_flag_flip_witness :
    (isDaylightTime scenarioZone 2 1 1699164000000 = some false ∧
      isDaylightTime scenarioZone 2 1 (1699164000000 - 1) = some true ∧
      isDaylightTime scenarioZone 2 1 1678604400000 = some true) ∧
    isDaylightTime scenarioZone 2 1 (1678604400000 - 1) = some false := by
  have h := data_flag_flip scenarioZone scenarioRule 1 2023 ⟨1699164000000, 1678604400000⟩
    rfl (by decide) (by decide) (by decide) (by decide) (by decide) (by decide) (by decide)
  exact ⟨h.1 2 (by decide),
    h.2 2 ⟨1667714400000, 1647154800000⟩ (by decide) (by decide) (by decide) (by decide)
      (by decide) (by decide)⟩

/-! ### Round trip of the two calendar conversions -/

/-- C31 fails as stated: on the valid date 106751991167 days after the epoch
(17 August 292278994) the product of the days and MSECS_PER_DAY fits 64 bits,
yet with the valid time 23:59:59.999 the sum passes 2^63 - 1, timeToMSecs, a
qint64, comes out negative, and msecsToDate of it is another date. -/
theorem msecsToDate_timeToMSecs_counterexample :
    (QDate.fromJulianDay 106754431755).isValid = true ∧
    (QTime.ofHMS 23 59 59 999).isValid = true ∧
    -9223372036854775808
      ≤ ((QDate.fromJulianDay 106754431755).toJulianDay - JULIAN_DAY_FOR_EPOCH)
          * MSECS_PER_DAY ∧
    ((QDate.fromJulianDay 106754431755).toJulianDay - JULIAN_DAY_FOR_EPOCH) * MSECS_PER_DAY
      ≤ 9223372036854775807 ∧
    timeToMSecs (QDate.fromJulianDay 106754431755) (QTime.ofHMS 23 59 59 999)
      = -9223372036794351617 ∧
    msecsToDate (timeToMSecs (QDate.fromJulianDay 106754431755) (QTime.ofHMS 23 59 59 999))
      ≠ QDate.fromJulianDay 106754431755 := by
  decide

/-- C31 (amended): for every valid date d and every valid time of day tm for
which neither the product of the days since the epoch and MSECS_PER_DAY nor
its sum with the milliseconds of tm overflows 64 bits,
msecsToDate(timeToMSecs(d, tm)) is d. (A date whose product fits 64 bits is
within the range of QDate, so its validity needs no hypothesis of its own.) -/
theorem msecsToDate_timeToMSecs (d : QDate) (tm : QTime) (ht : tm.isValid = true)
    (hlo : -9223372036854775808 ≤ (d.toJulianDay - JULIAN_DAY_FOR_EPOCH) * MSECS_PER_DAY)
    (hhi : (d.toJulianDay - JULIAN_DAY_FOR_EPOCH) * MSECS_PER_DAY
      + tm.msecsSinceStartOfDay ≤ 9223372036854775807) :
    msecsToDate (timeToMSecs d tm) = d := by
  have hms := msecs_range ht
  have hv : timeToMSecs d tm
      = (d.toJulianDay - JULIAN_DAY_FOR_EPOCH) * MSECS_PER_DAY + tm.msecsSinceStartOfDay :=
    timeToMSecs_of_range d tm (by omega) hhi
  rw [hv]
  unfold JULIAN_DAY_FOR_EPOCH MSECS_PER_DAY QDate.toJulianDay at *
  generalize tm.msecsSinceStartOfDay = ms at *
  have h1 : -9223372036854775808 < (d.jd - 2440588) * 86400000 + ms := by omega
  rw [(msecsToDate_eq h1 hhi).1]
  have h2 : 2440588 + ((d.jd - 2440588) * 86400000 + ms) / 86400000 = d.jd := by omega
  rw [h2]

theorem msecsToDate_timeToMSecs_witness :
    msecsToDate (timeToMSecs (QDate.ofYMD 2019 3 10) (QTime.ofHMS 2 30 15 250))
      = QDate.ofYMD 2019 3 10 :=
  msecsToDate_timeToMSecs (QDate.ofYMD 2019 3 10) (QTime.ofHMS 2 30 15 250) (by decide)
    (by decide) (by decide)

/-- The date whose product with MSECS_PER_DAY is below -2^63 while the sum with
16:47:04.192 is exactly -2^63: timeToMSecs is the least qint64 there, and
msecsToDate of it is not the date. -/
theorem msecsToDate_timeToMSecs_at_least :
    (QDate.fromJulianDay (-106749550580)).isValid = true ∧
    timeToMSecs (QDate.fromJulianDay (-106749550580)) (QTime.ofHMS 16 47 4 192)
      = -9223372036854775808 ∧
    msecsToDate (timeToMSecs (QDate.fromJulianDay (-106749550580)) (QTime.ofHMS 16 47 4 192))
      ≠ QDate.fromJulianDay (-106749550580) := by
  decide

/-! ### The loop of calculateTransitionLocalDate -/

/-- C33 (the failing input): the date loop does not end for every year. For the
second Sunday of March in the year 0, a year `data` and the walks do ask for
(C29), QDate(0, 3, 1) is "no date", every addDays keeps it so and its month is
0, never 3: whatever the number of tests allowed, the loop
`while (date.month() != time.wMonth)` has not ended. -/
theorem dateLoop_hang_at_year0 (fuel : Nat) :
    MIN_YEAR ≤ 0 ∧ 0 ≤ MAX_YEAR ∧
    QDate.ofYMD 0 3 1 = QDate.null ∧
    relativeStartDate (relativeRule 3 0 2 2) 0 = QDate.null ∧
    QDate.null.month = 0 ∧ QDate.null.addDays (-7) = QDate.null ∧
    backIntoMonth 3 fuel QDate.null = none ∧
    calculateTransitionLocalDate fuel (relativeRule 3 0 2 2) 0 = none :=
  ⟨by decide, by decide, by decide, relativeStartDate_year0 _, by decide, by decide,
    backIntoMonth_null (by decide) fuel,
    calculateTransitionLocalDate_year0 (by decide) rfl fuel⟩

/-! ### data at a transition instant -/

/-- C32: for every table and instant t such that n = nextTransition(t) is
valid and the calendar year of n's instant (via msecsToDate) is the year of
the round of the walk that found it, data(n.atMSecsSinceEpoch), with fuel for
one round of its loop, returns n itself: the same standardTimeOffset,
daylightTimeOffset, offsetFromUtc and abbreviation, at the same instant. (A
table with a valid nextTransition is not empty.) -/
theorem data_at_nextTransition (z : QWinTimeZonePrivate) (fuel fuel2 dfuel : Nat) (t : Int)
    (n : Data) (hf : 1 ≤ fuel2)
    (hn : nextTransition z fuel dfuel t = some n) (hnv : n ≠ invalidData)
    (hny : ∀ s, nextTransitionWalk z fuel dfuel t = some (some s) →
      (msecsToDate s.next).year = s.year - 1) :
    z.m_tranRules ≠ [] ∧ data z fuel2 dfuel n.atMSecsSinceEpoch = some n := by
  obtain ⟨s, hw, hd⟩ := nextTransition_state hn hnv
  obtain ⟨hloop, hn1, hn2⟩ := nextTransitionWalk_loop hw
  obtain ⟨Y, _, hsy, hr, hp, hnext, _⟩ :=
    nextTransitionLoop_result z.m_tranRules dfuel t fuel _ s hloop
  have hyear := hny s hw
  have hat : n.atMSecsSinceEpoch = s.next := by rw [hd]; rfl
  have hne : z.m_tranRules ≠ [] := by
    intro he
    unfold nextTransitionWalk at hw
    rw [he] at hw
    cases hw
  refine ⟨hne, ?_⟩
  obtain ⟨f, rfl⟩ : ∃ f, fuel2 = f + 1 := ⟨fuel2 - 1, by omega⟩
  rw [hnext] at hn1
  obtain ⟨hmem, _, _⟩ := nextInYear_spec hn1
  rw [← hnext] at hmem
  have hz : ¬ (s.rule.standardTimeRule.wMonth = 0 ∧ s.rule.daylightTimeRule.wMonth = 0) := by
    rintro ⟨h1, h2⟩
    have e1 := ofRule_std_noMonth hp h1
    have e2 := ofRule_dst_noMonth hp h2
    rcases hmem with e | e <;> rw [e] at hn2
    · exact hn2 e1
    · exact hn2 e2
  have hY : (msecsToDate s.next).year = Y := by omega
  have hle := first_le_second s.pair
  have hcases : s.next = s.pair.first ∨ s.next = s.pair.second := by
    rcases first_second_cases s.pair with ⟨e1, e2⟩ | ⟨e1, e2⟩ <;> rw [e1, e2] <;> tauto
  unfold data
  rw [hat, hY, hd]
  unfold WalkState.type
  by_cases h2 : s.next ≥ s.pair.second ∧ s.pair.second ≠ invalidMSecs
  · rw [dataFrom_second f _ hr hz hp h2]
    have e : s.next = s.pair.second := by
      rcases hcases with e | e
      · omega
      · exact e
    rw [← e]
  · have e : s.next = s.pair.first := by
      rcases hcases with e | e
      · exact e
      · exact absurd ⟨by omega, by rw [← e]; exact hn2⟩ h2
    rw [dataFrom_first f _ hr hz hp h2 ⟨by omega, by rw [← e]; exact hn2⟩, ← e]

/-- Witness of C32: in the scenario zone the next transition after
2023-01-15T12:00Z is that of 2023-03-12T07:00Z into daylight time, found in
the round of 2023, and data at that instant returns the same daylight data. -/
theorem data_at_nextTransition_witness :
    nextTransition scenarioZone 1 1 1673784000000
      = some ⟨"EDT", 1678604400000, -14400, -18000, 3600⟩ ∧
    scenarioZone.m_tranRules ≠ [] ∧
    data scenarioZone 1 1 1678604400000
      = some ⟨"EDT", 1678604400000, -14400, -18000, 3600⟩ :=
  ⟨by decide,
    data_at_nextTransition scenarioZone 1 1 1 1673784000000
      ⟨"EDT", 1678604400000, -14400, -18000, 3600⟩ (by decide) (by decide) (by decide)
      (by
        intro s hs
        have e : nextTransitionWalk scenarioZone 1 1 1673784000000
            = some (some ⟨scenarioRule, 1678604400000, ⟨1699164000000, 1678604400000⟩, 2024⟩) := by
          decide
        rw [e] at hs
        cases hs
        decide)⟩

/-! ### The months in a row -/

/-- Every month has a length of 28 to 31 days, and the day after its last day
is the first of the month after it: the next month of the year, or January of
the year after, the year 1 after the year -1. -/
theorem month_after {y m : Int} (hy : y ≠ 0) (hm1 : 1 ≤ m) (hm12 : m ≤ 12) :
    ∃ len : Int, 28 ≤ len ∧ len ≤ 31 ∧
      (∀ d : Int, 1 ≤ d → d ≤ len → QDate.isValidYMD y m d = true) ∧
      QDate.julianDayFromDate y m 1 + len
        = QDate.julianDayFromDate (if m = 12 then (if y = -1 then 1 else y + 1) else y)
            (if m = 12 then 1 else m + 1) 1 := by
  by_cases h2 : m = 2
  · subst h2
    by_cases hl : QDate.isLeapYear y = true
    · refine ⟨29, by omega, by omega, ?_, ?_⟩
      · intro d hd1 hd
        rw [isValidYMD_iff]
        refine ⟨hy, hd1, by omega, by omega, ?_⟩
        by_cases h29 : d = 29
        · exact Or.inr ⟨h29, rfl, hl⟩
        · left
          unfold QDate.monthDays
          simp only [if_true]
          omega
      · have := (isLeapYear_iff y).mp hl
        simp only [julianDayFromDate_eq]
        norm_num
        split_ifs at this ⊢ <;> omega
    · refine ⟨28, by omega, by omega, ?_, ?_⟩
      · intro d hd1 hd
        rw [isValidYMD_iff]
        refine ⟨hy, hd1, by omega, by omega, Or.inl ?_⟩
        unfold QDate.monthDays
        simp only [if_true]
        exact hd
      · have := (isLeapYear_iff y).not.mp hl
        simp only [julianDayFromDate_eq]
        norm_num
        split_ifs at this ⊢ <;> omega
  · by_cases h12 : m = 12
    · subst h12
      refine ⟨31, by omega, by omega, ?_, ?_⟩
      · intro d hd1 hd
        rw [isValidYMD_iff]
        refine ⟨hy, hd1, by omega, by omega, Or.inl ?_⟩
        unfold QDate.monthDays
        norm_num
        exact hd
      · simp only [julianDayFromDate_eq]
        norm_num
        split_ifs <;> omega
    · refine ⟨QDate.monthDays m, ?_, ?_, ?_, ?_⟩
      · unfold QDate.monthDays
        split_ifs <;> omega
      · unfold QDate.monthDays
        split_ifs <;> omega
      · intro d hd1 hd
        rw [isValidYMD_iff]
        exact ⟨hy, hd1, by omega, by omega, Or.inl hd⟩
      · simp only [julianDayFromDate_eq, if_neg h12]
        unfold QDate.monthDays
        have hm : m = 1 ∨ m = 3 ∨ m = 4 ∨ m = 5 ∨ m = 6 ∨ m = 7 ∨ m = 8 ∨ m = 9 ∨ m = 10
            ∨ m = 11 := by omega
        rcases hm with h | h | h | h | h | h | h | h | h | h <;> subst h <;> norm_num <;>
          split_ifs <;> omega

theorem yearOfMonthIndex_ne_zero (n : Int) : yearOfMonthIndex n ≠ 0 := by
  unfold yearOfMonthIndex
  split_ifs <;> omega

/-- The first day of a month of the calendar, by the index of the month. -/
theorem monthStart_monthIndex {y m : Int} (hy : y ≠ 0) (hm1 : 1 ≤ m) (hm12 : m ≤ 12) :
    monthStart (monthIndex y m) = QDate.julianDayFromDate y m 1 ∧
      yearOfMonthIndex (monthIndex y m) = y ∧ monthIndex y m % 12 + 1 = m ∧
      yearOfMonthIndex (monthIndex y m - 12) = previousYear y := by
  have h1 : yearOfMonthIndex (monthIndex y m) = y := by
    unfold yearOfMonthIndex monthIndex
    split_ifs <;> omega
  have h2 : monthIndex y m % 12 + 1 = m := by
    unfold monthIndex
    split_ifs <;> omega
  have h3 : yearOfMonthIndex (monthIndex y m - 12) = previousYear y := by
    unfold yearOfMonthIndex monthIndex previousYear
    split_ifs <;> omega
  refine ⟨?_, h1, h2, h3⟩
  unfold monthStart
  rw [h1, h2]

/-- The months follow each other: the day after the last day of a month is
the first day of the month with the next index. -/
theorem monthStart_succ (n : Int) :
    ∃ len : Int, 28 ≤ len ∧ len ≤ 31 ∧ monthStart (n + 1) = monthStart n + len ∧
      ∀ d : Int, 1 ≤ d → d ≤ len →
        QDate.isValidYMD (yearOfMonthIndex n) (n % 12 + 1) d = true := by
  obtain ⟨len, h1, h2, hin, he⟩ :=
    month_after (yearOfMonthIndex_ne_zero n) (show 1 ≤ n % 12 + 1 by omega)
      (show n % 12 + 1 ≤ 12 by omega)
  refine ⟨len, h1, h2, ?_, hin⟩
  have hy : yearOfMonthIndex (n + 1)
      = (if n % 12 + 1 = 12 then (if yearOfMonthIndex n = -1 then 1 else yearOfMonthIndex n + 1)
          else yearOfMonthIndex n) := by
    unfold yearOfMonthIndex
    split_ifs <;> omega
  have hm : (n + 1) % 12 + 1 = (if n % 12 + 1 = 12 then 1 else n % 12 + 1 + 1) := by
    split_ifs <;> omega
  unfold monthStart
  rw [hy, hm, ← he]

/-- The dates of a month, by the index of the month. -/
theorem fields_in_month {n jd : Int} (hlo : -25769803764 ≤ n) (hhi : n ≤ 25769803775)
    (h1 : monthStart n ≤ jd) (h2 : jd < monthStart (n + 1)) :
    (QDate.mk jd).isValid = true ∧ (QDate.mk jd).year = yearOfMonthIndex n ∧
      (QDate.mk jd).month = n % 12 + 1 := by
  obtain ⟨len, _, _, he, hin⟩ := monthStart_succ n
  have hv := hin (1 + (jd - monthStart n)) (by omega) (by omega)
  have hylo : -2147483648 ≤ yearOfMonthIndex n := by
    unfold yearOfMonthIndex
    split_ifs <;> omega
  have hyhi : yearOfMonthIndex n ≤ 2147483647 := by
    unfold yearOfMonthIndex
    split_ifs <;> omega
  have hf := fields_of_date hv hylo hyhi
  rw [julianDayFromDate_add] at hf
  have e : QDate.julianDayFromDate (yearOfMonthIndex n) (n % 12 + 1) 1 + (jd - monthStart n)
      = jd := by
    unfold monthStart
    ring
  rw [e] at hf
  exact ⟨hf.1, hf.2.1, hf.2.2.1⟩

/-- The first days of the months `k` months apart are 28k to 31k days apart. -/
theorem monthStart_span (n : Int) : ∀ k : Nat,
    monthStart n + 28 * (k : Int) ≤ monthStart (n + (k : Int)) ∧
      monthStart (n + (k : Int)) ≤ monthStart n + 31 * (k : Int) := by
  intro k
  induction k with
  | zero => simp
  | succ k ih =>
    obtain ⟨len, h1, h2, he, _⟩ := monthStart_succ (n + (k : Int))
    have e : n + ((k + 1 : Nat) : Int) = n + (k : Int) + 1 := by push_cast; ring
    rw [e, he]
    push_cast
    omega

/-- A day within a run of `k` months is within one of them. -/
theorem monthStart_cover (n : Int) : ∀ (k : Nat) (jd : Int), monthStart n ≤ jd →
    jd < monthStart (n + (k : Int)) →
    ∃ j : Int, 0 ≤ j ∧ j < (k : Int) ∧ monthStart (n + j) ≤ jd ∧
      jd < monthStart (n + j + 1) := by
  intro k
  induction k with
  | zero =>
    intro jd h1 h2
    simp at h2
    omega
  | succ k ih =>
    intro jd h1 h2
    have e : n + ((k + 1 : Nat) : Int) = n + (k : Int) + 1 := by push_cast; ring
    rw [e] at h2
    by_cases hc : jd < monthStart (n + (k : Int))
    · obtain ⟨j, hj0, hj, ha, hb⟩ := ih jd h1 hc
      exact ⟨j, hj0, by push_cast; omega, ha, hb⟩
    · exact ⟨(k : Int), by omega, by push_cast; omega, by omega, h2⟩

/-- The loop on a date `k` weeks after the last date of its weekday in the
requested month: `k` rounds, each a week back, and one more test end it. -/
theorem backIntoMonth_walk {wMonth : Nat} : ∀ (k fuel : Nat) (jd : Int), k + 1 ≤ fuel →
    (∀ j : Int, 0 ≤ j → j < (k : Int) → (QDate.mk (jd - 7 * j)).isValid = true ∧
      (QDate.mk (jd - 7 * j)).month ≠ (wMonth : Int)) →
    (QDate.mk (jd - 7 * (k : Int))).isValid = true →
    (QDate.mk (jd - 7 * (k : Int))).month = (wMonth : Int) →
    backIntoMonth wMonth fuel ⟨jd⟩ = some ⟨jd - 7 * (k : Int)⟩ := by
  intro k
  induction k with
  | zero =>
    intro fuel jd hf _ _ hm
    simp only [Nat.cast_zero, mul_zero, sub_zero] at hm ⊢
    exact backIntoMonth_stop (by omega) hm
  | succ k ih =>
    intro fuel jd hf hout hv hm
    obtain ⟨f, rfl⟩ : ∃ f, fuel = f + 1 := ⟨fuel - 1, by omega⟩
    obtain ⟨hv0, hm0⟩ := hout 0 (le_refl _) (by push_cast; omega)
    simp only [mul_zero, sub_zero] at hv0 hm0
    have e : jd - 7 * ((k + 1 : Nat) : Int) = jd + -7 - 7 * (k : Int) := by push_cast; ring
    rw [e] at hv hm ⊢
    have r0 := (isValid_iff _).mp hv0
    have r1 := (isValid_iff _).mp hv
    simp only at r0 r1
    rw [backIntoMonth_step f hm0,
      addDays_of_valid hv0 (by simp only; omega) (by simp only; omega)]
    refine ih f (jd + -7) (by omega) ?_ hv hm
    intro j hj0 hj
    have e2 : jd + -7 - 7 * j = jd - 7 * (j + 1) := by ring
    rw [e2]
    exact hout (j + 1) (by omega) (by push_cast; omega)
/-! ### The ordinal 0 -/

/-- C34 fails as stated for the year 1: the calendar of QDate has no year 0,
so the last Sunday of March the loop walks back to is that of the year -1
(26 March), not one of a year y - 1 = 0, a year in which nothing is a date.
For the year 0 itself, and for the least `int` year, before which QDate has no
dates (here with January), the loop never ends, whatever the fuel. -/
theorem calculateTransitionLocalDate_ordinal0_counterexample :
    (calculateTransitionLocalDate 50 (relativeRule 3 0 0 2) 1 = some (QDate.ofYMD (-1) 3 26) ∧
      (QDate.ofYMD (-1) 3 26).isValid = true ∧
      (QDate.ofYMD (-1) 3 26).year = -1 ∧
      (QDate.ofYMD (-1) 3 26).year ≠ 1 - 1 ∧
      (QDate.ofYMD (1 - 1) 3 26).isValid = false) ∧
    (¬ ∃ (fuel : Nat) (date : QDate),
      calculateTransitionLocalDate fuel (relativeRule 3 0 0 2) 0 = some date) ∧
    (¬ ∃ (fuel : Nat) (date : QDate),
      calculateTransitionLocalDate fuel (relativeRule 1 0 0 2) (-2147483648) = some date) := by
  refine ⟨by decide, ?_, ?_⟩
  · rintro ⟨fuel, date, h⟩
    rw [calculateTransitionLocalDate_year0 (by decide) rfl] at h
    cases h
  · rintro ⟨fuel, date, h⟩
    have h0 : relativeStartDate (relativeRule 1 0 0 2) (-2147483648) = QDate.null := by decide
    unfold calculateTransitionLocalDate at h
    simp only [relativeRule, OfNat.ofNat_ne_zero, if_false, if_true] at h
    simp only [relativeRule] at h0
    rw [h0, backIntoMonth_null (by decide)] at h
    cases h

/-- C34 (amended): for a relative SYSTEMTIME (wYear 0) with month in 1..12,
wDayOfWeek in 0..7 and wDay 0, and every `int` year y other than 0 and the
least one, calculateTransitionLocalDate returns (with fuel for 50 tests of the
loop condition) a date that is not in the year y: the last such weekday of the
same month of the year before y, which is y - 1, or -1 for y = 1, the calendar
having no year 0. The date is in that month of that year, has the requested
weekday, and the date seven days later is in another month. -/
theorem calculateTransitionLocalDate_ordinal0 (fuel : Nat) (rule : SYSTEMTIME) (year : Int)
    (hfuel : 50 ≤ fuel) (hrel : rule.wYear = 0) (hm1 : 1 ≤ rule.wMonth)
    (hm12 : rule.wMonth ≤ 12) (hdow : rule.wDayOfWeek ≤ 7) (h0 : rule.wDay = 0)
    (hy : year ≠ 0) (hlo : -2147483648 < year) (hhi : year ≤ 2147483647) :
    ∃ date, calculateTransitionLocalDate fuel rule year = some date ∧
      date.isValid = true ∧ date.year ≠ year ∧ date.year = previousYear year ∧
      date.month = rule.wMonth ∧
      date.dayOfWeek = (if rule.wDayOfWeek = 0 then 7 else (rule.wDayOfWeek : Int)) ∧
      (date.addDays 7).isValid = true ∧ (date.addDays 7).month ≠ rule.wMonth := by
  have hm1' : (1 : Int) ≤ (rule.wMonth : Int) := by exact_mod_cast hm1
  have hm12' : (rule.wMonth : Int) ≤ 12 := by exact_mod_cast hm12
  have h0' : (rule.wDay : Int) = 0 := by exact_mod_cast h0
  have hm0 : rule.wMonth ≠ 0 := by omega
  obtain ⟨_, hb2⟩ := julianDay_first_bounds (le_of_lt hlo) (Or.inl hlo) hhi hm1' hm12'
  obtain ⟨off, ho1, ho2, how, hstart⟩ :=
    relativeStartDate_eq hy (le_of_lt hlo) (Or.inl hlo) hhi hm1 hm12 hdow (by omega)
  obtain ⟨hB, _, hmn, hyp⟩ := monthStart_monthIndex hy hm1' hm12'
  have hnlo : -25769803752 ≤ monthIndex year rule.wMonth := by
    unfold monthIndex
    split_ifs <;> omega
  have hnhi : monthIndex year rule.wMonth ≤ 25769803775 := by
    unfold monthIndex
    split_ifs <;> omega
  generalize monthIndex year (rule.wMonth : Int) = n at hB hmn hyp hnlo hnhi
  rw [← hB] at how hstart hb2
  have hstart2 : relativeStartDate rule year = ⟨monthStart n + off⟩ := by
    rw [hstart, h0']
    simp
  -- the month of the year before, and the eleven months between it and this one
  obtain ⟨len, hl1, hl2, hA, _⟩ := monthStart_succ (n - 12)
  have e1 : n - 12 + 1 = n - 11 := by ring
  rw [e1] at hA
  have hspan := monthStart_span (n - 11) 11
  have e2 : n - 11 + ((11 : Nat) : Int) = n := by push_cast; ring
  rw [e2] at hspan
  push_cast at hspan
  have between : ∀ jd : Int, monthStart (n - 11) ≤ jd → jd < monthStart n →
      (QDate.mk jd).isValid = true ∧ (QDate.mk jd).month ≠ (rule.wMonth : Int) := by
    intro jd h1 h2
    obtain ⟨j, hj0, hj, ha, hb⟩ := monthStart_cover (n - 11) 11 jd h1 (by rw [e2]; exact h2)
    push_cast at hj
    obtain ⟨hv, _, hmo⟩ := fields_in_month (n := n - 11 + j) (by omega) (by omega) ha hb
    refine ⟨hv, ?_⟩
    rw [hmo]
    omega
  obtain ⟨k, hk⟩ : ∃ k : Nat,
      (k : Int) = (monthStart n + off - monthStart (n - 11)) / 7 + 1 :=
    ⟨((monthStart n + off - monthStart (n - 11)) / 7 + 1).toNat,
      Int.toNat_of_nonneg (by omega)⟩
  have hT := @fields_in_month (n - 12) (monthStart n + off - 7 * (k : Int))
    (by omega) (by omega) (by omega) (by rw [e1]; omega)
  obtain ⟨hvT, hyT, hmT⟩ := hT
  have hmT2 : (QDate.mk (monthStart n + off - 7 * (k : Int))).month = (rule.wMonth : Int) := by
    rw [hmT]
    omega
  have hwalk : backIntoMonth rule.wMonth fuel ⟨monthStart n + off⟩
      = some ⟨monthStart n + off - 7 * (k : Int)⟩ :=
    backIntoMonth_walk k fuel (monthStart n + off) (by omega)
      (fun j hj0 hj => between _ (by omega) (by omega)) hvT hmT2
  have hseven : (QDate.mk (monthStart n + off - 7 * (k : Int))).addDays 7
      = ⟨monthStart n + off - 7 * (k : Int) + 7⟩ := by
    have r := (isValid_iff _).mp hvT
    simp only at r
    exact addDays_of_valid hvT (by simp only; omega) (by simp only; omega)
  obtain ⟨hv7, hm7⟩ := between (monthStart n + off - 7 * (k : Int) + 7) (by omega) (by omega)
  refine ⟨⟨monthStart n + off - 7 * (k : Int)⟩, ?_, hvT, ?_, ?_, hmT2, ?_, ?_, ?_⟩
  · unfold calculateTransitionLocalDate
    simp only [hm0, hrel, if_true, if_false, hstart2]
    exact hwalk
  · rw [hyT, hyp]
    unfold previousYear
    split_ifs <;> omega
  · rw [hyT, hyp]
  · rw [dayOfWeek_of_valid hvT, ← how]
    simp only
    omega
  · rw [hseven]
    exact hv7
  · rw [hseven]
    exact hm7

/-- Witness of C34 (amended): for the year 2023 the ordinal 0 with Sunday and
March gives the last Sunday of March 2022. -/
theorem calculateTransitionLocalDate_ordinal0_witness :
    ∃ date, calculateTransitionLocalDate 50 (relativeRule 3 0 0 2) 2023 = some date ∧
      date.isValid = true ∧ date.year ≠ 2023 ∧ date.year = previousYear 2023 ∧
      date.month = (3 : Nat) ∧
      date.dayOfWeek = (if 0 = 0 then 7 else ((0 : Nat) : Int)) ∧
      (date.addDays 7).isValid = true ∧ (date.addDays 7).month ≠ (3 : Nat) :=
  calculateTransitionLocalDate_ordinal0 50 (relativeRule 3 0 0 2) 2023 (by decide) rfl
    (by decide) (by decide) (by decide) rfl (by decide) (by decide) (by decide)

/-- The result for the year 2023 and the Tuesdays of February, computed:
22 February 2022, found by the 50th test of the loop condition and not by the
49th. -/
theorem calculateTransitionLocalDate_ordinal0_sample :
    calculateTransitionLocalDate 50 (relativeRule 2 2 0 2) 2023 = some (QDate.ofYMD 2022 2 22) ∧
    calculateTransitionLocalDate 49 (relativeRule 2 2 0 2) 2023 = none := by
  decide

/-! ### The round of data at MIN_YEAR -/

/-- The ranges of the DaySpec matter at MIN_YEAR: with the ordinal 54 the
daylight date of the year before MIN_YEAR is in November of MIN_YEAR, so that
in December of MIN_YEAR `data` reports standard time while the loop entered at
MIN_YEAR - 1 reports daylight time. -/
theorem data_round_ordinal54 :
    ¬ InRange (relativeRule 11 0 54 2) ∧
    (msecsToDate (-9223372018454775808)).year = MIN_YEAR ∧
    data ordinal54Zone 2 2 (-9223372018454775808)
      = some ⟨"OFS", -9223372018454775808, -18000, -18000, 0⟩ ∧
    dataFrom ordinal54Zone 1 2 (-9223372018454775808) (MIN_YEAR - 1)
        ⟨9223372031372751616, -9223371989715600000⟩
      = some ⟨"OFD", -9223372018454775808, -14400, -18000, 3600⟩ := by
  decide

/-- The first start year matters at MIN_YEAR: in a table whose first rule
starts a year before MIN_YEAR, which init does not build, `data` at the
instant -9223372036854775807 leaves the loop on the rule of MIN_YEAR and
reports its standard time (3600 s), whereas the loop entered at the year
MIN_YEAR - 1 finds the rule that starts there and reports its standard time
(0 s). -/
theorem data_round_early_table :
    (msecsToDate (-9223372036854775807)).year = MIN_YEAR ∧
    data earlyZone 2 0 (-9223372036854775807)
      = some ⟨"ERS", -9223372036854775807, 3600, 3600, 0⟩ ∧
    dataFrom earlyZone 1 0 (-9223372036854775807) (MIN_YEAR - 1) ⟨invalidMSecs, 1269738000000⟩
      = some ⟨"ERS", -9223372036854775807, 0, 0, 0⟩ := by
  decide

end QWinTimeZone
